import Mathlib

/-!
Verification of the binary codec core of the storage engine: the MVCC lock
codec and its conflict check, the MySQL time codec (packed forms, rounding,
integer parsing, identity), and the MySQL binary JSON codec (numeric
conversion and object construction).  Rust sources are embedded shallowly:
machine integers become `Nat` with explicit bounds, byte slices become
`List Nat` of values below 256, fallible code returns `Except`.
-/

set_option maxRecDepth 10000
set_option maxHeartbeats 1000000

namespace TikvSpec


/-- Bytes are modelled as lists of naturals; well-formed bytes are below 256. -/
abbrev Bytes := List Nat

/-- Errors of the byte-level reader primitives. -/
inductive CodecErr
  | eof
  deriving DecidableEq, Repr

instance {e a : Type} [DecidableEq e] [DecidableEq a] :
    DecidableEq (Except e a) := fun x y =>
  match x, y with
  | .error u, .error v =>
    if h : u = v then isTrue (by rw [h])
    else isFalse (by intro hh; cases hh; exact h rfl)
  | .ok u, .ok v =>
    if h : u = v then isTrue (by rw [h])
    else isFalse (by intro hh; cases hh; exact h rfl)
  | .error _, .ok _ => isFalse (by intro hh; cases hh)
  | .ok _, .error _ => isFalse (by intro hh; cases hh)

/-- Structurally recursive worker for `encodeVarU64`; the fuel strictly
exceeds the value, which is enough since the value shrinks every step. -/
def encodeVarU64Go : Nat → Nat → Bytes
  | 0, _ => []
  | fuel + 1, v =>
    if v < 0x80 then [v]
    else (v % 0x80 + 0x80) :: encodeVarU64Go fuel (v / 0x80)

/-- Modelled from the spec: the variable-length integer codec
(`encode_var_u64`) assumed by §6.2 — little-endian base-128 groups, high bit
set on every group except the last. -/
def encodeVarU64 (v : Nat) : Bytes := encodeVarU64Go (v + 1) v

/-- Modelled from the spec: `decode_var_u64` — reads base-128 groups until one
with the high bit clear; errors when the input runs out. -/
def decodeVarU64 : Bytes → Except CodecErr (Nat × Bytes)
  | [] => .error .eof
  | b :: rest =>
    if b < 0x80 then .ok (b, rest)
    else
      match decodeVarU64 rest with
      | .error e => .error e
      | .ok (v, r) => .ok (v * 0x80 + (b - 0x80), r)

/-- Modelled from the spec: fixed-width 8-byte little-endian writer (§6.2). -/
def encodeU64 (v : Nat) : Bytes :=
  [v % 256, v / 256 % 256, v / 256 ^ 2 % 256, v / 256 ^ 3 % 256,
   v / 256 ^ 4 % 256, v / 256 ^ 5 % 256, v / 256 ^ 6 % 256, v / 256 ^ 7 % 256]

/-- Modelled from the spec: fixed-width 8-byte reader; errors when fewer than
8 bytes remain. -/
def decodeU64 : Bytes → Except CodecErr (Nat × Bytes)
  | b0 :: b1 :: b2 :: b3 :: b4 :: b5 :: b6 :: b7 :: rest =>
    .ok (b0 + 256 * b1 + 256 ^ 2 * b2 + 256 ^ 3 * b3 + 256 ^ 4 * b4
         + 256 ^ 5 * b5 + 256 ^ 6 * b6 + 256 ^ 7 * b7, rest)
  | _ => .error .eof

/-- Modelled from the spec: "compact bytes" — varint length prefix followed by
the raw bytes (§6.2). -/
def encodeCompactBytes (bs : Bytes) : Bytes :=
  encodeVarU64 bs.length ++ bs

/-- Modelled from the spec: compact-bytes reader; errors when fewer bytes than
announced remain. -/
def decodeCompactBytes (b : Bytes) : Except CodecErr (Bytes × Bytes) :=
  match decodeVarU64 b with
  | .error e => .error e
  | .ok (len, r) =>
    if r.length < len then .error .eof
    else .ok (r.take len, r.drop len)

/-! ## Lock codec (`components/txn_types/src/lock.rs`) -/

/-- `LockType` from lock.rs. -/
inductive LockType
  | put
  | delete
  | lock
  | pessimistic
  deriving DecidableEq, Repr

/-- `LockType::to_u8`: the flag bytes `'P' 'D' 'L' 'S'`. -/
def LockType.toU8 : LockType → Nat
  | .put => 80
  | .delete => 68
  | .lock => 76
  | .pessimistic => 83

/-- `LockType::from_u8`. -/
def LockType.fromU8 (b : Nat) : Option LockType :=
  if b = 80 then some .put
  else if b = 68 then some .delete
  else if b = 76 then some .lock
  else if b = 83 then some .pessimistic
  else none

/-- `LastChange` from txn_types (declared outside src): Unknown, NotExist, or
Exist with the last change's ts and an estimate of versions to it (spec §3.3). -/
inductive LastChange
  | unknown
  | notExist
  | exist (ts : Nat) (estimatedVersions : Nat)
  deriving DecidableEq, Repr

/-- Modelled from the spec: `LastChange::to_parts`, the (fixed u64, varuint)
body of the `l` tag in §4.3; `Unknown` is the all-default value omitted on
write, `NotExist` is encoded with a zero ts. -/
def LastChange.toParts : LastChange → Nat × Nat
  | .unknown => (0, 0)
  | .notExist => (0, 1)
  | .exist ts v => (ts, v)

/-- Modelled from the spec: `LastChange::from_parts`, the inverse used by
`Lock::parse` for the `l` tag. -/
def LastChange.fromParts (ts versions : Nat) : LastChange :=
  if ts = 0 then
    if versions = 0 then .unknown else .notExist
  else .exist ts versions

/-- The `Lock` record (lock.rs); u64 fields are naturals, raw keys are bytes. -/
structure Lock where
  lockType : LockType
  primary : Bytes
  ts : Nat
  ttl : Nat
  shortValue : Option Bytes
  forUpdateTs : Nat
  txnSize : Nat
  minCommitTs : Nat
  useAsyncCommit : Bool
  useOnePc : Bool
  secondaries : List Bytes
  rollbackTs : List Nat
  lastChange : LastChange
  txnSource : Nat
  isLockedWithConflict : Bool
  generation : Nat
  deriving DecidableEq, Repr

/-- `Lock::new`: constructor with defaulted optional fields. -/
def Lock.new (lockType : LockType) (primary : Bytes) (ts ttl : Nat)
    (shortValue : Option Bytes) (forUpdateTs txnSize minCommitTs : Nat)
    (isLockedWithConflict : Bool) : Lock :=
  { lockType, primary, ts, ttl, shortValue, forUpdateTs, txnSize, minCommitTs,
    useAsyncCommit := false, useOnePc := false, secondaries := [],
    rollbackTs := [], lastChange := .unknown, txnSource := 0,
    isLockedWithConflict, generation := 0 }

/-- Tag byte for an inlined short value (`SHORT_VALUE_PREFIX = b'v'`). -/
def SHORT_VALUE_PREFIX : Nat := 118

def FOR_UPDATE_TS_PREFIX : Nat := 102

def TXN_SIZE_PREFIX : Nat := 116

def MIN_COMMIT_TS_PREFIX : Nat := 99

def ASYNC_COMMIT_PREFIX : Nat := 97

def ROLLBACK_TS_PREFIX : Nat := 114

def LAST_CHANGE_PREFIX : Nat := 108

def TXN_SOURCE_PREFIX : Nat := 115

def PESSIMISTIC_LOCK_WITH_CONFLICT_PREFIX : Nat := 70

def GENERATION_PREFIX : Nat := 103

/-- `Lock::to_bytes`: flag byte, compact-bytes primary, varint ts and ttl, then
the optional tagged fields in the reference order, defaults omitted. -/
def Lock.toBytes (l : Lock) : Bytes :=
  [l.lockType.toU8] ++ encodeCompactBytes l.primary
    ++ encodeVarU64 l.ts ++ encodeVarU64 l.ttl
    ++ (match l.shortValue with
        | some v => SHORT_VALUE_PREFIX :: (v.length % 256) :: v
        | none => [])
    ++ (if l.forUpdateTs ≠ 0 then FOR_UPDATE_TS_PREFIX :: encodeU64 l.forUpdateTs else [])
    ++ (if l.txnSize > 0 then TXN_SIZE_PREFIX :: encodeU64 l.txnSize else [])
    ++ (if l.minCommitTs ≠ 0 then MIN_COMMIT_TS_PREFIX :: encodeU64 l.minCommitTs else [])
    ++ (if l.useAsyncCommit then
          ASYNC_COMMIT_PREFIX :: encodeVarU64 l.secondaries.length
            ++ (l.secondaries.map encodeCompactBytes).flatten
        else [])
    ++ (if l.rollbackTs ≠ [] then
          ROLLBACK_TS_PREFIX :: encodeVarU64 l.rollbackTs.length
            ++ (l.rollbackTs.map encodeU64).flatten
        else [])
    ++ (if l.lastChange ≠ .unknown then
          LAST_CHANGE_PREFIX :: encodeU64 l.lastChange.toParts.1
            ++ encodeVarU64 l.lastChange.toParts.2
        else [])
    ++ (if l.txnSource ≠ 0 then TXN_SOURCE_PREFIX :: encodeVarU64 l.txnSource else [])
    ++ (if l.isLockedWithConflict then [PESSIMISTIC_LOCK_WITH_CONFLICT_PREFIX] else [])
    ++ (if l.generation > 0 then GENERATION_PREFIX :: encodeU64 l.generation else [])

/-- Errors (and the panic) surfaced by `Lock::parse`. -/
inductive LockErr
  | badFormatLock
  | codec (e : CodecErr)
  /-- The explicit `panic!` in the short-value branch: announced length and
  remaining byte count. -/
  | panicShortValue (len remaining : Nat)
  /-- Artifact of the fuel-based embedding of the parsing loop; proved
  unreachable for the fuel `Lock::parse` supplies. -/
  | outOfFuel
  deriving DecidableEq, Repr

/-- The mutable locals of `Lock::parse`'s tag loop. -/
structure TagState where
  shortValue : Option Bytes
  forUpdateTs : Nat
  txnSize : Nat
  minCommitTs : Nat
  useAsyncCommit : Bool
  secondaries : List Bytes
  rollbackTs : List Nat
  lastChangeTs : Nat
  estimatedVersions : Nat
  txnSource : Nat
  isLockedWithConflict : Bool
  generation : Nat
  deriving DecidableEq, Repr

/-- Initial values of the locals of the tag loop. -/
def TagState.init : TagState :=
  { shortValue := none, forUpdateTs := 0, txnSize := 0, minCommitTs := 0,
    useAsyncCommit := false, secondaries := [], rollbackTs := [],
    lastChangeTs := 0, estimatedVersions := 0, txnSource := 0,
    isLockedWithConflict := false, generation := 0 }

/-- The `(0..len).map(decode_compact_bytes)` collection in the async-commit
branch of `Lock::parse`. -/
def decodeNCompact : Nat → Bytes → Except CodecErr (List Bytes × Bytes)
  | 0, b => .ok ([], b)
  | n + 1, b =>
    match decodeCompactBytes b with
    | .error e => .error e
    | .ok (k, r) =>
      match decodeNCompact n r with
      | .error e => .error e
      | .ok (ks, r') => .ok (k :: ks, r')

/-- The rollback-ts loop of `Lock::parse`: `len` fixed u64 values. -/
def decodeNU64 : Nat → Bytes → Except CodecErr (List Nat × Bytes)
  | 0, b => .ok ([], b)
  | n + 1, b =>
    match decodeU64 b with
    | .error e => .error e
    | .ok (v, r) =>
      match decodeNU64 n r with
      | .error e => .error e
      | .ok (vs, r') => .ok (v :: vs, r')

/-- Outcome of one iteration of the tag loop of `Lock::parse`. -/
inductive TagStep
  /-- Unknown tag: stop parsing for forward compatibility, keep what was read. -/
  | stop (st : TagState) (rest : Bytes)
  /-- A known tag was consumed; continue the loop on the remaining bytes. -/
  | next (b : Bytes) (st : TagState)
  | fail (e : LockErr)
  deriving DecidableEq, Repr

/-- One iteration of the tag loop of `Lock::parse`, dispatching on the tag
byte already read. -/
def tagStep (tag : Nat) (b : Bytes) (st : TagState) : TagStep :=
  if tag = SHORT_VALUE_PREFIX then
    match b with
    | [] => .fail (.codec .eof)
    | len :: b' =>
      if b'.length < len then .fail (.panicShortValue len b'.length)
      else .next (b'.drop len) { st with shortValue := some (b'.take len) }
  else if tag = FOR_UPDATE_TS_PREFIX then
    match decodeU64 b with
    | .error e => .fail (.codec e)
    | .ok (v, r) => .next r { st with forUpdateTs := v }
  else if tag = TXN_SIZE_PREFIX then
    match decodeU64 b with
    | .error e => .fail (.codec e)
    | .ok (v, r) => .next r { st with txnSize := v }
  else if tag = MIN_COMMIT_TS_PREFIX then
    match decodeU64 b with
    | .error e => .fail (.codec e)
    | .ok (v, r) => .next r { st with minCommitTs := v }
  else if tag = ASYNC_COMMIT_PREFIX then
    match decodeVarU64 b with
    | .error e => .fail (.codec e)
    | .ok (len, r) =>
      match decodeNCompact len r with
      | .error e => .fail (.codec e)
      | .ok (ks, r') =>
        .next r' { st with useAsyncCommit := true, secondaries := ks }
  else if tag = ROLLBACK_TS_PREFIX then
    match decodeVarU64 b with
    | .error e => .fail (.codec e)
    | .ok (len, r) =>
      match decodeNU64 len r with
      | .error e => .fail (.codec e)
      | .ok (vs, r') => .next r' { st with rollbackTs := vs }
  else if tag = LAST_CHANGE_PREFIX then
    match decodeU64 b with
    | .error e => .fail (.codec e)
    | .ok (ts, r) =>
      match decodeVarU64 r with
      | .error e => .fail (.codec e)
      | .ok (versions, r') =>
        .next r' { st with lastChangeTs := ts, estimatedVersions := versions }
  else if tag = TXN_SOURCE_PREFIX then
    match decodeVarU64 b with
    | .error e => .fail (.codec e)
    | .ok (v, r) => .next r { st with txnSource := v }
  else if tag = PESSIMISTIC_LOCK_WITH_CONFLICT_PREFIX then
    .next b { st with isLockedWithConflict := true }
  else if tag = GENERATION_PREFIX then
    match decodeU64 b with
    | .error e => .fail (.codec e)
    | .ok (v, r) => .next r { st with generation := v }
  else
    .stop st b

/-- The tag loop of `Lock::parse`.  One fuel unit is spent per iteration; the
caller supplies more fuel than there are input bytes, which is enough because
every iteration consumes at least the tag byte. -/
def parseTags : Nat → Bytes → TagState → Except LockErr (TagState × Bytes)
  | _, [], st => .ok (st, [])
  | 0, _ :: _, _ => .error .outOfFuel
  | fuel + 1, tag :: b, st =>
    match tagStep tag b st with
    | .stop st' rest => .ok (st', rest)
    | .fail e => .error e
    | .next b' st' => parseTags fuel b' st'

/-- Assembling the `Lock` from the parsed locals, as the tail of
`Lock::parse` does via `Lock::new` and the builder methods. -/
def TagState.assemble (st : TagState) (lockType : LockType) (primary : Bytes)
    (ts ttl : Nat) : Lock :=
  { lockType, primary, ts, ttl,
    shortValue := st.shortValue,
    forUpdateTs := st.forUpdateTs,
    txnSize := st.txnSize,
    minCommitTs := st.minCommitTs,
    useAsyncCommit := st.useAsyncCommit,
    useOnePc := false,
    secondaries := if st.useAsyncCommit then st.secondaries else [],
    rollbackTs := st.rollbackTs,
    lastChange := LastChange.fromParts st.lastChangeTs st.estimatedVersions,
    txnSource := st.txnSource,
    isLockedWithConflict := st.isLockedWithConflict,
    generation := st.generation }

/-- `Lock::parse`. -/
def Lock.parse (b : Bytes) : Except LockErr Lock :=
  match b with
  | [] => .error .badFormatLock
  | t :: b0 =>
    match LockType.fromU8 t with
    | none => .error .badFormatLock
    | some lockType =>
      match decodeCompactBytes b0 with
      | .error e => .error (.codec e)
      | .ok (primary, b1) =>
        match decodeVarU64 b1 with
        | .error e => .error (.codec e)
        | .ok (ts, b2) =>
          match b2 with
          | [] => .ok (Lock.new lockType primary ts 0 none 0 0 0 false)
          | _ :: _ =>
            match decodeVarU64 b2 with
            | .error e => .error (.codec e)
            | .ok (ttl, b3) =>
              match b3 with
              | [] => .ok (Lock.new lockType primary ts ttl none 0 0 0 false)
              | _ :: _ =>
                match parseTags (b3.length + 1) b3 TagState.init with
                | .error e => .error e
                | .ok (st, _) => .ok (st.assemble lockType primary ts ttl)

/-- The tag loop at its canonical fuel (one more than the byte count). -/
def parseTagsA (b : Bytes) (st : TagState) : Except LockErr (TagState × Bytes) :=
  parseTags (b.length + 1) b st

/-- The tag bytes recognised by the parsing loop; any other byte stops it. -/
def knownTagPrefixes : List Nat :=
  [SHORT_VALUE_PREFIX, FOR_UPDATE_TS_PREFIX, TXN_SIZE_PREFIX,
   MIN_COMMIT_TS_PREFIX, ASYNC_COMMIT_PREFIX, ROLLBACK_TS_PREFIX,
   LAST_CHANGE_PREFIX, TXN_SOURCE_PREFIX,
   PESSIMISTIC_LOCK_WITH_CONFLICT_PREFIX, GENERATION_PREFIX]

/-- The optional short-value segment of `Lock::to_bytes`. -/
def svSeg : Option Bytes → Bytes
  | some v => SHORT_VALUE_PREFIX :: (v.length % 256) :: v
  | none => []

/-- Well-formedness of a `LastChange` value as persisted: `Exist` carries a
non-zero u64 timestamp, so that the parts round-trip. -/
def lastChangeWf : LastChange → Prop
  | .unknown => True
  | .notExist => True
  | .exist ts _ => ts ≠ 0 ∧ ts < 2 ^ 64

instance : (lc : LastChange) → Decidable (lastChangeWf lc)
  | .unknown => isTrue trivial
  | .notExist => isTrue trivial
  | .exist ts _ => inferInstanceAs (Decidable (ts ≠ 0 ∧ ts < 2 ^ 64))

/-- A `Lock` value within u64 / byte ranges that the wire format can carry:
all numeric fields fit in 64 bits, a short value fits its one-byte length,
`secondaries` is only set together with `use_async_commit`, and `last_change`
is one of the persistable shapes. -/
def Lock.encodeWf (l : Lock) : Prop :=
  l.ts < 2 ^ 64 ∧ l.ttl < 2 ^ 64 ∧ l.forUpdateTs < 2 ^ 64 ∧
  l.txnSize < 2 ^ 64 ∧ l.minCommitTs < 2 ^ 64 ∧ l.txnSource < 2 ^ 64 ∧
  l.generation < 2 ^ 64 ∧
  (∀ v, l.shortValue = some v → v.length < 256) ∧
  (∀ v ∈ l.rollbackTs, v < 2 ^ 64) ∧
  (l.useAsyncCommit = false → l.secondaries = []) ∧
  lastChangeWf l.lastChange

/-- The state of the tag loop after consuming the optional section that
`Lock::to_bytes` emits for `l`. -/
def Lock.finalTagState (l : Lock) : TagState :=
  { shortValue := l.shortValue,
    forUpdateTs := l.forUpdateTs,
    txnSize := l.txnSize,
    minCommitTs := l.minCommitTs,
    useAsyncCommit := l.useAsyncCommit,
    secondaries := l.secondaries,
    rollbackTs := l.rollbackTs,
    lastChangeTs := l.lastChange.toParts.1,
    estimatedVersions := l.lastChange.toParts.2,
    txnSource := l.txnSource,
    isLockedWithConflict := l.isLockedWithConflict,
    generation := l.generation }

/-- `u64::MAX`, aka `TimeStamp::max()`. -/
def U64MAX : Nat := 2 ^ 64 - 1

/-- `kvrpcpb::Op`, the lock-type codes exposed in `LockInfo`. -/
inductive Op
  | put
  | del
  | lock
  | pessimisticLock
  deriving DecidableEq, Repr

/-- The subset of `kvrpcpb::LockInfo` populated by `Lock::into_lock_info`. -/
structure LockInfo where
  primaryLock : Bytes
  lockVersion : Nat
  key : Bytes
  lockTtl : Nat
  txnSize : Nat
  lockType : Op
  lockForUpdateTs : Nat
  useAsyncCommit : Bool
  minCommitTs : Nat
  secondaries : List Bytes
  deriving DecidableEq, Repr

/-- `Lock::into_lock_info`: projects the lock into the client-visible proto;
internal fields are not exposed. -/
def Lock.intoLockInfo (l : Lock) (rawKey : Bytes) : LockInfo :=
  { primaryLock := l.primary,
    lockVersion := l.ts,
    key := rawKey,
    lockTtl := l.ttl,
    txnSize := l.txnSize,
    lockType :=
      match l.lockType with
      | .put => .put
      | .delete => .del
      | .lock => .lock
      | .pessimistic => .pessimisticLock,
    lockForUpdateTs := l.forUpdateTs,
    useAsyncCommit := l.useAsyncCommit,
    minCommitTs := l.minCommitTs,
    secondaries := l.secondaries }

/-- `kvrpcpb::WriteConflictReason`, only the variant the lock check emits. -/
inductive WriteConflictReason
  | rcCheckTs
  deriving DecidableEq, Repr

/-- The transaction errors produced by the conflict check
(`ErrorInner::KeyIsLocked` and `ErrorInner::WriteConflict`). -/
inductive TxnErr
  | keyIsLocked (info : LockInfo)
  | writeConflict (startTs conflictStartTs conflictCommitTs : Nat)
      (key primary : Bytes) (reason : WriteConflictReason)
  deriving DecidableEq, Repr

/-- `kvrpcpb::IsolationLevel`. -/
inductive IsolationLevel
  | si
  | rc
  | rcCheckTs
  deriving DecidableEq, Repr

/-- `Lock::is_pessimistic_lock`. -/
def Lock.isPessimisticLock (l : Lock) : Bool :=
  l.lockType = .pessimistic

/-- `Lock::check_ts_conflict_si`.  The key is already in raw form: `Key` and
its `to_raw` conversion live outside src and are modelled from the spec as the
identity on raw-key bytes.  `bypass_locks` (`TsSet`) is modelled from the spec
as the list of resolved start timestamps. -/
def Lock.checkTsConflictSi (l : Lock) (key : Bytes) (ts : Nat)
    (bypassLocks : List Nat) (isReplicaRead : Bool) : Except TxnErr Unit :=
  if l.ts > ts ∨ l.lockType = .lock ∨ l.isPessimisticLock then .ok ()
  else if l.minCommitTs > ts then .ok ()
  else if l.ts ∈ bypassLocks then .ok ()
  else if ts = U64MAX ∧ isReplicaRead then
    .error (.keyIsLocked (l.intoLockInfo key))
  else if ts = U64MAX ∧ key = l.primary ∧ ¬l.useAsyncCommit ∧ ¬l.useOnePc then
    .ok ()
  else .error (.keyIsLocked (l.intoLockInfo key))

/-- `Lock::check_ts_conflict_rc_check_ts`. -/
def Lock.checkTsConflictRcCheckTs (l : Lock) (key : Bytes) (ts : Nat)
    (bypassLocks : List Nat) : Except TxnErr Unit :=
  if l.lockType = .lock ∨ l.isPessimisticLock then .ok ()
  else if l.ts ∈ bypassLocks then .ok ()
  else .error (.writeConflict ts l.ts 0 key l.primary .rcCheckTs)

/-- `Lock::check_ts_conflict`: dispatch on the isolation level; anything other
than SI and RcCheckTs ignores the lock. -/
def Lock.checkTsConflict (l : Lock) (key : Bytes) (ts : Nat)
    (bypassLocks : List Nat) (isoLevel : IsolationLevel) : Except TxnErr Unit :=
  match isoLevel with
  | .si => l.checkTsConflictSi key ts bypassLocks false
  | .rcCheckTs => l.checkTsConflictRcCheckTs key ts bypassLocks
  | .rc => .ok ()

/-- Counterexample lock for claim C1: `use_one_pc` is false but `secondaries`
is non-empty while `use_async_commit` is false, so the encoder omits it and
parsing cannot restore it. -/
def c1CexLock : Lock :=
  { lockType := .put, primary := [], ts := 0, ttl := 0, shortValue := none,
    forUpdateTs := 0, txnSize := 0, minCommitTs := 0, useAsyncCommit := false,
    useOnePc := false, secondaries := [[107]], rollbackTs := [],
    lastChange := .unknown, txnSource := 0, isLockedWithConflict := false,
    generation := 0 }

/-- A lock exercising every optional field, used to witness `c1_roundtrip`. -/
def c1WitnessLock : Lock :=
  { lockType := .put, primary := [112, 107], ts := 111, ttl := 222,
    shortValue := some [1, 2, 3], forUpdateTs := 333, txnSize := 444,
    minCommitTs := 555, useAsyncCommit := true, useOnePc := false,
    secondaries := [[115, 49], [115, 50]], rollbackTs := [7, 8],
    lastChange := .exist 9 2, txnSource := 5, isLockedWithConflict := true,
    generation := 6 }

/-- Witnessing lock for the SI conflict-check characterization. -/
def c2Lock : Lock := Lock.new .put [102, 111, 111] 100 0 none 0 0 150 false

/-! ## Evaluation context and shared error kinds (spec §6.1, §7) -/

/-- The error kinds the embedded codecs surface.  Payload strings built via
formatting in the source are omitted (they carry no control-flow). -/
inductive CErr
  | truncated
  | truncatedWrongVal
  | incorrectDatetimeValue
  | invalidDataType
  | otherErr
  deriving DecidableEq, Repr

/-- Modelled from the spec: the evaluation context of §6.1 — SQL-mode flags,
the IGNORE_TRUNCATE behavior flag, a fixed-offset timezone (seconds east of
UTC), and an append-only warning sink. -/
structure EvalContext where
  strictAllTables : Bool
  strictTransTables : Bool
  noZeroDate : Bool
  noZeroInDate : Bool
  invalidDates : Bool
  ignoreTruncate : Bool
  tzOffsetSecs : Int
  warnings : List CErr
  deriving DecidableEq, Repr

/-- A context with every flag clear and the UTC timezone. -/
def EvalContext.default : EvalContext :=
  { strictAllTables := false, strictTransTables := false, noZeroDate := false,
    noZeroInDate := false, invalidDates := false, ignoreTruncate := false,
    tzOffsetSecs := 0, warnings := [] }

/-- `ctx.warnings.append_warning(err)`. -/
def EvalContext.appendWarning (ctx : EvalContext) (e : CErr) : EvalContext :=
  { ctx with warnings := ctx.warnings ++ [e] }

/-! ## Time codec (`components/tidb_query_datatype/src/codec/mysql/time/mod.rs`) -/

/-- `is_leap_year` (time/mod.rs). -/
def isLeapYear (year : Nat) : Bool :=
  year % 4 = 0 ∧ (year % 100 ≠ 0 ∨ year % 400 = 0)

/-- `last_day_of_month` (time/mod.rs). -/
def lastDayOfMonth (year month : Nat) : Nat :=
  if month = 4 ∨ month = 6 ∨ month = 9 ∨ month = 11 then 30
  else if month = 2 then (if isLeapYear year then 1 else 0) + 28
  else 31

/-- Modelled from the spec: days-from-civil of the proleptic Gregorian
calendar used by the external chrono crate, shifted by 719468 so the result
is a natural number (valid for years ≥ 1). -/
def daysCore (y m d : Nat) : Nat :=
  let y' := if m ≤ 2 then y - 1 else y
  let era := y' / 400
  let yoe := y' % 400
  let mp := if m > 2 then m - 3 else m + 9
  let doy := (153 * mp + 2) / 5 + d - 1
  let doe := yoe * 365 + yoe / 4 - yoe / 100 + doy
  era * 146097 + doe

/-- Modelled from the spec: civil-from-days, the inverse of `daysCore` on the
same shifted scale. -/
def civilCore (z : Nat) : Nat × Nat × Nat :=
  let era := z / 146097
  let doe := z % 146097
  let yoe := (doe - doe / 1460 + doe / 36524 - doe / 146096) / 365
  let y := yoe + era * 400
  let doy := doe - (365 * yoe + yoe / 4 - yoe / 100)
  let mp := (5 * doy + 2) / 153
  let d := doy - (153 * mp + 2) / 5 + 1
  let m := if mp < 10 then mp + 3 else mp - 9
  (if m ≤ 2 then y + 1 else y, m, d)

def checkBal (f : Nat → Bool) : Nat → Nat → Nat → Bool
  | 0, s, len => (len == 0) || ((len == 1) && f s)
  | fuel + 1, s, len =>
    if len == 0 then true
    else if len == 1 then f s
    else checkBal f fuel s (len / 2) && checkBal f fuel (s + len / 2) (len - len / 2)

/-- Start day-of-era of year-of-era `yoe` in the shifted (March-first) calendar. -/
def yoeStart (yoe : Nat) : Nat := 365 * yoe + yoe / 4 - yoe / 100

/-- Length in days of year-of-era `yoe`. -/
def lenOf (yoe : Nat) : Nat :=
  (if yoe = 399 then 146097 else yoeStart (yoe + 1)) - yoeStart yoe

def recRaw (doe : Nat) : Nat := doe - doe / 1460 + doe / 36524 - doe / 146096

def recYoe (doe : Nat) : Nat := recRaw doe / 365

def chkEndpoints (yoe : Nat) : Bool :=
  (recYoe (yoeStart yoe) == yoe) && (recYoe (yoeStart yoe + lenOf yoe - 1) == yoe)

/-- Per-day-of-year table: month/day extraction and reconstruction in the
shifted calendar, as one decidable proposition per `doy`. -/
def chkDoy (doy : Nat) : Bool :=
  let mp := (5 * doy + 2) / 153
  let d := doy - (153 * mp + 2) / 5 + 1
  let m := if mp < 10 then mp + 3 else mp - 9
  decide (1 ≤ m ∧ m ≤ 12 ∧ 1 ≤ d ∧ (153 * mp + 2) / 5 ≤ doy ∧
    (153 * (if m > 2 then m - 3 else m + 9) + 2) / 5 + d - 1 = doy ∧
    (doy = 365 → m = 2 ∧ d = 29) ∧
    (doy ≠ 365 → d ≤ if m = 2 then 28 else lastDayOfMonth 1 m))

/-- Per (shifted month, day) table: `doy` construction and recovery. -/
def chkMD (i : Nat) : Bool :=
  let mp := i / 31
  let d := i % 31 + 1
  let dmax :=
    if mp = 1 ∨ mp = 3 ∨ mp = 6 ∨ mp = 8 then 30
    else if mp = 11 then 29 else 31
  let doy := (153 * mp + 2) / 5 + d - 1
  decide (d ≤ dmax →
    (5 * doy + 2) / 153 = mp ∧ doy - (153 * mp + 2) / 5 + 1 = d ∧
    (mp = 11 ∧ d = 29 → doy = 365) ∧ (¬(mp = 11 ∧ d = 29) → doy ≤ 364))

/-- The observable part of a chrono `DateTime`: the UTC instant in whole
seconds since the epoch and the sub-second microseconds. -/
structure CDateTime where
  instantSecs : Int
  micro : Nat
  deriving DecidableEq, Repr

/-- `chrono_datetime` (time/mod.rs): build a local datetime in the given
fixed-offset zone from components; fails (`Error::truncated`) when the civil
components are invalid.  Microseconds at or above one second carry into the
instant, as chrono's `checked_add_signed` does. -/
def chronoDatetime (offset : Int) (year month day hour minute second micro : Nat) :
    Except CErr CDateTime :=
  if 1 ≤ month ∧ month ≤ 12 ∧ 1 ≤ day ∧ day ≤ lastDayOfMonth year month ∧
      hour < 24 ∧ minute < 60 ∧ second < 60 then
    .ok { instantSecs := ((daysCore year month day : Int) - 719468) * 86400
            + (hour * 3600 + minute * 60 + second) + micro / 1000000 - offset,
          micro := micro % 1000000 }
  else .error .truncated

/-- The civil reading of a naive datetime given as seconds on the naive
clock line: year, month, day, hour, minute, second. -/
def naiveFields (secs : Int) : Nat × Nat × Nat × Nat × Nat × Nat :=
  let days := secs.fdiv 86400
  let tod := (secs.emod 86400).toNat
  let c := civilCore (days + 719468).toNat
  (c.1, c.2.1, c.2.2, tod / 3600, tod / 60 % 60, tod % 60)

/-- `MAX_TIMESTAMP = (1 << 31) - 1` and `MIN_TIMESTAMP = 0`. -/
def MAX_TIMESTAMP : Int := 2 ^ 31 - 1

/-- `TimeType` (time/mod.rs). -/
inductive TimeType
  | date
  | dateTime
  | timestamp
  deriving DecidableEq, Repr

/-- The `Time` bitfield: fields are stored as arbitrary naturals and every
accessor truncates to its bit width, exactly as the `bitfield!` accessors
mask the packed u64 (year 14 bits, month 4, day 5, hour 5, minute 6,
second 6, micro 20, fsp_tt 4). -/
structure Time where
  yearF : Nat
  monthF : Nat
  dayF : Nat
  hourF : Nat
  minuteF : Nat
  secondF : Nat
  microF : Nat
  fspTtF : Nat
  deriving DecidableEq, Repr

def Time.year (t : Time) : Nat := t.yearF % 2 ^ 14

def Time.month (t : Time) : Nat := t.monthF % 2 ^ 4

def Time.day (t : Time) : Nat := t.dayF % 2 ^ 5

def Time.hour (t : Time) : Nat := t.hourF % 2 ^ 5

def Time.minute (t : Time) : Nat := t.minuteF % 2 ^ 6

def Time.second (t : Time) : Nat := t.secondF % 2 ^ 6

def Time.micro (t : Time) : Nat := t.microF % 2 ^ 20

def Time.getFspTt (t : Time) : Nat := t.fspTtF % 2 ^ 4

def Time.setFspTt (t : Time) (v : Nat) : Time := { t with fspTtF := v % 2 ^ 4 }

/-- The packed 64-bit value `self.0` of the bitfield. -/
def Time.toU64 (t : Time) : Nat :=
  ((((((t.year * 2 ^ 4 + t.month) * 2 ^ 5 + t.day) * 2 ^ 5 + t.hour) * 2 ^ 6
      + t.minute) * 2 ^ 6 + t.second) * 2 ^ 20 + t.micro) * 2 ^ 4 + t.getFspTt

/-- `PartialEq for Time`: compare the packed value with `fsp_tt` zeroed. -/
def Time.timeEq (a b : Time) : Bool :=
  (a.setFspTt 0).toU64 == (b.setFspTt 0).toU64

/-- `Ord for Time`: compare the packed value with `fsp_tt` zeroed. -/
def Time.timeCmp (a b : Time) : Ordering :=
  compare (a.setFspTt 0).toU64 (b.setFspTt 0).toU64

/-- `Hash for Time` hashes exactly this value (the packed u64 with `fsp_tt`
zeroed); two times hash alike iff these agree. -/
def Time.hashInput (a : Time) : Nat := (a.setFspTt 0).toU64

/-- `Time::get_time_type`. -/
def Time.getTimeType (t : Time) : TimeType :=
  let ft := t.getFspTt
  if ft / 2 = 0b111 then .date
  else if ft % 2 = 0 then .dateTime
  else .timestamp

/-- `Time::set_tt` (`&` and `|` written arithmetically on the 4-bit field). -/
def Time.setTt (t : Time) (timeType : TimeType) : Time :=
  let ft := t.getFspTt
  let ft := if ft = 0b1110 ∧ timeType ≠ .date then 0 else ft
  let mask := match timeType with
    | .date => 0b1110
    | .dateTime => ft / 2 * 2
    | .timestamp => ft / 2 * 2 + 1
  t.setFspTt mask

/-- `Time::fsp`. -/
def Time.fsp (t : Time) : Nat :=
  match t.getTimeType with
  | .date => 0
  | _ => t.getFspTt / 2

/-- `Time::set_fsp`. -/
def Time.setFsp (t : Time) (fsp : Nat) : Time :=
  if t.getTimeType = .date then t
  else
    let f := if fsp > 6 then 6 else fsp
    t.setFspTt (f * 2 + t.getFspTt % 2)

/-- `Time::is_zero`: zero packed value once `fsp_tt` is cleared. -/
def Time.isZero (t : Time) : Bool := (t.setFspTt 0).toU64 == 0

/-- `TimeArgs` (time/mod.rs): the pre-truncation component record used for
validation. -/
structure TimeArgs where
  year : Nat
  month : Nat
  day : Nat
  hour : Nat
  minute : Nat
  second : Nat
  micro : Nat
  fsp : Int
  timeType : TimeType
  deriving DecidableEq, Repr

/-- `TimeArgs::zero`. -/
def TimeArgs.zero (fsp : Int) (timeType : TimeType) : TimeArgs :=
  { year := 0, month := 0, day := 0, hour := 0, minute := 0, second := 0,
    micro := 0, fsp, timeType }

/-- `TimeArgs::clear`. -/
def TimeArgs.clear (a : TimeArgs) : TimeArgs :=
  { a with
    year := 0, month := 0, day := 0, hour := 0, minute := 0, second := 0,
    micro := 0 }

/-- `TimeArgs::is_zero`. -/
def TimeArgs.isZero (a : TimeArgs) : Prop :=
  a.year = 0 ∧ a.month = 0 ∧ a.day = 0 ∧ a.hour = 0 ∧ a.minute = 0 ∧
  a.second = 0 ∧ a.micro = 0

instance (a : TimeArgs) : Decidable a.isZero :=
  inferInstanceAs (Decidable (_ ∧ _ ∧ _ ∧ _ ∧ _ ∧ _ ∧ _))

/-- Modelled from the spec: `check_fsp` (mysql/mod.rs, outside src):
`UNSPECIFIED_FSP = -1` maps to the default 0; otherwise fsp must lie in
[0, 6]. -/
def checkFsp (fsp : Int) : Except CErr Nat :=
  if fsp = -1 then .ok 0
  else if 0 ≤ fsp ∧ fsp ≤ 6 then .ok fsp.toNat
  else .error .invalidDataType

/-- `handle_zero_date` (time/mod.rs). -/
def handleZeroDate (ctx : EvalContext) (args : TimeArgs) :
    Except CErr (Option TimeArgs) × EvalContext :=
  let strictMode := ctx.strictAllTables || ctx.strictTransTables
  if ctx.noZeroDate then
    if ¬(¬strictMode = true ∨ ctx.ignoreTruncate = true) then
      (.error .truncated, ctx)
    else
      (.ok none, ctx.appendWarning .truncated)
  else (.ok (some args), ctx)

/-- `handle_zero_in_date` (time/mod.rs). -/
def handleZeroInDate (ctx : EvalContext) (args : TimeArgs) :
    Except CErr (Option TimeArgs) × EvalContext :=
  let strictMode := ctx.strictAllTables || ctx.strictTransTables
  if ctx.noZeroInDate then
    if ¬(¬strictMode = true ∨ ctx.ignoreTruncate = true) then
      (.error .truncated, ctx)
    else
      handleZeroDate (ctx.appendWarning .truncated) args.clear
  else (.ok (some args), ctx)

/-- `handle_invalid_date` (time/mod.rs). -/
def handleInvalidDate (ctx : EvalContext) (args : TimeArgs) :
    Except CErr (Option TimeArgs) × EvalContext :=
  if ¬ctx.invalidDates then (.error .truncated, ctx)
  else handleZeroDate ctx args.clear

/-- `Time::check_month_and_day`. -/
def checkMonthAndDay (year month day : Nat) (allowInvalidDate : Bool) :
    Except CErr Unit :=
  if month > 12 ∨ day > 31 then .error .truncated
  else if allowInvalidDate then .ok ()
  else if day > lastDayOfMonth year month then .error .truncated
  else .ok ()

/-- `TimeArgs::check_date`. -/
def TimeArgs.checkDate (self : TimeArgs) (ctx : EvalContext) :
    Except CErr (Option TimeArgs) × EvalContext :=
  let year := self.year
  let month := self.month
  let day := self.day
  let isRelaxed := ctx.invalidDates
  let step1 :=
    if self.isZero then handleZeroDate ctx self else (.ok (some self), ctx)
  match step1 with
  | (.error e, ctx') => (.error e, ctx')
  | (.ok none, ctx') => (.ok none, ctx')
  | (.ok (some a1), ctx') =>
    let step2 :=
      if month = 0 ∨ day = 0 then handleZeroInDate ctx' a1
      else (.ok (some a1), ctx')
    match step2 with
    | (.error e, ctx'') => (.error e, ctx'')
    | (.ok none, ctx'') => (.ok none, ctx'')
    | (.ok (some a2), ctx'') =>
      if year > 9999 ∨ (checkMonthAndDay year month day isRelaxed) = .error .truncated then
        handleInvalidDate ctx'' a2
      else (.ok (some a2), ctx'')

/-- `TimeArgs::check_datetime`. -/
def TimeArgs.checkDatetime (self : TimeArgs) (ctx : EvalContext) :
    Except CErr (Option TimeArgs) × EvalContext :=
  match self.checkDate ctx with
  | (.error e, ctx') => (.error e, ctx')
  | (.ok none, ctx') => (.ok none, ctx')
  | (.ok (some dt), ctx') =>
    if dt.hour > 23 ∨ dt.minute > 59 ∨ dt.second > 59 ∨ dt.micro > 999999 then
      handleInvalidDate ctx' dt
    else (.ok (some dt), ctx')

/-- `TimeArgs::check_timestamp`. -/
def TimeArgs.checkTimestamp (self : TimeArgs) (ctx : EvalContext) :
    Except CErr (Option TimeArgs) × EvalContext :=
  if self.isZero then handleZeroDate ctx self
  else
    match chronoDatetime ctx.tzOffsetSecs self.year self.month self.day
        self.hour self.minute self.second self.micro with
    | .error _ => handleInvalidDate ctx self
    | .ok dt =>
      let ts := dt.instantSecs
      if ¬(0 ≤ ts ∧ ts ≤ MAX_TIMESTAMP) then handleInvalidDate ctx self
      else (.ok (some self), ctx)

/-- `TimeArgs::check`. -/
def TimeArgs.check (self : TimeArgs) (ctx : EvalContext) :
    Option TimeArgs × EvalContext :=
  match checkFsp self.fsp with
  | .error _ => (none, ctx)
  | .ok f =>
    let args := { self with fsp := (f : Int) }
    let res :=
      match args.timeType with
      | .date => args.checkDatetime ctx
      | .dateTime => args.checkDatetime ctx
      | .timestamp => args.checkTimestamp ctx
    match res with
    | (.error _, ctx') => (none, ctx')
    | (.ok o, ctx') =>
      (some (o.getD (TimeArgs.zero (f : Int) args.timeType)), ctx')

/-- `Time::unchecked_new`: store each component through the truncating
setters, then `set_tt`, then `set_fsp(fsp as u8)`. -/
def Time.uncheckedNew (c : TimeArgs) : Time :=
  let t : Time :=
    { yearF := c.year % 2 ^ 14, monthF := c.month % 2 ^ 4,
      dayF := c.day % 2 ^ 5, hourF := c.hour % 2 ^ 5,
      minuteF := c.minute % 2 ^ 6, secondF := c.second % 2 ^ 6,
      microF := c.micro % 2 ^ 20, fspTtF := 0 }
  let t := t.setTt c.timeType
  t.setFsp (c.fsp.emod 256).toNat

/-- `Time::new`: validate, force the hms/fsp of dates to zero, then build. -/
def Time.new (ctx : EvalContext) (config : TimeArgs) :
    Except CErr Time × EvalContext :=
  match config.check ctx with
  | (none, ctx') => (.error .incorrectDatetimeValue, ctx')
  | (some checked, ctx') =>
    let checked :=
      if checked.timeType = .date then
        { checked with
          hour := 0, minute := 0, second := 0, micro := 0, fsp := 0 }
      else checked
    (.ok (Time.uncheckedNew checked), ctx')

/-- `Time::from_slice` (the seven components are passed directly). -/
def Time.fromSlice (ctx : EvalContext)
    (year month day hour minute second micro : Nat)
    (timeType : TimeType) (fsp : Nat) : Option Time × EvalContext :=
  match Time.new ctx
      { year, month, day, hour, minute, second, micro,
        fsp := (fsp : Int), timeType } with
  | (.ok t, ctx') => (some t, ctx')
  | (.error _, ctx') => (none, ctx')

/-- `Time::zero`. -/
def Time.zero (ctx : EvalContext) (fsp : Int) (timeType : TimeType) :
    Except CErr Time × EvalContext :=
  Time.new ctx (TimeArgs.zero fsp timeType)

/-- The free function `round_frac(frac, fsp)` (time/mod.rs): half-up rounding
of a fractional part, returning the carry flag and the rounded value. -/
def roundFracU (frac : Nat) (fsp : Nat) : Bool × Nat :=
  if frac < 1000000 ∧ fsp = 6 then (false, frac)
  else
    let width := if frac ≥ 1000000 then 7 else 6
    let mask := 10 ^ (width - fsp - 1)
    let result := (frac / mask + 5) / 10 * mask * (if width = 6 then 10 else 1)
    (result ≥ 1000000, result)

/-- `round_components` (time/mod.rs): propagate a carry through the seven
components, with the moduli computed once from the incoming year and month;
a carry into a zero year/month/day (or past a full component) yields `none`.
The loop over `i = 6..1` is unrolled. -/
def roundComponents (p0 p1 p2 p3 p4 p5 p6 : Nat) :
    Option (Nat × Nat × Nat × Nat × Nat × Nat × Nat) :=
  let m1 := 12
  let m2 := lastDayOfMonth p0 p1
  -- i = 6 (micro, modulus 1_000_000)
  let step6 : Option (Nat × Nat) :=
    if p6 ≥ 1000000 then
      if p5 > 60 then none else some (p5 + 1, p6 - 1000000)
    else some (p5, p6)
  match step6 with
  | none => none
  | some (q5, q6) =>
    -- i = 5 (second, modulus 60)
    let step5 : Option (Nat × Nat) :=
      if q5 ≥ 60 then
        if p4 > 60 then none else some (p4 + 1, q5 - 60)
      else some (p4, q5)
    match step5 with
    | none => none
    | some (q4, r5) =>
      -- i = 4 (minute, modulus 60)
      let step4 : Option (Nat × Nat) :=
        if q4 ≥ 60 then
          if p3 > 24 then none else some (p3 + 1, q4 - 60)
        else some (p3, q4)
      match step4 with
      | none => none
      | some (q3, r4) =>
        -- i = 3 (hour, modulus 24); carries into the day, which must not be 0
        let step3 : Option (Nat × Nat) :=
          if q3 ≥ 24 then
            if p2 = 0 ∨ p2 > m2 then none else some (p2 + 1, q3 - 24)
          else some (p2, q3)
        match step3 with
        | none => none
        | some (q2, r3) =>
          -- i = 2 (day, modulus last_day + 1); carries into the month
          let step2 : Option (Nat × Nat) :=
            if q2 ≥ m2 + 1 then
              if p1 = 0 ∨ p1 > m1 then none else some (p1 + 1, q2 - m2)
            else some (p1, q2)
          match step2 with
          | none => none
          | some (q1, r2) =>
            -- i = 1 (month, modulus 12 + 1); carries into the year
            let step1 : Option (Nat × Nat) :=
              if q1 ≥ m1 + 1 then
                if p0 = 0 ∨ p0 > 4294967295 then none
                else some (p0 + 1, q1 - m1)
              else some (p0, q1)
            match step1 with
            | none => none
            | some (q0, r1) => some (q0, r1, r2, r3, r4, r5, q6)

/-- `Time::round_frac` (time/mod.rs). -/
def Time.roundFrac (t : Time) (ctx : EvalContext) (fsp : Int) :
    Except CErr Time × EvalContext :=
  let timeType := t.getTimeType
  if timeType = .date ∨ t.isZero then (.ok t, ctx)
  else
    match checkFsp fsp with
    | .error e => (.error e, ctx)
    | .ok f =>
      if f > t.fsp then (.ok (t.setFsp f), ctx)
      else
        let cf := roundFracU t.micro f
        let run := fun (y m d h mi s mic : Nat) =>
          match Time.fromSlice ctx y m d h mi s mic timeType f with
          | (some time, ctx') => ((.ok time : Except CErr Time), ctx')
          | (none, ctx') => (.error .incorrectDatetimeValue, ctx')
        if cf.1 then
          match roundComponents t.year t.month t.day t.hour t.minute t.second
              cf.2 with
          | none => Time.new ctx (TimeArgs.zero (f : Int) timeType)
          | some (y, m, d, h, mi, s, mic) => run y m d h mi s mic
        else
          run t.year t.month t.day t.hour t.minute t.second cf.2

/-- `Time::to_packed_u64` (time/mod.rs): timestamps are first converted
through the context's timezone to UTC (re-validated by `Time::new`), then the
components are packed `((((y*13+m)<<5 | d)<<17 | h<<12 | min<<6 | s)<<24) |
micro`. -/
def Time.toPackedU64 (t : Time) (ctx : EvalContext) :
    Except CErr Nat × EvalContext :=
  if t.isZero then (.ok 0, ctx)
  else
    let conv : Except CErr Time × EvalContext :=
      if t.getTimeType = .timestamp then
        match chronoDatetime ctx.tzOffsetSecs t.year t.month t.day t.hour
            t.minute t.second t.micro with
        | .error e => (.error e, ctx)
        | .ok dt =>
          let f := naiveFields dt.instantSecs
          Time.new ctx
            { year := f.1, month := f.2.1, day := f.2.2.1, hour := f.2.2.2.1,
              minute := f.2.2.2.2.1, second := f.2.2.2.2.2, micro := dt.micro,
              fsp := (t.fsp : Int), timeType := t.getTimeType }
      else (.ok t, ctx)
    match conv with
    | (.error e, ctx') => (.error e, ctx')
    | (.ok s, ctx') =>
      let ymd := (s.year * 13 + s.month) * 2 ^ 5 + s.day
      let hms := s.hour * 2 ^ 12 + s.minute * 2 ^ 6 + s.second
      (.ok ((ymd * 2 ^ 17 + hms) * 2 ^ 24 + s.micro), ctx')

/-- `Time::from_packed_u64` (time/mod.rs): unpack the sortable form;
timestamps are interpreted as UTC and converted back through the context's
timezone. -/
def Time.fromPackedU64 (ctx : EvalContext) (v : Nat) (timeType : TimeType)
    (fsp : Int) : Except CErr Time × EvalContext :=
  if v = 0 then Time.new ctx (TimeArgs.zero fsp timeType)
  else
    match checkFsp fsp with
    | .error e => (.error e, ctx)
    | .ok f =>
      let ymdhms := v / 2 ^ 24
      let ymd := ymdhms / 2 ^ 17
      let ym := ymd / 2 ^ 5
      let hms := ymdhms % 2 ^ 17
      let day := ymd % 2 ^ 5
      let month := ym % 13
      let year := ym / 13
      let second := hms % 2 ^ 6
      let minute := hms / 2 ^ 6 % 2 ^ 6
      let hour := hms / 2 ^ 12
      let micro := v % 2 ^ 24
      if timeType = .timestamp then
        match chronoDatetime 0 year month day hour minute second micro with
        | .error e => (.error e, ctx)
        | .ok utc =>
          let lf := naiveFields (utc.instantSecs + ctx.tzOffsetSecs)
          Time.new ctx
            { year := lf.1, month := lf.2.1, day := lf.2.2.1,
              hour := lf.2.2.2.1, minute := lf.2.2.2.2.1,
              second := lf.2.2.2.2.2, micro := utc.micro,
              fsp := (f : Int), timeType }
      else
        (.ok (Time.uncheckedNew
          { year, month, day, hour, minute, second, micro,
            fsp := (f : Int), timeType }), ctx)

/-- Agreement of all seven visible date/time components. -/
def Time.sameFields (a b : Time) : Prop :=
  a.year = b.year ∧ a.month = b.month ∧ a.day = b.day ∧ a.hour = b.hour ∧
  a.minute = b.minute ∧ a.second = b.second ∧ a.micro = b.micro

/-- The +08:00 fixed-offset context exhibiting the packed-time round-trip
failure. -/
def c3CexCtx : EvalContext :=
  { EvalContext.default with tzOffsetSecs := 28800 }

/-- The local timestamp 1970-01-01 08:00:00 (+08:00), i.e. the UTC epoch. -/
def c3CexT : Time :=
  { yearF := 1970, monthF := 1, dayF := 1, hourF := 8, minuteF := 0,
    secondF := 0, microF := 0, fspTtF := 1 }

/-- The +01:00 fixed-offset context of the C3 witness. -/
def c3WCtx : EvalContext :=
  { EvalContext.default with tzOffsetSecs := 3600 }

/-- The local timestamp 2020-01-01 12:00:00 (+01:00). -/
def c3WT : Time :=
  { yearF := 2020, monthF := 1, dayF := 1, hourF := 12, minuteF := 0,
    secondF := 0, microF := 0, fspTtF := 1 }

/-- The valid DateTime 2020-01-01 00:00:00.123456 with fsp 0. -/
def c8CexT : Time :=
  { yearF := 2020, monthF := 1, dayF := 1, hourF := 0, minuteF := 0,
    secondF := 0, microF := 123456, fspTtF := 0 }

/-- `c8CexT` after `set_fsp(3)`: the microseconds survive unrounded. -/
def c8CexR : Time :=
  { yearF := 2020, monthF := 1, dayF := 1, hourF := 0, minuteF := 0,
    secondF := 0, microF := 123456, fspTtF := 6 }

/-- What a second `round_frac(_, 3)` produces: microseconds rounded. -/
def c8CexR2 : Time :=
  { yearF := 2020, monthF := 1, dayF := 1, hourF := 0, minuteF := 0,
    secondF := 0, microF := 123000, fspTtF := 6 }

/-- The valid DateTime 2020-01-01 00:00:00.123456 with fsp 6. -/
def c8WT : Time :=
  { yearF := 2020, monthF := 1, dayF := 1, hourF := 0, minuteF := 0,
    secondF := 0, microF := 123456, fspTtF := 12 }

/-- `round_frac(c8WT, 3)`: microseconds rounded half-up to 123000, fsp 3. -/
def c8WR : Time :=
  { yearF := 2020, monthF := 1, dayF := 1, hourF := 0, minuteF := 0,
    secondF := 0, microF := 123000, fspTtF := 6 }

/-- The valid Timestamp 2020-01-01 12:00:00.123456 with fsp 6. -/
def c8WTts : Time :=
  { yearF := 2020, monthF := 1, dayF := 1, hourF := 12, minuteF := 0,
    secondF := 0, microF := 123456, fspTtF := 13 }

/-- `round_frac(c8WTts, 3)`: microseconds rounded half-up to 123000, fsp 3. -/
def c8WRts : Time :=
  { yearF := 2020, monthF := 1, dayF := 1, hourF := 12, minuteF := 0,
    secondF := 0, microF := 123000, fspTtF := 7 }

/-! ## Binary JSON (`components/tidb_query_datatype/src/codec/mysql/json/mod.rs`) -/

/-- Modelled from the spec: the decoded view of a binary `Json` value.  The
byte-level accessors (`get_u64`, `get_str_bytes`, …) live outside src/, so
the embedding works on the decoded payloads directly: `double` carries the
exact rational value of the IEEE double, `str` the raw bytes, `object` the
`BTreeMap` as an association list, and the payloads irrelevant to the
embedded operations (opaque and the date/time kinds) are dropped. -/
inductive Json
  | u64 (v : Nat)
  | i64 (v : Int)
  | double (v : ℚ)
  | literal (v : Option Bool)
  | str (s : List Nat)
  | object (kvs : List (List Nat × Json))
  | array (elems : List Json)
  | opaqueVal
  | date
  | datetime
  | timestamp
  | time

/-- Modelled from the spec: `handle_truncate_err` of the evaluation context
(outside src/): with IGNORE_TRUNCATE set the error becomes exactly one
appended warning and the computation continues; otherwise it is returned. -/
def EvalContext.handleTruncateErr (ctx : EvalContext) (e : CErr) :
    Except CErr Unit × EvalContext :=
  if ctx.ignoreTruncate then (.ok (), ctx.appendWarning e)
  else (.error e, ctx)

/-- `ConvertTo<f64> for JsonRef` (json/mod.rs): dispatch on the type tag.
The numeric casts act on the decoded payloads; the byte-slice float parser
used by the string branch lives outside src/ and is passed in as
`strConv`. -/
def convertJsonToF64
    (strConv : EvalContext → List Nat → Except CErr ℚ × EvalContext)
    (ctx : EvalContext) (j : Json) : Except CErr ℚ × EvalContext :=
  match j with
  | .u64 v => (.ok (v : ℚ), ctx)
  | .i64 v => (.ok (v : ℚ), ctx)
  | .double v => (.ok v, ctx)
  | .literal v =>
    (.ok (match v with
      | none => 0
      | some b => if b then 1 else 0), ctx)
  | .str s => strConv ctx s
  | _ =>
    match ctx.handleTruncateErr .truncatedWrongVal with
    | (.ok _, ctx') => (.ok 0, ctx')
    | (.error e, ctx') => (.error e, ctx')

/-- The spec's description of the JSON→f64 conversion, written from the
spec's words for comparison with the source translation: numeric kinds cast,
null/false give 0 and true gives 1, strings parse as floats, and every other
kind yields a truncation error, downgraded to exactly one warning and a 0.0
result when IGNORE_TRUNCATE is set. -/
def convertJsonToF64Spec
    (strConv : EvalContext → List Nat → Except CErr ℚ × EvalContext)
    (ctx : EvalContext) (j : Json) : Except CErr ℚ × EvalContext :=
  match j with
  | .u64 v => (.ok (v : ℚ), ctx)
  | .i64 v => (.ok (v : ℚ), ctx)
  | .double v => (.ok v, ctx)
  | .literal none => (.ok 0, ctx)
  | .literal (some true) => (.ok 1, ctx)
  | .literal (some false) => (.ok 0, ctx)
  | .str s => strConv ctx s
  | _ =>
    if ctx.ignoreTruncate then
      (.ok 0, ctx.appendWarning .truncatedWrongVal)
    else
      (.error .truncatedWrongVal, ctx)

/-- Modelled from the spec: the `Datum` variants reaching the JSON
constructors — SQL NULL, raw bytes, and an already-decoded JSON value. -/
inductive Datum
  | null
  | bytes (s : List Nat)
  | json (j : Json)

/-- Modelled from the spec: `Datum::into_string` (outside src/) for the
variants relevant here: raw bytes pass through; the string renderings of the
other datums are not modelled and surface as an error. -/
def Datum.intoString : Datum → Except CErr (List Nat)
  | .bytes s => .ok s
  | _ => .error .invalidDataType

/-- Modelled from the spec: `Datum::into_json` (outside src/): SQL NULL
becomes the JSON null literal and a JSON datum passes through; the
string-parsing path is not modelled and surfaces as an error. -/
def Datum.intoJson : Datum → Except CErr Json
  | .null => .ok (.literal none)
  | .json j => .ok j
  | _ => .error .invalidDataType

/-- Modelled from the spec: `BTreeMap::insert` seen on the association
list — replace the entry of an existing key in place, append a new key at
the end.  Only membership and multiplicity matter to the embedded claims,
not the tree's key order. -/
def insertKV (m : List (List Nat × Json)) (k : List Nat) (v : Json) :
    List (List Nat × Json) :=
  match m with
  | [] => [(k, v)]
  | (k', v') :: rest =>
    if k' = k then (k, v) :: rest else (k', v') :: insertKV rest k v

/-- How many entries of the map carry the key. -/
def countKeys : List (List Nat × Json) → List Nat → Nat
  | [], _ => 0
  | (k', _) :: rest, k => (if k' = k then 1 else 0) + countKeys rest k

/-- First-match association lookup. -/
def lookupKV : List (List Nat × Json) → List Nat → Option Json
  | [], _ => none
  | (k', v) :: rest, k => if k' = k then some v else lookupKV rest k

/-- The value paired with the LAST occurrence of the key in the list. -/
def lastLookup : List (List Nat × Json) → List Nat → Option Json
  | [], _ => none
  | (k', v) :: rest, k =>
    match lastLookup rest k with
    | some w => some w
    | none => if k' = k then some v else none

/-- Insert the pairs left to right, later pairs overwriting earlier keys. -/
def insertAll (cs : List (List Nat × Json))
    (m : List (List Nat × Json)) : List (List Nat × Json) :=
  match cs with
  | [] => m
  | (k, v) :: rest => insertAll rest (insertKV m k v)

/-- The loop of `json_object` (json/mod.rs): elements alternate between key
and value; a NULL key is rejected, keys pass through `into_string` and
values through `into_json`, and each pair is inserted into the map.  A
trailing key (odd input, unreachable behind the evenness guard) is checked
and converted, then dropped as the loop ends. -/
def jsonObjectLoop : List Datum → List (List Nat × Json) →
    Except CErr (List (List Nat × Json))
  | [], m => .ok m
  | [kd], m =>
    match kd with
    | .null => .error .invalidDataType
    | _ =>
      match kd.intoString with
      | .error e => .error e
      | .ok _ => .ok m
  | kd :: vd :: rest, m =>
    match kd with
    | .null => .error .invalidDataType
    | _ =>
      match kd.intoString with
      | .error e => .error e
      | .ok k =>
        match vd.intoJson with
        | .error e => .error e
        | .ok v => jsonObjectLoop rest (insertKV m k v)

/-- `json_object` (json/mod.rs): an odd argument count is an error;
otherwise run the key/value loop on an empty map and wrap the result via
`Json::from_object`. -/
def jsonObject (kvs : List Datum) : Except CErr Json :=
  if kvs.length % 2 = 0 then
    match jsonObjectLoop kvs [] with
    | .error e => .error e
    | .ok m => .ok (Json.object m)
  else .error .otherErr

/-- Interleave the key/value pairs into the flat argument list of
`json_object`. -/
def flattenPairs : List (Datum × Datum) → List Datum
  | [] => []
  | (k, v) :: rest => k :: v :: flattenPairs rest

/-- Convert every key via `into_string` and every value via `into_json`;
`none` when any conversion fails. -/
def convertAll : List (Datum × Datum) → Option (List (List Nat × Json))
  | [] => some []
  | (kd, vd) :: rest =>
    match kd.intoString, vd.intoJson, convertAll rest with
    | .ok k, .ok v, some cs => some ((k, v) :: cs)
    | _, _, _ => none

/-- The witness arguments: keys "a", "b", "a" — the key `[97]` occurs
twice — with values 1, 2, 3. -/
def c10Wkvs : List (Datum × Datum) :=
  [(Datum.bytes [97], Datum.json (Json.u64 1)),
   (Datum.bytes [98], Datum.json (Json.u64 2)),
   (Datum.bytes [97], Datum.json (Json.u64 3))]

/-- The converted pairs of `c10Wkvs`. -/
def c10Wcs : List (List Nat × Json) :=
  [([97], Json.u64 1), ([98], Json.u64 2), ([97], Json.u64 3)]

theorem decodeVarU64_encodeGo (fuel : Nat) :
    ∀ (v : Nat) (rest : Bytes), v < fuel →
      decodeVarU64 (encodeVarU64Go fuel v ++ rest) = .ok (v, rest) := by
  induction fuel with
  | zero => intro v rest h; omega
  | succ fuel ih =>
    intro v rest h
    rw [encodeVarU64Go]
    by_cases hv : v < 0x80
    · simp [hv, decodeVarU64]
    · have hdiv : v / 0x80 < v := Nat.div_lt_self (by omega) (by omega)
      simp only [if_neg hv, List.cons_append]
      rw [decodeVarU64]
      have h2 : ¬ (v % 0x80 + 0x80 < 0x80) := by omega
      rw [if_neg h2, ih (v / 0x80) rest (by omega)]
      dsimp only
      have heq : v / 0x80 * 0x80 + (v % 0x80 + 0x80 - 0x80) = v := by omega
      rw [heq]

theorem decodeVarU64_encode (v : Nat) (rest : Bytes) :
    decodeVarU64 (encodeVarU64 v ++ rest) = .ok (v, rest) :=
  decodeVarU64_encodeGo (v + 1) v rest (by omega)

theorem decodeVarU64_length {b r : Bytes} {v : Nat}
    (h : decodeVarU64 b = .ok (v, r)) : r.length < b.length := by
  induction b generalizing v r with
  | nil => simp [decodeVarU64] at h
  | cons x xs ih =>
    rw [decodeVarU64] at h
    by_cases hx : x < 0x80
    · rw [if_pos hx] at h
      cases h
      simp
    · rw [if_neg hx] at h
      cases hd : decodeVarU64 xs with
      | error e => rw [hd] at h; cases h
      | ok p =>
        obtain ⟨w, rr⟩ := p
        rw [hd] at h
        cases h
        have := ih hd
        simp only [List.length_cons]
        omega

theorem decodeU64_encode (v : Nat) (rest : Bytes) (hv : v < 2 ^ 64) :
    decodeU64 (encodeU64 v ++ rest) = .ok (v, rest) := by
  simp only [encodeU64, List.cons_append, List.nil_append, decodeU64]
  congr 2
  omega

theorem decodeU64_length {b r : Bytes} {v : Nat}
    (h : decodeU64 b = .ok (v, r)) : r.length < b.length := by
  match b with
  | b0 :: b1 :: b2 :: b3 :: b4 :: b5 :: b6 :: b7 :: rest =>
    simp [decodeU64] at h
    simp only [← h.2, List.length_cons]
    omega
  | [] | [_] | [_, _] | [_, _, _] | [_, _, _, _] | [_, _, _, _, _]
  | [_, _, _, _, _, _] | [_, _, _, _, _, _, _] => simp [decodeU64] at h

theorem decodeCompactBytes_encode (bs : Bytes) (rest : Bytes) :
    decodeCompactBytes (encodeCompactBytes bs ++ rest) = .ok (bs, rest) := by
  simp only [decodeCompactBytes, encodeCompactBytes, List.append_assoc,
    decodeVarU64_encode]
  have hlen : ¬ ((bs ++ rest).length < bs.length) := by simp
  rw [if_neg hlen]
  rw [List.take_left, List.drop_left]

theorem decodeCompactBytes_length {b r : Bytes} {v : Bytes}
    (h : decodeCompactBytes b = .ok (v, r)) : r.length < b.length := by
  unfold decodeCompactBytes at h
  cases hd : decodeVarU64 b with
  | error e => rw [hd] at h; cases h
  | ok p =>
    obtain ⟨len, rr⟩ := p
    rw [hd] at h
    dsimp only at h
    by_cases hl : rr.length < len
    · rw [if_pos hl] at h; cases h
    · rw [if_neg hl] at h
      cases h
      have := decodeVarU64_length hd
      have := List.length_drop len rr
      omega

theorem decodeNCompact_length {n : Nat} {b r : Bytes} {ks : List Bytes}
    (h : decodeNCompact n b = .ok (ks, r)) : r.length ≤ b.length := by
  induction n generalizing b ks with
  | zero => rw [decodeNCompact] at h; cases h; exact le_refl _
  | succ n ih =>
    rw [decodeNCompact] at h
    cases hd : decodeCompactBytes b with
    | error e => rw [hd] at h; cases h
    | ok p =>
      obtain ⟨k, r1⟩ := p
      rw [hd] at h
      dsimp only at h
      cases hn : decodeNCompact n r1 with
      | error e => rw [hn] at h; cases h
      | ok q =>
        obtain ⟨ks1, r2⟩ := q
        rw [hn] at h
        cases h
        have h1 := decodeCompactBytes_length hd
        have h2 := ih hn
        omega

theorem decodeNU64_length {n : Nat} {b r : Bytes} {vs : List Nat}
    (h : decodeNU64 n b = .ok (vs, r)) : r.length ≤ b.length := by
  induction n generalizing b vs with
  | zero => rw [decodeNU64] at h; cases h; exact le_refl _
  | succ n ih =>
    rw [decodeNU64] at h
    cases hd : decodeU64 b with
    | error e => rw [hd] at h; cases h
    | ok p =>
      obtain ⟨v, r1⟩ := p
      rw [hd] at h
      dsimp only at h
      cases hn : decodeNU64 n r1 with
      | error e => rw [hn] at h; cases h
      | ok q =>
        obtain ⟨vs1, r2⟩ := q
        rw [hn] at h
        cases h
        have h1 := decodeU64_length hd
        have h2 := ih hn
        omega

/-- Every iteration of the tag loop consumes bytes (never produces more),
any panic it reports is a genuine short-value overrun, and it never reports
fuel exhaustion. -/
theorem tagStep_spec (tag : Nat) (b : Bytes) (st : TagState) :
    (∀ b' st', tagStep tag b st = .next b' st' → b'.length ≤ b.length) ∧
    (∀ l r, tagStep tag b st = .fail (.panicShortValue l r) → r < l) ∧
    tagStep tag b st ≠ .fail .outOfFuel := by
  unfold tagStep
  by_cases h1 : tag = SHORT_VALUE_PREFIX
  · simp only [if_pos h1]
    match b with
    | [] =>
      refine ⟨fun _ _ h => ?_, fun _ _ h => ?_, fun h => ?_⟩ <;> simp at h
    | len :: bs =>
      dsimp only
      by_cases hl : bs.length < len
      · simp only [if_pos hl]
        refine ⟨fun _ _ h => ?_, fun l r h => ?_, fun h => ?_⟩
        · simp at h
        · cases h; exact hl
        · simp at h
      · simp only [if_neg hl]
        refine ⟨fun b' st' h => ?_, fun _ _ h => ?_, fun h => ?_⟩
        · cases h
          have := List.length_drop len bs
          simp only [List.length_cons]
          omega
        · simp at h
        · simp at h
  rw [if_neg h1]
  by_cases h2 : tag = FOR_UPDATE_TS_PREFIX
  · rw [if_pos h2]
    cases hd : decodeU64 b with
    | error e =>
      refine ⟨fun _ _ h => ?_, fun _ _ h => ?_, fun h => ?_⟩ <;> simp at h
    | ok p =>
      obtain ⟨v, r⟩ := p
      refine ⟨fun b' st' h => ?_, fun _ _ h => ?_, fun h => ?_⟩
      · cases h; exact le_of_lt (decodeU64_length hd)
      · simp at h
      · simp at h
  rw [if_neg h2]
  by_cases h3 : tag = TXN_SIZE_PREFIX
  · rw [if_pos h3]
    cases hd : decodeU64 b with
    | error e =>
      refine ⟨fun _ _ h => ?_, fun _ _ h => ?_, fun h => ?_⟩ <;> simp at h
    | ok p =>
      obtain ⟨v, r⟩ := p
      refine ⟨fun b' st' h => ?_, fun _ _ h => ?_, fun h => ?_⟩
      · cases h; exact le_of_lt (decodeU64_length hd)
      · simp at h
      · simp at h
  rw [if_neg h3]
  by_cases h4 : tag = MIN_COMMIT_TS_PREFIX
  · rw [if_pos h4]
    cases hd : decodeU64 b with
    | error e =>
      refine ⟨fun _ _ h => ?_, fun _ _ h => ?_, fun h => ?_⟩ <;> simp at h
    | ok p =>
      obtain ⟨v, r⟩ := p
      refine ⟨fun b' st' h => ?_, fun _ _ h => ?_, fun h => ?_⟩
      · cases h; exact le_of_lt (decodeU64_length hd)
      · simp at h
      · simp at h
  rw [if_neg h4]
  by_cases h5 : tag = ASYNC_COMMIT_PREFIX
  · rw [if_pos h5]
    cases hd : decodeVarU64 b with
    | error e =>
      refine ⟨fun _ _ h => ?_, fun _ _ h => ?_, fun h => ?_⟩ <;> simp at h
    | ok p =>
      obtain ⟨len, r⟩ := p
      dsimp only
      cases hn : decodeNCompact len r with
      | error e =>
        refine ⟨fun _ _ h => ?_, fun _ _ h => ?_, fun h => ?_⟩ <;> simp at h
      | ok q =>
        obtain ⟨ks, r'⟩ := q
        refine ⟨fun b' st' h => ?_, fun _ _ h => ?_, fun h => ?_⟩
        · cases h
          have ha := decodeVarU64_length hd
          have hb := decodeNCompact_length hn
          omega
        · simp at h
        · simp at h
  rw [if_neg h5]
  by_cases h6 : tag = ROLLBACK_TS_PREFIX
  · rw [if_pos h6]
    cases hd : decodeVarU64 b with
    | error e =>
      refine ⟨fun _ _ h => ?_, fun _ _ h => ?_, fun h => ?_⟩ <;> simp at h
    | ok p =>
      obtain ⟨len, r⟩ := p
      dsimp only
      cases hn : decodeNU64 len r with
      | error e =>
        refine ⟨fun _ _ h => ?_, fun _ _ h => ?_, fun h => ?_⟩ <;> simp at h
      | ok q =>
        obtain ⟨vs, r'⟩ := q
        refine ⟨fun b' st' h => ?_, fun _ _ h => ?_, fun h => ?_⟩
        · cases h
          have ha := decodeVarU64_length hd
          have hb := decodeNU64_length hn
          omega
        · simp at h
        · simp at h
  rw [if_neg h6]
  by_cases h7 : tag = LAST_CHANGE_PREFIX
  · rw [if_pos h7]
    cases hd : decodeU64 b with
    | error e =>
      refine ⟨fun _ _ h => ?_, fun _ _ h => ?_, fun h => ?_⟩ <;> simp at h
    | ok p =>
      obtain ⟨ts, r⟩ := p
      dsimp only
      cases hn : decodeVarU64 r with
      | error e =>
        refine ⟨fun _ _ h => ?_, fun _ _ h => ?_, fun h => ?_⟩ <;> simp at h
      | ok q =>
        obtain ⟨versions, r'⟩ := q
        refine ⟨fun b' st' h => ?_, fun _ _ h => ?_, fun h => ?_⟩
        · cases h
          have ha := decodeU64_length hd
          have hb := decodeVarU64_length hn
          omega
        · simp at h
        · simp at h
  rw [if_neg h7]
  by_cases h8 : tag = TXN_SOURCE_PREFIX
  · rw [if_pos h8]
    cases hd : decodeVarU64 b with
    | error e =>
      refine ⟨fun _ _ h => ?_, fun _ _ h => ?_, fun h => ?_⟩ <;> simp at h
    | ok p =>
      obtain ⟨v, r⟩ := p
      refine ⟨fun b' st' h => ?_, fun _ _ h => ?_, fun h => ?_⟩
      · cases h; exact le_of_lt (decodeVarU64_length hd)
      · simp at h
      · simp at h
  rw [if_neg h8]
  by_cases h9 : tag = PESSIMISTIC_LOCK_WITH_CONFLICT_PREFIX
  · rw [if_pos h9]
    refine ⟨fun b' st' h => ?_, fun _ _ h => ?_, fun h => ?_⟩
    · cases h; exact le_refl _
    · simp at h
    · simp at h
  rw [if_neg h9]
  by_cases h10 : tag = GENERATION_PREFIX
  · rw [if_pos h10]
    cases hd : decodeU64 b with
    | error e =>
      refine ⟨fun _ _ h => ?_, fun _ _ h => ?_, fun h => ?_⟩ <;> simp at h
    | ok p =>
      obtain ⟨v, r⟩ := p
      refine ⟨fun b' st' h => ?_, fun _ _ h => ?_, fun h => ?_⟩
      · cases h; exact le_of_lt (decodeU64_length hd)
      · simp at h
      · simp at h
  rw [if_neg h10]
  refine ⟨fun _ _ h => ?_, fun _ _ h => ?_, fun h => ?_⟩ <;> simp at h

theorem tagStep_next_length {tag : Nat} {b b' : Bytes} {st st' : TagState}
    (h : tagStep tag b st = .next b' st') : b'.length ≤ b.length :=
  (tagStep_spec tag b st).1 b' st' h

theorem tagStep_fail_panic {tag : Nat} {b : Bytes} {st : TagState} {l r : Nat}
    (h : tagStep tag b st = .fail (.panicShortValue l r)) : r < l :=
  (tagStep_spec tag b st).2.1 l r h

theorem tagStep_ne_outOfFuel {tag : Nat} {b : Bytes} {st : TagState} :
    tagStep tag b st ≠ .fail .outOfFuel :=
  (tagStep_spec tag b st).2.2

/-- Fuel adequacy for the tag loop: any fuel of at least the byte count gives
the same outcome, never exhausts, and any panic it reports is a genuine
short-value overrun. -/
theorem parseTags_master :
    ∀ n (b : Bytes) (st : TagState) (fuel₁ fuel₂ : Nat), b.length = n →
      b.length ≤ fuel₁ → b.length ≤ fuel₂ →
      parseTags fuel₁ b st = parseTags fuel₂ b st ∧
      parseTags fuel₁ b st ≠ .error .outOfFuel ∧
      (∀ l r, parseTags fuel₁ b st = .error (.panicShortValue l r) → r < l) := by
  intro n
  induction n using Nat.strong_induction_on with
  | _ n ih =>
    intro b st fuel₁ fuel₂ hn h1 h2
    match b with
    | [] =>
      refine ⟨?_, ?_, ?_⟩ <;> cases fuel₁ <;> cases fuel₂ <;>
        simp [parseTags]
    | tag :: bs =>
      simp only [List.length_cons] at h1 h2 hn
      match fuel₁, h1 with
      | f₁ + 1, _ =>
      match fuel₂, h2 with
      | f₂ + 1, _ =>
      rw [parseTags, parseTags]
      cases hstep : tagStep tag bs st with
      | stop st' rest => simp
      | fail e =>
        refine ⟨rfl, ?_, ?_⟩
        · intro h
          simp only [Except.error.injEq] at h
          subst h
          exact tagStep_ne_outOfFuel hstep
        · intro l r h
          simp only [Except.error.injEq] at h
          subst h
          exact tagStep_fail_panic hstep
      | next b' st' =>
        dsimp only
        have hlen := tagStep_next_length hstep
        exact ih b'.length (by omega) b' st' f₁ f₂ rfl (by omega) (by omega)

theorem encodeVarU64_ne_nil (v : Nat) : encodeVarU64 v ≠ [] := by
  rw [encodeVarU64, encodeVarU64Go]
  split_ifs <;> simp

theorem decodeNCompact_encode (ks : List Bytes) (rest : Bytes) :
    decodeNCompact ks.length ((ks.map encodeCompactBytes).flatten ++ rest)
      = .ok (ks, rest) := by
  induction ks with
  | nil => simp [decodeNCompact]
  | cons k t ih =>
    simp only [List.map_cons, List.flatten_cons, List.length_cons,
      List.append_assoc]
    rw [decodeNCompact, decodeCompactBytes_encode]
    dsimp only
    rw [ih]

theorem decodeNU64_encode (vs : List Nat) (rest : Bytes)
    (h : ∀ v ∈ vs, v < 2 ^ 64) :
    decodeNU64 vs.length ((vs.map encodeU64).flatten ++ rest) = .ok (vs, rest) := by
  induction vs with
  | nil => simp [decodeNU64]
  | cons v t ih =>
    simp only [List.map_cons, List.flatten_cons, List.length_cons,
      List.append_assoc]
    rw [decodeNU64, decodeU64_encode v _ (h v (by simp))]
    dsimp only
    rw [ih (fun x hx => h x (by simp [hx]))]

theorem LockType.fromU8_toU8 (lt : LockType) : LockType.fromU8 lt.toU8 = some lt := by
  cases lt <;> rfl

theorem parseTags_eq_A {fuel : Nat} (b : Bytes) (st : TagState)
    (h : b.length ≤ fuel) : parseTags fuel b st = parseTagsA b st :=
  (parseTags_master b.length b st fuel (b.length + 1) rfl h (by omega)).1

theorem parseTagsA_nil (st : TagState) : parseTagsA [] st = .ok (st, []) := rfl

theorem parseTagsA_next {tag : Nat} {b b' : Bytes} {st st' : TagState}
    (hstep : tagStep tag b st = .next b' st') :
    parseTagsA (tag :: b) st = parseTagsA b' st' := by
  unfold parseTagsA
  have hlen := tagStep_next_length hstep
  show parseTags (b.length + 1 + 1) (tag :: b) st = _
  rw [parseTags, hstep]
  exact parseTags_eq_A b' st' (by omega)

theorem parseTagsA_stop {tag : Nat} {b : Bytes} {st st' : TagState} {rest : Bytes}
    (hstep : tagStep tag b st = .stop st' rest) :
    parseTagsA (tag :: b) st = .ok (st', rest) := by
  unfold parseTagsA
  show parseTags (b.length + 1 + 1) (tag :: b) st = _
  rw [parseTags, hstep]

theorem tagStep_unknown {tag : Nat} (b : Bytes) (st : TagState)
    (h : tag ∉ knownTagPrefixes) : tagStep tag b st = .stop st b := by
  simp only [knownTagPrefixes, List.mem_cons, List.mem_singleton, not_or] at h
  obtain ⟨n1, n2, n3, n4, n5, n6, n7, n8, n9, n10, -⟩ := h
  unfold tagStep
  rw [if_neg n1, if_neg n2, if_neg n3, if_neg n4, if_neg n5, if_neg n6,
    if_neg n7, if_neg n8, if_neg n9, if_neg n10]

theorem runSvSeg (sv : Option Bytes) (rest : Bytes) (st : TagState)
    (hst : st.shortValue = none) (hlen : ∀ v, sv = some v → v.length < 256) :
    parseTagsA (svSeg sv ++ rest) st = parseTagsA rest { st with shortValue := sv } := by
  match sv with
  | none =>
    simp only [svSeg, List.nil_append]
    congr 1
    cases st
    simp_all
  | some v =>
    simp only [svSeg, List.cons_append]
    have hv : v.length % 256 = v.length := Nat.mod_eq_of_lt (hlen v rfl)
    rw [hv]
    refine parseTagsA_next ?_
    unfold tagStep
    rw [if_pos rfl]
    dsimp only
    have hge : ¬ ((v ++ rest).length < v.length) := by simp
    rw [if_neg hge, List.take_left, List.drop_left]

theorem tagStep_fu (b : Bytes) (st : TagState) :
    tagStep FOR_UPDATE_TS_PREFIX b st = (match decodeU64 b with
      | .error e => .fail (.codec e)
      | .ok (v, r) => .next r { st with forUpdateTs := v }) := rfl

theorem tagStep_txnSize (b : Bytes) (st : TagState) :
    tagStep TXN_SIZE_PREFIX b st = (match decodeU64 b with
      | .error e => .fail (.codec e)
      | .ok (v, r) => .next r { st with txnSize := v }) := rfl

theorem tagStep_minCommit (b : Bytes) (st : TagState) :
    tagStep MIN_COMMIT_TS_PREFIX b st = (match decodeU64 b with
      | .error e => .fail (.codec e)
      | .ok (v, r) => .next r { st with minCommitTs := v }) := rfl

theorem tagStep_async (b : Bytes) (st : TagState) :
    tagStep ASYNC_COMMIT_PREFIX b st = (match decodeVarU64 b with
      | .error e => .fail (.codec e)
      | .ok (len, r) =>
        match decodeNCompact len r with
        | .error e => .fail (.codec e)
        | .ok (ks, r') =>
          .next r' { st with useAsyncCommit := true, secondaries := ks }) := rfl

theorem tagStep_rollback (b : Bytes) (st : TagState) :
    tagStep ROLLBACK_TS_PREFIX b st = (match decodeVarU64 b with
      | .error e => .fail (.codec e)
      | .ok (len, r) =>
        match decodeNU64 len r with
        | .error e => .fail (.codec e)
        | .ok (vs, r') => .next r' { st with rollbackTs := vs }) := rfl

theorem tagStep_lastChange (b : Bytes) (st : TagState) :
    tagStep LAST_CHANGE_PREFIX b st = (match decodeU64 b with
      | .error e => .fail (.codec e)
      | .ok (ts, r) =>
        match decodeVarU64 r with
        | .error e => .fail (.codec e)
        | .ok (versions, r') =>
          .next r' { st with lastChangeTs := ts,
                             estimatedVersions := versions }) := rfl

theorem tagStep_txnSource (b : Bytes) (st : TagState) :
    tagStep TXN_SOURCE_PREFIX b st = (match decodeVarU64 b with
      | .error e => .fail (.codec e)
      | .ok (v, r) => .next r { st with txnSource := v }) := rfl

theorem tagStep_conflict (b : Bytes) (st : TagState) :
    tagStep PESSIMISTIC_LOCK_WITH_CONFLICT_PREFIX b st
      = .next b { st with isLockedWithConflict := true } := rfl

theorem tagStep_generation (b : Bytes) (st : TagState) :
    tagStep GENERATION_PREFIX b st = (match decodeU64 b with
      | .error e => .fail (.codec e)
      | .ok (v, r) => .next r { st with generation := v }) := rfl

theorem runFuSeg (v : Nat) (hv : v < 2 ^ 64) (rest : Bytes) (st : TagState)
    (hst : st.forUpdateTs = 0) :
    parseTagsA ((if v ≠ 0 then FOR_UPDATE_TS_PREFIX :: encodeU64 v else []) ++ rest) st
      = parseTagsA rest { st with forUpdateTs := v } := by
  by_cases h : v ≠ 0
  · rw [if_pos h]
    simp only [List.cons_append]
    exact parseTagsA_next (by rw [tagStep_fu, decodeU64_encode v rest hv])
  · rw [if_neg h]
    push_neg at h
    subst h
    simp only [List.nil_append]
    congr 1
    cases st
    simp_all

theorem runTxnSizeSeg (v : Nat) (hv : v < 2 ^ 64) (rest : Bytes) (st : TagState)
    (hst : st.txnSize = 0) :
    parseTagsA ((if v > 0 then TXN_SIZE_PREFIX :: encodeU64 v else []) ++ rest) st
      = parseTagsA rest { st with txnSize := v } := by
  by_cases h : v > 0
  · rw [if_pos h]
    simp only [List.cons_append]
    exact parseTagsA_next (by rw [tagStep_txnSize, decodeU64_encode v rest hv])
  · rw [if_neg h]
    have hz : v = 0 := by omega
    subst hz
    simp only [List.nil_append]
    congr 1
    cases st
    simp_all

theorem runMinCommitSeg (v : Nat) (hv : v < 2 ^ 64) (rest : Bytes) (st : TagState)
    (hst : st.minCommitTs = 0) :
    parseTagsA ((if v ≠ 0 then MIN_COMMIT_TS_PREFIX :: encodeU64 v else []) ++ rest) st
      = parseTagsA rest { st with minCommitTs := v } := by
  by_cases h : v ≠ 0
  · rw [if_pos h]
    simp only [List.cons_append]
    exact parseTagsA_next (by rw [tagStep_minCommit, decodeU64_encode v rest hv])
  · rw [if_neg h]
    push_neg at h
    subst h
    simp only [List.nil_append]
    congr 1
    cases st
    simp_all

theorem runAsyncSeg (ua : Bool) (ks : List Bytes) (rest : Bytes) (st : TagState)
    (hks : ua = false → ks = []) (hst : st.useAsyncCommit = false)
    (hsec : st.secondaries = []) :
    parseTagsA ((if ua then
        ASYNC_COMMIT_PREFIX :: (encodeVarU64 ks.length
          ++ (ks.map encodeCompactBytes).flatten)
      else []) ++ rest) st
      = parseTagsA rest { st with useAsyncCommit := ua, secondaries := ks } := by
  cases ua with
  | true =>
    rw [if_pos rfl]
    simp only [List.cons_append, List.append_assoc]
    refine parseTagsA_next ?_
    rw [tagStep_async, decodeVarU64_encode]
    dsimp only
    rw [decodeNCompact_encode]
  | false =>
    rw [if_neg (by simp)]
    have hk := hks rfl
    subst hk
    simp only [List.nil_append]
    congr 1
    cases st
    simp_all

theorem runRollbackSeg (vs : List Nat) (rest : Bytes) (st : TagState)
    (hv : ∀ v ∈ vs, v < 2 ^ 64) (hst : st.rollbackTs = []) :
    parseTagsA ((if vs ≠ [] then
        ROLLBACK_TS_PREFIX :: (encodeVarU64 vs.length ++ (vs.map encodeU64).flatten)
      else []) ++ rest) st
      = parseTagsA rest { st with rollbackTs := vs } := by
  by_cases h : vs ≠ []
  · rw [if_pos h]
    simp only [List.cons_append, List.append_assoc]
    refine parseTagsA_next ?_
    rw [tagStep_rollback, decodeVarU64_encode]
    dsimp only
    rw [decodeNU64_encode vs rest hv]
  · rw [if_neg h]
    push_neg at h
    subst h
    simp only [List.nil_append]
    congr 1
    cases st
    simp_all

theorem runLastChangeSeg (lc : LastChange) (rest : Bytes) (st : TagState)
    (hts : lc.toParts.1 < 2 ^ 64)
    (hst : st.lastChangeTs = 0) (hsv : st.estimatedVersions = 0) :
    parseTagsA ((if lc ≠ .unknown then
        LAST_CHANGE_PREFIX :: (encodeU64 lc.toParts.1 ++ encodeVarU64 lc.toParts.2)
      else []) ++ rest) st
      = parseTagsA rest { st with lastChangeTs := lc.toParts.1,
                                  estimatedVersions := lc.toParts.2 } := by
  by_cases h : lc ≠ .unknown
  · rw [if_pos h]
    simp only [List.cons_append, List.append_assoc]
    refine parseTagsA_next ?_
    rw [tagStep_lastChange, decodeU64_encode _ _ hts]
    dsimp only
    rw [decodeVarU64_encode]
  · rw [if_neg h]
    push_neg at h
    subst h
    simp only [List.nil_append, LastChange.toParts]
    congr 1
    cases st
    simp_all

theorem runTxnSourceSeg (v : Nat) (rest : Bytes) (st : TagState)
    (hst : st.txnSource = 0) :
    parseTagsA ((if v ≠ 0 then TXN_SOURCE_PREFIX :: encodeVarU64 v else []) ++ rest) st
      = parseTagsA rest { st with txnSource := v } := by
  by_cases h : v ≠ 0
  · rw [if_pos h]
    simp only [List.cons_append]
    exact parseTagsA_next (by rw [tagStep_txnSource, decodeVarU64_encode])
  · rw [if_neg h]
    push_neg at h
    subst h
    simp only [List.nil_append]
    congr 1
    cases st
    simp_all

theorem runConflictSeg (f : Bool) (rest : Bytes) (st : TagState)
    (hst : st.isLockedWithConflict = false) :
    parseTagsA ((if f then [PESSIMISTIC_LOCK_WITH_CONFLICT_PREFIX] else []) ++ rest) st
      = parseTagsA rest { st with isLockedWithConflict := f } := by
  cases f with
  | true =>
    rw [if_pos rfl]
    simp only [List.cons_append, List.nil_append]
    exact parseTagsA_next (tagStep_conflict rest st)
  | false =>
    rw [if_neg (by simp)]
    simp only [List.nil_append]
    congr 1
    cases st
    simp_all

theorem runGenerationSeg (v : Nat) (hv : v < 2 ^ 64) (rest : Bytes) (st : TagState)
    (hst : st.generation = 0) :
    parseTagsA ((if v > 0 then GENERATION_PREFIX :: encodeU64 v else []) ++ rest) st
      = parseTagsA rest { st with generation := v } := by
  by_cases h : v > 0
  · rw [if_pos h]
    simp only [List.cons_append]
    exact parseTagsA_next (by rw [tagStep_generation, decodeU64_encode v rest hv])
  · rw [if_neg h]
    have hz : v = 0 := by omega
    subst hz
    simp only [List.nil_append]
    congr 1
    cases st
    simp_all

theorem toBytes_sv_view (l : Lock) :
    (match l.shortValue with
     | some v => SHORT_VALUE_PREFIX :: (v.length % 256) :: v
     | none => ([] : Bytes)) = svSeg l.shortValue := by
  cases l.shortValue <;> rfl

/-- Parsing a full record splits into the fixed header and the tag loop:
the early returns for a missing tag section coincide with running the loop
on an empty tail. -/
theorem parse_assemble (lt : LockType) (primary : Bytes) (ts ttl : Nat)
    (tail : Bytes) :
    Lock.parse (lt.toU8 :: (encodeCompactBytes primary
        ++ (encodeVarU64 ts ++ (encodeVarU64 ttl ++ tail))))
      = match parseTagsA tail TagState.init with
        | .error e => .error e
        | .ok (st, _) => .ok (st.assemble lt primary ts ttl) := by
  unfold Lock.parse
  dsimp only
  rw [LockType.fromU8_toU8]
  dsimp only
  rw [decodeCompactBytes_encode]
  dsimp only
  rw [decodeVarU64_encode]
  dsimp only
  obtain ⟨c, cs, hc⟩ : ∃ c cs, encodeVarU64 ttl = c :: cs := by
    cases h : encodeVarU64 ttl with
    | nil => exact absurd h (encodeVarU64_ne_nil ttl)
    | cons c cs => exact ⟨c, cs, rfl⟩
  have hd2 := decodeVarU64_encode ttl tail
  rw [hc, List.cons_append] at hd2 ⊢
  dsimp only
  rw [hd2]
  dsimp only
  cases tail with
  | nil =>
    rw [parseTagsA_nil]
    rfl
  | cons x xs =>
    dsimp only
    show (match parseTagsA (x :: xs) TagState.init with
          | Except.error e => (Except.error e : Except LockErr Lock)
          | Except.ok (st, _) => Except.ok (st.assemble lt primary ts ttl)) = _
    rfl

theorem fromParts_toParts (lc : LastChange) (h : lastChangeWf lc) :
    LastChange.fromParts lc.toParts.1 lc.toParts.2 = lc := by
  cases lc with
  | unknown => rfl
  | notExist => rfl
  | exist ts v =>
    obtain ⟨hts, -⟩ := h
    simp [LastChange.toParts, LastChange.fromParts, hts]

theorem lastChangeWf_ts_lt (lc : LastChange) (h : lastChangeWf lc) :
    lc.toParts.1 < 2 ^ 64 := by
  cases lc with
  | unknown => exact (by norm_num : (0:Nat) < 2 ^ 64)
  | notExist => exact (by norm_num : (0:Nat) < 2 ^ 64)
  | exist ts v => exact h.2

theorem parse_toBytes_with_rest (l : Lock) (hwf : l.encodeWf)
    (rest : Bytes) :
    Lock.parse (l.toBytes ++ rest)
      = match parseTagsA rest l.finalTagState with
        | .error e => .error e
        | .ok (st, _) => .ok (st.assemble l.lockType l.primary l.ts l.ttl) := by
  obtain ⟨hts, httl, hfu, htx, hmc, hsrc, hgen, hsv, hrb, hsec, hlc⟩ := hwf
  have hview := toBytes_sv_view l
  unfold Lock.toBytes
  rw [hview]
  simp only [List.append_assoc, List.cons_append, List.singleton_append,
    List.nil_append]
  rw [parse_assemble]
  rw [runSvSeg l.shortValue _ _ rfl hsv]
  rw [runFuSeg l.forUpdateTs hfu _ _ rfl]
  rw [runTxnSizeSeg l.txnSize htx _ _ rfl]
  rw [runMinCommitSeg l.minCommitTs hmc _ _ rfl]
  rw [runAsyncSeg l.useAsyncCommit l.secondaries _ _ hsec rfl rfl]
  rw [runRollbackSeg l.rollbackTs _ _ hrb rfl]
  rw [runLastChangeSeg l.lastChange _ _ (lastChangeWf_ts_lt _ hlc) rfl rfl]
  rw [runTxnSourceSeg l.txnSource _ _ rfl]
  rw [runConflictSeg l.isLockedWithConflict _ _ rfl]
  rw [runGenerationSeg l.generation hgen _ _ rfl]
  rfl

theorem assemble_finalTagState (l : Lock) (hwf : l.encodeWf)
    (h1pc : l.useOnePc = false) :
    (l.finalTagState).assemble l.lockType l.primary l.ts l.ttl = l := by
  obtain ⟨hts, httl, hfu, htx, hmc, hsrc, hgen, hsv, hrb, hsec, hlc⟩ := hwf
  unfold Lock.finalTagState TagState.assemble
  cases l with
  | mk lockType primary ts ttl shortValue forUpdateTs txnSize minCommitTs
      useAsyncCommit useOnePc secondaries rollbackTs lastChange txnSource
      isLockedWithConflict generation =>
    simp only at hsec h1pc ⊢
    subst h1pc
    rw [fromParts_toParts _ hlc]
    cases useAsyncCommit with
    | true => simp
    | false => simp [hsec rfl]

/-- C1 (counterexample): the round trip fails as stated — a `Lock` with
`use_one_pc = false` but a non-empty `secondaries` list without
`use_async_commit` does not survive `parse ∘ to_bytes`: the parsed lock has
empty `secondaries`. -/
theorem c1_roundtrip_counterexample :
    c1CexLock.useOnePc = false ∧
    Lock.parse c1CexLock.toBytes
      = .ok (Lock.new .put [] 0 0 none 0 0 0 false) ∧
    Lock.parse c1CexLock.toBytes ≠ .ok c1CexLock := by
  refine ⟨rfl, by decide, by decide⟩

/-- C1 (amended): for every `Lock` whose `use_one_pc` flag is false and whose
fields are wire-representable (u64 fields in range, short value under 256
bytes, `secondaries` empty unless `use_async_commit`, persistable
`last_change`), `Lock::parse ∘ Lock::to_bytes` is the identity; and appending
an unknown tag byte plus arbitrary further bytes to the encoding parses to the
same lock, keeping all fields read before the unknown tag and ignoring the
tail. -/
theorem c1_roundtrip (l : Lock) (h1pc : l.useOnePc = false)
    (hwf : l.encodeWf) :
    Lock.parse l.toBytes = .ok l ∧
    ∀ tag junk, tag ∉ knownTagPrefixes →
      Lock.parse (l.toBytes ++ tag :: junk) = .ok l := by
  constructor
  · have h := parse_toBytes_with_rest l hwf []
    rw [List.append_nil] at h
    rw [h, parseTagsA_nil]
    dsimp only
    rw [assemble_finalTagState l hwf h1pc]
  · intro tag junk htag
    have h := parse_toBytes_with_rest l hwf (tag :: junk)
    rw [h, parseTagsA_stop (tagStep_unknown junk l.finalTagState htag)]
    dsimp only
    rw [assemble_finalTagState l hwf h1pc]

theorem c1_roundtrip_witness :
    Lock.parse c1WitnessLock.toBytes = .ok c1WitnessLock ∧
    Lock.parse (c1WitnessLock.toBytes ++ 66 :: [9, 9]) = .ok c1WitnessLock := by
  have hwf : c1WitnessLock.encodeWf := by
    refine ⟨by decide, by decide, by decide, by decide, by decide, by decide,
      by decide, ?_, by decide, ?_, by decide⟩
    · intro v hv
      simp only [c1WitnessLock] at hv
      cases hv
      decide
    · intro h
      simp [c1WitnessLock] at h
  have h := c1_roundtrip c1WitnessLock rfl hwf
  exact ⟨h.1, h.2 66 [9, 9] (by decide)⟩

/-- C2: under snapshot isolation the conflict check ignores the lock exactly
when the lock is newer than the read snapshot, the lock type is Lock or
Pessimistic, its `min_commit_ts` exceeds the read ts, its start ts is in
`bypass_locks`, or the read is a non-replica latest read (`read_ts == MAX`)
of the primary of a non-async-commit, non-one-pc transaction; in every other
case it returns `KeyIsLocked` carrying the lock's info.  In particular a
replica latest read never reaches the primary bypass.  The SI arm of
`check_ts_conflict` is this check with `is_replica_read = false`. -/
theorem c2_check_ts_conflict_si (l : Lock) (key : Bytes) (ts : Nat)
    (bypass : List Nat) (replica : Bool) :
    (l.checkTsConflictSi key ts bypass replica = .ok () ↔
      l.ts > ts ∨ l.lockType = .lock ∨ l.lockType = .pessimistic ∨
      l.minCommitTs > ts ∨ l.ts ∈ bypass ∨
      (ts = U64MAX ∧ replica = false ∧ key = l.primary ∧
        l.useAsyncCommit = false ∧ l.useOnePc = false)) ∧
    (l.checkTsConflictSi key ts bypass replica ≠ .ok () →
      l.checkTsConflictSi key ts bypass replica
        = .error (.keyIsLocked (l.intoLockInfo key))) ∧
    l.checkTsConflict key ts bypass .si = l.checkTsConflictSi key ts bypass false := by
  refine ⟨?_, ?_, rfl⟩
  · unfold Lock.checkTsConflictSi Lock.isPessimisticLock
    split_ifs with h1 h2 h3 h4 h5
    · simp only [decide_eq_true_eq] at h1
      simp only [true_iff]
      tauto
    · simp only [true_iff]
      tauto
    · simp only [true_iff]
      tauto
    · simp only [decide_eq_true_eq, not_or] at h1
      obtain ⟨hmax, hrep⟩ := h4
      constructor
      · intro h
        cases h
      · intro h
        rcases h with h | h | h | h | h | ⟨-, hrf, -, -, -⟩
        · exact absurd h h1.1
        · exact absurd h h1.2.1
        · exact absurd h h1.2.2
        · exact absurd h h2
        · exact absurd h h3
        · rw [hrf] at hrep
          cases hrep
    · simp only [true_iff]
      push_neg at h4
      obtain ⟨hmax, hkey, hac, h1pc⟩ := h5
      refine Or.inr (Or.inr (Or.inr (Or.inr (Or.inr
        ⟨hmax, ?_, hkey, by simpa using hac, by simpa using h1pc⟩))))
      cases hr : replica with
      | false => rfl
      | true => exact absurd hr (h4 hmax)
    · simp only [decide_eq_true_eq, not_or] at h1
      constructor
      · intro h
        cases h
      · intro h
        push_neg at h4 h5
        rcases h with h | h | h | h | h | ⟨hmax, hrf, hkey, hac, h1pc⟩
        · exact absurd h h1.1
        · exact absurd h h1.2.1
        · exact absurd h h1.2.2
        · exact absurd h h2
        · exact absurd h h3
        · have hpc := h5 hmax hkey (by simp [hac])
          rw [h1pc] at hpc
          cases hpc
  · unfold Lock.checkTsConflictSi Lock.isPessimisticLock
    split_ifs <;> intro h <;> first | (exact absurd rfl h) | rfl

theorem c2_check_ts_conflict_si_witness :
    Lock.checkTsConflictSi c2Lock [102, 111, 111] 140 [] false = .ok () :=
  (c2_check_ts_conflict_si c2Lock [102, 111, 111] 140 [] false).1.mpr
    (Or.inr (Or.inr (Or.inr (Or.inl (by decide)))))

/-- C4: under RcCheckTs the conflict check ignores the lock exactly when the
lock type is Lock or Pessimistic or the start ts is in `bypass_locks`;
otherwise it returns a `WriteConflict` with `start_ts = read_ts`,
`conflict_start_ts = lock.ts`, `conflict_commit_ts = 0`, the raw key, the
lock's primary and reason RcCheckTs.  Under the only isolation level other
than SI and RcCheckTs (RC), the check always returns Ok. -/
theorem c4_check_ts_conflict_rc_check_ts (l : Lock) (key : Bytes) (ts : Nat)
    (bypass : List Nat) :
    (l.checkTsConflictRcCheckTs key ts bypass = .ok () ↔
      l.lockType = .lock ∨ l.lockType = .pessimistic ∨ l.ts ∈ bypass) ∧
    (l.checkTsConflictRcCheckTs key ts bypass ≠ .ok () →
      l.checkTsConflictRcCheckTs key ts bypass
        = .error (.writeConflict ts l.ts 0 key l.primary .rcCheckTs)) ∧
    l.checkTsConflict key ts bypass .rcCheckTs
      = l.checkTsConflictRcCheckTs key ts bypass ∧
    l.checkTsConflict key ts bypass .rc = .ok () := by
  refine ⟨?_, ?_, rfl, rfl⟩
  · unfold Lock.checkTsConflictRcCheckTs Lock.isPessimisticLock
    split_ifs with h1 h2
    · simp only [decide_eq_true_eq] at h1
      simp only [true_iff]
      tauto
    · simp only [true_iff]
      tauto
    · simp only [decide_eq_true_eq, not_or] at h1
      constructor
      · intro h
        cases h
      · intro h
        rcases h with h | h | h
        · exact absurd h h1.1
        · exact absurd h h1.2
        · exact absurd h h2
  · unfold Lock.checkTsConflictRcCheckTs Lock.isPessimisticLock
    split_ifs <;> intro h <;> first | (exact absurd rfl h) | rfl

theorem checkBal_sound (f : Nat → Bool) :
    ∀ fuel s len, checkBal f fuel s len = true → ∀ i, i < len → f (s + i) = true := by
  intro fuel
  induction fuel with
  | zero =>
    intro s len h i hi
    unfold checkBal at h
    simp only [Bool.or_eq_true, Bool.and_eq_true, beq_iff_eq] at h
    rcases h with h | ⟨h1, h2⟩
    · omega
    · have : i = 0 := by omega
      subst this
      simpa using h2
  | succ fuel ih =>
    intro s len h i hi
    unfold checkBal at h
    by_cases h0 : len = 0
    · omega
    · rw [if_neg (by simpa using h0)] at h
      by_cases h1 : len = 1
      · rw [if_pos (by simpa using h1)] at h
        have : i = 0 := by omega
        subst this
        simpa using h
      · rw [if_neg (by simpa using h1)] at h
        simp only [Bool.and_eq_true] at h
        by_cases hc : i < len / 2
        · exact ih s (len / 2) h.1 i hc
        · have := ih (s + len / 2) (len - len / 2) h.2 (i - len / 2) (by omega)
          have heq : s + len / 2 + (i - len / 2) = s + i := by omega
          rwa [heq] at this

theorem recRaw_mono : Monotone recRaw := by
  apply monotone_nat_of_le_succ
  intro n
  unfold recRaw
  omega

theorem recYoe_mono : Monotone recYoe :=
  fun _ _ h => Nat.div_le_div_right (recRaw_mono h)

theorem endpoints_ok : checkBal chkEndpoints 10 0 400 = true := by decide

theorem lenOf_pos (yoe : Nat) (h : yoe < 400) : 365 ≤ lenOf yoe ∧ lenOf yoe ≤ 366 := by
  unfold lenOf yoeStart
  split_ifs <;> omega

theorem recYoe_correct (yoe : Nat) (hy : yoe < 400) (k : Nat) (hk : k < lenOf yoe) :
    recYoe (yoeStart yoe + k) = yoe := by
  have h := checkBal_sound chkEndpoints 10 0 400 endpoints_ok yoe hy
  rw [Nat.zero_add] at h
  unfold chkEndpoints at h
  simp only [Bool.and_eq_true, beq_iff_eq] at h
  have hlo : recYoe (yoeStart yoe) ≤ recYoe (yoeStart yoe + k) :=
    recYoe_mono (by omega)
  have hhi : recYoe (yoeStart yoe + k) ≤ recYoe (yoeStart yoe + lenOf yoe - 1) :=
    recYoe_mono (by omega)
  omega

theorem yoeStart_succ (yoe : Nat) (h : yoe < 399) :
    yoeStart (yoe + 1) = yoeStart yoe + lenOf yoe := by
  unfold lenOf yoeStart
  rw [if_neg (by omega)]
  omega

theorem partition (doe : Nat) (h : doe < 146097) :
    ∃ yoe, yoe < 400 ∧ yoeStart yoe ≤ doe ∧ doe < yoeStart yoe + lenOf yoe := by
  induction doe with
  | zero => exact ⟨0, by omega, by decide, by decide⟩
  | succ n ih =>
    obtain ⟨yoe, hy, h1, h2⟩ := ih (by omega)
    by_cases hc : n + 1 < yoeStart yoe + lenOf yoe
    · exact ⟨yoe, hy, by omega, hc⟩
    · by_cases h399 : yoe = 399
      · subst h399
        have : yoeStart 399 + lenOf 399 = 146097 := by decide
        omega
      · have hs := yoeStart_succ yoe (by omega)
        have hp := lenOf_pos (yoe + 1) (by omega)
        exact ⟨yoe + 1, by omega, by omega, by omega⟩

theorem doyTable_ok : checkBal chkDoy 10 0 366 = true := by decide

theorem chkDoy_spec (doy : Nat) (h : doy < 366) :
    1 ≤ (if (5 * doy + 2) / 153 < 10 then (5 * doy + 2) / 153 + 3
          else (5 * doy + 2) / 153 - 9) ∧
    (if (5 * doy + 2) / 153 < 10 then (5 * doy + 2) / 153 + 3
      else (5 * doy + 2) / 153 - 9) ≤ 12 ∧
    1 ≤ doy - (153 * ((5 * doy + 2) / 153) + 2) / 5 + 1 ∧
    (153 * ((5 * doy + 2) / 153) + 2) / 5 ≤ doy ∧
    (153 * (if (if (5 * doy + 2) / 153 < 10 then (5 * doy + 2) / 153 + 3
              else (5 * doy + 2) / 153 - 9) > 2 then
            (if (5 * doy + 2) / 153 < 10 then (5 * doy + 2) / 153 + 3
              else (5 * doy + 2) / 153 - 9) - 3
          else (if (5 * doy + 2) / 153 < 10 then (5 * doy + 2) / 153 + 3
              else (5 * doy + 2) / 153 - 9) + 9) + 2) / 5
        + (doy - (153 * ((5 * doy + 2) / 153) + 2) / 5 + 1) - 1 = doy ∧
    (doy = 365 →
      (if (5 * doy + 2) / 153 < 10 then (5 * doy + 2) / 153 + 3
        else (5 * doy + 2) / 153 - 9) = 2 ∧
      doy - (153 * ((5 * doy + 2) / 153) + 2) / 5 + 1 = 29) ∧
    (doy ≠ 365 →
      doy - (153 * ((5 * doy + 2) / 153) + 2) / 5 + 1
        ≤ if (if (5 * doy + 2) / 153 < 10 then (5 * doy + 2) / 153 + 3
            else (5 * doy + 2) / 153 - 9) = 2 then 28
          else lastDayOfMonth 1
            (if (5 * doy + 2) / 153 < 10 then (5 * doy + 2) / 153 + 3
              else (5 * doy + 2) / 153 - 9)) := by
  have htab := checkBal_sound chkDoy 10 0 366 doyTable_ok doy h
  rw [Nat.zero_add] at htab
  unfold chkDoy at htab
  dsimp only at htab
  exact of_decide_eq_true htab

theorem mdTable_ok : checkBal chkMD 10 0 372 = true := by decide

theorem chkMD_spec (mp dm1 : Nat) (hmp : mp < 12) (hd : dm1 < 31) :
    dm1 + 1 ≤ (if mp = 1 ∨ mp = 3 ∨ mp = 6 ∨ mp = 8 then 30
        else if mp = 11 then 29 else 31) →
    (5 * ((153 * mp + 2) / 5 + (dm1 + 1) - 1) + 2) / 153 = mp ∧
    ((153 * mp + 2) / 5 + (dm1 + 1) - 1) - (153 * mp + 2) / 5 + 1 = dm1 + 1 ∧
    (mp = 11 ∧ dm1 + 1 = 29 → (153 * mp + 2) / 5 + (dm1 + 1) - 1 = 365) ∧
    (¬(mp = 11 ∧ dm1 + 1 = 29) → (153 * mp + 2) / 5 + (dm1 + 1) - 1 ≤ 364) := by
  have htab := checkBal_sound chkMD 10 0 372 mdTable_ok (mp * 31 + dm1)
    (by omega)
  rw [Nat.zero_add] at htab
  unfold chkMD at htab
  dsimp only at htab
  have e1 : (mp * 31 + dm1) / 31 = mp := by omega
  have e2 : (mp * 31 + dm1) % 31 = dm1 := by omega
  rw [e1, e2] at htab
  exact of_decide_eq_true htab

theorem lastDay_ne_two (y m : Nat) (h : m ≠ 2) :
    lastDayOfMonth y m = lastDayOfMonth 1 m := by
  unfold lastDayOfMonth
  split_ifs <;> simp_all

theorem lenOf_leap (era yoe : Nat) (hy : yoe < 400) (h : lenOf yoe = 366) :
    isLeapYear (era * 400 + yoe + 1) = true := by
  unfold lenOf yoeStart at h
  unfold isLeapYear
  simp only [decide_eq_true_eq, ne_eq]
  split_ifs at h with h399
  · subst h399
    refine ⟨by omega, Or.inr (by omega)⟩
  · refine ⟨by omega, Or.inl (by omega)⟩

theorem lastDay_feb_ge (y : Nat) : 28 ≤ lastDayOfMonth y 2 := by
  unfold lastDayOfMonth
  split_ifs <;> omega

/-- Direction A: `daysCore` is a left inverse of `civilCore`, and the civil
triple produced is a valid date. -/
theorem daysCore_civilCore (z : Nat) :
    daysCore (civilCore z).1 (civilCore z).2.1 (civilCore z).2.2 = z ∧
    1 ≤ (civilCore z).2.1 ∧ (civilCore z).2.1 ≤ 12 ∧
    1 ≤ (civilCore z).2.2 ∧
    (civilCore z).2.2 ≤ lastDayOfMonth (civilCore z).1 (civilCore z).2.1 := by
  obtain ⟨yoe, hy, h1, h2⟩ := partition (z % 146097) (Nat.mod_lt _ (by omega))
  have hrec : recYoe (z % 146097) = yoe := by
    have := recYoe_correct yoe hy (z % 146097 - yoeStart yoe) (by omega)
    have heq : yoeStart yoe + (z % 146097 - yoeStart yoe) = z % 146097 := by omega
    rwa [heq] at this
  have hlen := lenOf_pos yoe hy
  unfold recYoe recRaw at hrec
  unfold civilCore
  dsimp only
  rw [hrec]
  have hys : 365 * yoe + yoe / 4 - yoe / 100 = yoeStart yoe := rfl
  rw [hys]
  have hdoylt : z % 146097 - yoeStart yoe < 366 := by omega
  obtain ⟨hm1, hm2, hd1, hle, hrecon, h365, hnb⟩ :=
    chkDoy_spec (z % 146097 - yoeStart yoe) hdoylt
  constructor
  · unfold daysCore
    dsimp only
    by_cases hm : (if (5 * (z % 146097 - yoeStart yoe) + 2) / 153 < 10 then
        (5 * (z % 146097 - yoeStart yoe) + 2) / 153 + 3
      else (5 * (z % 146097 - yoeStart yoe) + 2) / 153 - 9) ≤ 2
    · simp only [if_pos hm]
      have hyy : yoe + z / 146097 * 400 + 1 - 1 = yoe + z / 146097 * 400 := by
        omega
      rw [hyy]
      have hera : (yoe + z / 146097 * 400) / 400 = z / 146097 := by omega
      have hyoe : (yoe + z / 146097 * 400) % 400 = yoe := by omega
      rw [hera, hyoe]
      unfold yoeStart at hrecon h1 h2 ⊢
      omega
    · simp only [if_neg hm]
      have hera : (yoe + z / 146097 * 400) / 400 = z / 146097 := by omega
      have hyoe : (yoe + z / 146097 * 400) % 400 = yoe := by omega
      rw [hera, hyoe]
      unfold yoeStart at hrecon h1 h2 ⊢
      omega
  · refine ⟨hm1, hm2, hd1, ?_⟩
    by_cases h365' : z % 146097 - yoeStart yoe = 365
    · obtain ⟨hm, hd⟩ := h365 h365'
      rw [hm, hd]
      have hlen366 : lenOf yoe = 366 := by omega
      have hleap : isLeapYear (yoe + z / 146097 * 400 + 1) = true := by
        have hl := lenOf_leap (z / 146097) yoe hy hlen366
        rwa [show z / 146097 * 400 + yoe + 1 = yoe + z / 146097 * 400 + 1 by
          omega] at hl
      rw [if_pos (by omega : (2:Nat) ≤ 2)]
      unfold lastDayOfMonth
      rw [if_neg (by omega), if_pos rfl, hleap]
      simp
    · have hb := hnb h365'
      by_cases hm2' : (if (5 * (z % 146097 - yoeStart yoe) + 2) / 153 < 10 then
          (5 * (z % 146097 - yoeStart yoe) + 2) / 153 + 3
        else (5 * (z % 146097 - yoeStart yoe) + 2) / 153 - 9) = 2
      · rw [if_pos hm2'] at hb
        rw [hm2']
        split_ifs
        all_goals
          have h28 := lastDay_feb_ge (yoe + z / 146097 * 400 + 1)
          have h28b := lastDay_feb_ge (yoe + z / 146097 * 400)
          omega
      · rw [if_neg hm2'] at hb
        rw [lastDay_ne_two _ _ hm2']
        split_ifs at hb ⊢ <;> assumption

theorem yoeStart_add_len (yoe : Nat) (h : yoe < 400) :
    yoeStart yoe + lenOf yoe ≤ 146097 := by
  unfold lenOf yoeStart
  split_ifs <;> omega

theorem leap_lenOf (y : Nat) (hy : 1 ≤ y) (h : isLeapYear y = true) :
    lenOf ((y - 1) % 400) = 366 := by
  unfold isLeapYear at h
  simp only [decide_eq_true_eq, ne_eq] at h
  unfold lenOf yoeStart
  split_ifs with h399
  · omega
  · omega

/-- Direction B: `civilCore` is a left inverse of `daysCore` on valid civil
dates. -/
theorem civilCore_daysCore (y m d : Nat) (hy : 1 ≤ y) (hm1 : 1 ≤ m)
    (hm2 : m ≤ 12) (hd1 : 1 ≤ d) (hd2 : d ≤ lastDayOfMonth y m) :
    civilCore (daysCore y m d) = (y, m, d) := by
  have hmplt : (if m > 2 then m - 3 else m + 9) < 12 := by split_ifs <;> omega
  have hdd : d - 1 + 1 = d := by omega
  have hdmax : d ≤ (if (if m > 2 then m - 3 else m + 9) = 1 ∨
      (if m > 2 then m - 3 else m + 9) = 3 ∨ (if m > 2 then m - 3 else m + 9) = 6 ∨
      (if m > 2 then m - 3 else m + 9) = 8 then 30
      else if (if m > 2 then m - 3 else m + 9) = 11 then 29 else 31) := by
    unfold lastDayOfMonth at hd2
    by_cases hgt : m > 2
    · simp only [if_pos hgt] at *
      split_ifs at hd2 ⊢ <;> omega
    · simp only [if_neg hgt] at *
      split_ifs at hd2 ⊢ <;> omega
  have hd31 : d ≤ 31 := by
    unfold lastDayOfMonth at hd2
    split_ifs at hd2 <;> omega
  have spec := chkMD_spec (if m > 2 then m - 3 else m + 9) (d - 1) hmplt
    (by omega)
  rw [hdd] at spec
  obtain ⟨hrecmp, hrecd, h29, hle364⟩ := spec hdmax
  -- the day-of-year and its bound against the year length
  have hyoelt : (if m ≤ 2 then y - 1 else y) % 400 < 400 := Nat.mod_lt _ (by omega)
  have hdoylen : (153 * (if m > 2 then m - 3 else m + 9) + 2) / 5 + d - 1
      < lenOf ((if m ≤ 2 then y - 1 else y) % 400) := by
    by_cases h29' : (if m > 2 then m - 3 else m + 9) = 11 ∧ d = 29
    · have hdoy365 := h29 h29'
      have hm2' : m = 2 := by
        rcases h29' with ⟨hmp11, -⟩
        by_cases hgt : m > 2 <;> simp [hgt] at hmp11 <;> omega
      have hleap : isLeapYear y = true := by
        unfold lastDayOfMonth at hd2
        rw [if_neg (by omega), if_pos hm2'] at hd2
        rcases h29' with ⟨-, hd29⟩
        by_cases hl : isLeapYear y
        · exact hl
        · rw [if_neg hl] at hd2; omega
      have hlen := leap_lenOf y hy hleap
      have hif : (if m ≤ 2 then y - 1 else y) = y - 1 := by
        rw [if_pos (by omega)]
      rw [hif, hlen]
      omega
    · have hb := hle364 h29'
      have hp := (lenOf_pos _ hyoelt).1
      omega
  have hdoe : yoeStart ((if m ≤ 2 then y - 1 else y) % 400)
      + ((153 * (if m > 2 then m - 3 else m + 9) + 2) / 5 + d - 1) < 146097 := by
    have := yoeStart_add_len _ hyoelt
    omega
  -- rewrite daysCore into era/doe form
  have hz : daysCore y m d
      = (if m ≤ 2 then y - 1 else y) / 400 * 146097
        + (yoeStart ((if m ≤ 2 then y - 1 else y) % 400)
           + ((153 * (if m > 2 then m - 3 else m + 9) + 2) / 5 + d - 1)) := by
    unfold daysCore yoeStart
    dsimp only
    omega
  rw [hz]
  unfold civilCore
  dsimp only
  have e1 : ((if m ≤ 2 then y - 1 else y) / 400 * 146097
      + (yoeStart ((if m ≤ 2 then y - 1 else y) % 400)
         + ((153 * (if m > 2 then m - 3 else m + 9) + 2) / 5 + d - 1))) / 146097
      = (if m ≤ 2 then y - 1 else y) / 400 := by omega
  have e2 : ((if m ≤ 2 then y - 1 else y) / 400 * 146097
      + (yoeStart ((if m ≤ 2 then y - 1 else y) % 400)
         + ((153 * (if m > 2 then m - 3 else m + 9) + 2) / 5 + d - 1))) % 146097
      = yoeStart ((if m ≤ 2 then y - 1 else y) % 400)
        + ((153 * (if m > 2 then m - 3 else m + 9) + 2) / 5 + d - 1) := by omega
  rw [e1, e2]
  have hryoe : recYoe (yoeStart ((if m ≤ 2 then y - 1 else y) % 400)
      + ((153 * (if m > 2 then m - 3 else m + 9) + 2) / 5 + d - 1))
      = (if m ≤ 2 then y - 1 else y) % 400 :=
    recYoe_correct _ hyoelt _ hdoylen
  unfold recYoe recRaw at hryoe
  rw [hryoe]
  have hys : 365 * ((if m ≤ 2 then y - 1 else y) % 400)
      + (if m ≤ 2 then y - 1 else y) % 400 / 4
      - (if m ≤ 2 then y - 1 else y) % 400 / 100
      = yoeStart ((if m ≤ 2 then y - 1 else y) % 400) := rfl
  rw [hys]
  have e3 : yoeStart ((if m ≤ 2 then y - 1 else y) % 400)
      + ((153 * (if m > 2 then m - 3 else m + 9) + 2) / 5 + d - 1)
      - yoeStart ((if m ≤ 2 then y - 1 else y) % 400)
      = (153 * (if m > 2 then m - 3 else m + 9) + 2) / 5 + d - 1 := by omega
  rw [e3, hrecmp, hrecd]
  have hmrec : (if (if m > 2 then m - 3 else m + 9) < 10 then
      (if m > 2 then m - 3 else m + 9) + 3
    else (if m > 2 then m - 3 else m + 9) - 9) = m := by
    by_cases hgt : m > 2
    · simp only [if_pos hgt]; rw [if_pos (by omega)]; omega
    · simp only [if_neg hgt]; rw [if_neg (by omega)]; omega
  rw [hmrec]
  have hyrec : (if m ≤ 2 then y - 1 else y) % 400
      + (if m ≤ 2 then y - 1 else y) / 400 * 400
      = (if m ≤ 2 then y - 1 else y) := by omega
  rw [hyrec]
  by_cases hmle : m ≤ 2
  · rw [if_pos hmle, if_pos hmle]
    have : y - 1 + 1 = y := by omega
    rw [this]
  · rw [if_neg hmle, if_neg hmle]

theorem timeMaskedU64_eq_iff (a b : Time) :
    (a.setFspTt 0).toU64 = (b.setFspTt 0).toU64 ↔ a.sameFields b := by
  unfold Time.setFspTt Time.toU64 Time.sameFields Time.year Time.month
    Time.day Time.hour Time.minute Time.second Time.micro Time.getFspTt
  dsimp only
  omega

/-- C9: equality, ordering and hashing of `Time` are computed on the packed
64-bit value with the low 4 `fsp_tt` bits zeroed, hence two times are equal
(and compare `Equal`, and feed the same value to the hasher) iff their year,
month, day, hour, minute, second and microsecond fields all agree, regardless
of their `fsp` and of the Date/DateTime/Timestamp tag. -/
theorem c9_time_identity (a b : Time) :
    (a.timeEq b = true ↔ a.sameFields b) ∧
    (a.timeCmp b = .eq ↔ a.sameFields b) ∧
    (a.hashInput = b.hashInput ↔ a.sameFields b) := by
  refine ⟨?_, ?_, ?_⟩
  · rw [← timeMaskedU64_eq_iff]
    unfold Time.timeEq
    exact beq_iff_eq ..
  · rw [← timeMaskedU64_eq_iff]
    unfold Time.timeCmp
    exact compare_eq_iff_eq
  · rw [← timeMaskedU64_eq_iff]
    unfold Time.hashInput
    exact Iff.rfl

theorem int_fdiv_emod_86400 (q r : Int) (h0 : 0 ≤ r) (h1 : r < 86400) :
    (q * 86400 + r).fdiv 86400 = q ∧ (q * 86400 + r).emod 86400 = r := by
  rw [Int.fdiv_eq_ediv _ (by norm_num)]
  rw [show (q * 86400 + r).emod 86400 = (q * 86400 + r) % 86400 from rfl]
  constructor <;> omega

theorem chronoDatetime_valid (o : Int) (y m d h mi s mc : Nat)
    (hm1 : 1 ≤ m) (hm2 : m ≤ 12) (hd1 : 1 ≤ d) (hd2 : d ≤ lastDayOfMonth y m)
    (hh : h < 24) (hmi : mi < 60) (hs : s < 60) :
    chronoDatetime o y m d h mi s mc =
      .ok { instantSecs := ((daysCore y m d : Int) - 719468) * 86400
              + (h * 3600 + mi * 60 + s) + mc / 1000000 - o,
            micro := mc % 1000000 } := by
  unfold chronoDatetime
  rw [if_pos ⟨hm1, hm2, hd1, hd2, hh, hmi, hs⟩]

theorem civil_year_le (z : Nat) (hz : z ≤ 745000) : (civilCore z).1 ≤ 2401 := by
  have h := (daysCore_civilCore z).1
  by_contra hgt
  push_neg at hgt
  unfold daysCore at h
  dsimp only at h
  rcases le_or_lt (civilCore z).2.1 2 with hm | hm
  · rw [if_pos hm] at h; omega
  · rw [if_neg (by omega)] at h; omega

theorem naiveFields_spec (secs : Int) (hs : 0 ≤ secs) :
    1 ≤ (naiveFields secs).2.1 ∧ (naiveFields secs).2.1 ≤ 12 ∧
    1 ≤ (naiveFields secs).2.2.1 ∧
    (naiveFields secs).2.2.1
      ≤ lastDayOfMonth (naiveFields secs).1 (naiveFields secs).2.1 ∧
    (naiveFields secs).2.2.2.1 < 24 ∧ (naiveFields secs).2.2.2.2.1 < 60 ∧
    (naiveFields secs).2.2.2.2.2 < 60 ∧
    ((daysCore (naiveFields secs).1 (naiveFields secs).2.1
        (naiveFields secs).2.2.1 : Int) - 719468) * 86400
      + ((naiveFields secs).2.2.2.1 * 3600 + (naiveFields secs).2.2.2.2.1 * 60
         + (naiveFields secs).2.2.2.2.2) = secs ∧
    (secs ≤ MAX_TIMESTAMP → (naiveFields secs).1 ≤ 2401) := by
  have hfd : secs.fdiv 86400 = secs / 86400 := Int.fdiv_eq_ediv _ (by norm_num)
  have hem : secs.emod 86400 = secs % 86400 := rfl
  unfold naiveFields
  dsimp only
  obtain ⟨hrec, hm1, hm2, hd1, hd2⟩ :=
    daysCore_civilCore ((secs.fdiv 86400 + 719468).toNat)
  refine ⟨hm1, hm2, hd1, hd2, ?_, ?_, ?_, ?_, ?_⟩
  · rw [hem]; omega
  · rw [hem]; omega
  · rw [hem]; omega
  · rw [hrec, hfd, hem]; omega
  · intro hle
    have hmx : MAX_TIMESTAMP = 2147483647 := by norm_num [MAX_TIMESTAMP]
    rw [hmx] at hle
    apply civil_year_le
    rw [hfd]
    omega

theorem naiveFields_daysCore (y m d h mi s : Nat) (hy : 1 ≤ y) (hm1 : 1 ≤ m)
    (hm2 : m ≤ 12) (hd1 : 1 ≤ d) (hd2 : d ≤ lastDayOfMonth y m)
    (hh : h < 24) (hmi : mi < 60) (hs : s < 60) :
    naiveFields (((daysCore y m d : Int) - 719468) * 86400
        + (h * 3600 + mi * 60 + s))
      = (y, m, d, h, mi, s) := by
  have h0 : (0 : Int) ≤ h * 3600 + mi * 60 + s := by positivity
  have hfd := int_fdiv_emod_86400 ((daysCore y m d : Int) - 719468)
    (h * 3600 + mi * 60 + s) h0 (by omega)
  unfold naiveFields
  dsimp only
  rw [hfd.1, hfd.2]
  rw [show ((daysCore y m d : Int) - 719468 + 719468).toNat = daysCore y m d
    by omega]
  rw [civilCore_daysCore y m d hy hm1 hm2 hd1 hd2]
  simp only [Prod.mk.injEq]
  refine ⟨trivial, trivial, trivial, ?_, ?_, ?_⟩ <;> omega

theorem time_not_zero (t : Time) (h : 1 ≤ t.month) : t.isZero = false := by
  unfold Time.isZero Time.setFspTt Time.toU64 Time.getFspTt Time.year
    Time.month Time.day Time.hour Time.minute Time.second Time.micro at *
  dsimp only at *
  simp only [beq_eq_false_iff_ne, ne_eq]
  omega

theorem setFsp_fields (t : Time) (f : Nat) :
    (t.setFsp f).yearF = t.yearF ∧ (t.setFsp f).monthF = t.monthF ∧
    (t.setFsp f).dayF = t.dayF ∧ (t.setFsp f).hourF = t.hourF ∧
    (t.setFsp f).minuteF = t.minuteF ∧ (t.setFsp f).secondF = t.secondF ∧
    (t.setFsp f).microF = t.microF := by
  unfold Time.setFsp
  split_ifs <;> exact ⟨rfl, rfl, rfl, rfl, rfl, rfl, rfl⟩

theorem uncheckedNew_fields (c : TimeArgs) :
    (Time.uncheckedNew c).year = c.year % 2 ^ 14 ∧
    (Time.uncheckedNew c).month = c.month % 2 ^ 4 ∧
    (Time.uncheckedNew c).day = c.day % 2 ^ 5 ∧
    (Time.uncheckedNew c).hour = c.hour % 2 ^ 5 ∧
    (Time.uncheckedNew c).minute = c.minute % 2 ^ 6 ∧
    (Time.uncheckedNew c).second = c.second % 2 ^ 6 ∧
    (Time.uncheckedNew c).micro = c.micro % 2 ^ 20 := by
  unfold Time.uncheckedNew
  dsimp only
  obtain ⟨e1, e2, e3, e4, e5, e6, e7⟩ := setFsp_fields
    (Time.setTt
      { yearF := c.year % 2 ^ 14, monthF := c.month % 2 ^ 4,
        dayF := c.day % 2 ^ 5, hourF := c.hour % 2 ^ 5,
        minuteF := c.minute % 2 ^ 6, secondF := c.second % 2 ^ 6,
        microF := c.micro % 2 ^ 20, fspTtF := 0 } c.timeType)
    (c.fsp.emod 256).toNat
  unfold Time.year Time.month Time.day Time.hour Time.minute Time.second
    Time.micro
  rw [e1, e2, e3, e4, e5, e6, e7]
  unfold Time.setTt Time.setFspTt
  dsimp only
  refine ⟨?_, ?_, ?_, ?_, ?_, ?_, ?_⟩ <;> omega

theorem checkFsp_natCast (f : Nat) (h : f ≤ 6) :
    checkFsp (f : Int) = .ok f := by
  unfold checkFsp
  rw [if_neg (by omega), if_pos (by constructor <;> omega)]
  rw [show ((f : Int)).toNat = f from Int.toNat_natCast f]

theorem timeNew_timestamp (ctx : EvalContext) (a : TimeArgs)
    (htt : a.timeType = .timestamp) (hf : ∃ n : Nat, n ≤ 6 ∧ a.fsp = (n : Int))
    (hnz : 1 ≤ a.month) (dt : CDateTime)
    (hok : chronoDatetime ctx.tzOffsetSecs a.year a.month a.day a.hour
        a.minute a.second a.micro = .ok dt)
    (h0 : 0 ≤ dt.instantSecs) (h1 : dt.instantSecs ≤ MAX_TIMESTAMP) :
    Time.new ctx a
      = (.ok (Time.uncheckedNew { a with fsp := (a.fsp.toNat : Int) }), ctx) := by
  obtain ⟨n, hn6, hn⟩ := hf
  unfold Time.new TimeArgs.check
  rw [hn, checkFsp_natCast n hn6]
  dsimp only
  rw [htt]
  dsimp only
  unfold TimeArgs.checkTimestamp
  rw [if_neg (by intro hz; exact absurd hz.2.1 (by dsimp only; omega))]
  dsimp only
  rw [hok]
  dsimp only
  rw [if_neg (not_not_intro ⟨h0, h1⟩)]
  dsimp only
  simp only [Option.getD_some]
  split_ifs with hdd
  all_goals first
    | (dsimp only at hdd; cases hdd)
    | exact False.elim (by assumption)
    | rw [show ((n : Int)).toNat = n from Int.toNat_natCast n]

theorem lastDayOfMonth_le_31 (y m : Nat) : lastDayOfMonth y m ≤ 31 := by
  unfold lastDayOfMonth
  split_ifs <;> omega

theorem time_field_bounds (t : Time) :
    t.year < 2 ^ 14 ∧ t.month < 2 ^ 4 ∧ t.day < 2 ^ 5 ∧ t.hour < 2 ^ 5 ∧
    t.minute < 2 ^ 6 ∧ t.second < 2 ^ 6 ∧ t.micro < 2 ^ 20 := by
  unfold Time.year Time.month Time.day Time.hour Time.minute Time.second
    Time.micro
  refine ⟨?_, ?_, ?_, ?_, ?_, ?_, ?_⟩ <;> exact Nat.mod_lt _ (by norm_num)

theorem timeEq_of_sameFields (a b : Time) (h : a.sameFields b) :
    a.timeEq b = true := by
  unfold Time.timeEq
  rw [beq_iff_eq]
  exact (timeMaskedU64_eq_iff a b).mpr h

theorem unpack_pack (y m d h mi s mc : Nat) (hy : y < 2 ^ 14) (hm : m ≤ 12)
    (hd : d < 2 ^ 5) (hh : h ≤ 23) (hmi : mi ≤ 59) (hs : s ≤ 59)
    (hmc : mc < 2 ^ 24) :
    ((((y * 13 + m) * 2 ^ 5 + d) * 2 ^ 17 + (h * 2 ^ 12 + mi * 2 ^ 6 + s)) * 2 ^ 24 + mc) / 2 ^ 24 / 2 ^ 17 / 2 ^ 5 / 13 = y ∧
    ((((y * 13 + m) * 2 ^ 5 + d) * 2 ^ 17 + (h * 2 ^ 12 + mi * 2 ^ 6 + s)) * 2 ^ 24 + mc) / 2 ^ 24 / 2 ^ 17 / 2 ^ 5 % 13 = m ∧
    ((((y * 13 + m) * 2 ^ 5 + d) * 2 ^ 17 + (h * 2 ^ 12 + mi * 2 ^ 6 + s)) * 2 ^ 24 + mc) / 2 ^ 24 / 2 ^ 17 % 2 ^ 5 = d ∧
    ((((y * 13 + m) * 2 ^ 5 + d) * 2 ^ 17 + (h * 2 ^ 12 + mi * 2 ^ 6 + s)) * 2 ^ 24 + mc) / 2 ^ 24 % 2 ^ 17 / 2 ^ 12 = h ∧
    ((((y * 13 + m) * 2 ^ 5 + d) * 2 ^ 17 + (h * 2 ^ 12 + mi * 2 ^ 6 + s)) * 2 ^ 24 + mc) / 2 ^ 24 % 2 ^ 17 / 2 ^ 6 % 2 ^ 6 = mi ∧
    ((((y * 13 + m) * 2 ^ 5 + d) * 2 ^ 17 + (h * 2 ^ 12 + mi * 2 ^ 6 + s)) * 2 ^ 24 + mc) / 2 ^ 24 % 2 ^ 17 % 2 ^ 6 = s ∧
    ((((y * 13 + m) * 2 ^ 5 + d) * 2 ^ 17 + (h * 2 ^ 12 + mi * 2 ^ 6 + s)) * 2 ^ 24 + mc) % 2 ^ 24 = mc := by
  refine ⟨?_, ?_, ?_, ?_, ?_, ?_, ?_⟩ <;> omega

theorem c3dt_aux (ctx : EvalContext) (t : Time)
    (hm1 : 1 ≤ t.month) (hm2 : t.month ≤ 12)
    (hh : t.hour ≤ 23) (hmi : t.minute ≤ 59) (hs : t.second ≤ 59)
    (hf6 : t.fsp ≤ 6) (htt : t.getTimeType = .dateTime) :
    ∃ v r, t.toPackedU64 ctx = (.ok v, ctx) ∧
      Time.fromPackedU64 ctx v .dateTime (t.fsp : Int) = (.ok r, ctx) ∧
      r.timeEq t = true := by
  have hnz : t.isZero = false := time_not_zero t hm1
  obtain ⟨b1, b2, b3, b4, b5, b6, b7⟩ := time_field_bounds t
  have hpack : t.toPackedU64 ctx
      = (.ok ((((t.year * 13 + t.month) * 2 ^ 5 + t.day) * 2 ^ 17
          + (t.hour * 2 ^ 12 + t.minute * 2 ^ 6 + t.second)) * 2 ^ 24
          + t.micro), ctx) := by
    unfold Time.toPackedU64
    rw [if_neg (by rw [hnz]; exact Bool.false_ne_true)]
    rw [if_neg (by rw [htt]; exact fun h => nomatch h)]
  have hfrom : Time.fromPackedU64 ctx
      ((((t.year * 13 + t.month) * 2 ^ 5 + t.day) * 2 ^ 17
        + (t.hour * 2 ^ 12 + t.minute * 2 ^ 6 + t.second)) * 2 ^ 24 + t.micro)
      .dateTime (t.fsp : Int)
      = (.ok (Time.uncheckedNew
          { year := t.year, month := t.month, day := t.day, hour := t.hour,
            minute := t.minute, second := t.second, micro := t.micro,
            fsp := (t.fsp : Int), timeType := .dateTime }), ctx) := by
    unfold Time.fromPackedU64
    rw [if_neg (by omega)]
    rw [checkFsp_natCast t.fsp hf6]
    dsimp only
    rw [if_neg (fun h => nomatch h)]
    obtain ⟨u1, u2, u3, u4, u5, u6, u7⟩ := unpack_pack t.year t.month t.day
      t.hour t.minute t.second t.micro b1 hm2 b3 hh hmi hs (by omega)
    rw [u1, u2, u3, u4, u5, u6, u7]
  have heq : (Time.uncheckedNew
      { year := t.year, month := t.month, day := t.day, hour := t.hour,
        minute := t.minute, second := t.second, micro := t.micro,
        fsp := (t.fsp : Int), timeType := .dateTime }).timeEq t = true := by
    refine timeEq_of_sameFields _ _ ?_
    unfold Time.sameFields
    rw [(uncheckedNew_fields _).1, (uncheckedNew_fields _).2.1,
      (uncheckedNew_fields _).2.2.1, (uncheckedNew_fields _).2.2.2.1,
      (uncheckedNew_fields _).2.2.2.2.1, (uncheckedNew_fields _).2.2.2.2.2.1,
      (uncheckedNew_fields _).2.2.2.2.2.2]
    dsimp only
    refine ⟨?_, ?_, ?_, ?_, ?_, ?_, ?_⟩ <;> omega
  exact ⟨_, _, hpack, hfrom, heq⟩

theorem c3ts_aux (ctx : EvalContext) (t : Time)
    (hm1 : 1 ≤ t.month) (hm2 : t.month ≤ 12) (hd1 : 1 ≤ t.day)
    (hd2 : t.day ≤ lastDayOfMonth t.year t.month) (hy1 : 1 ≤ t.year)
    (hh : t.hour ≤ 23) (hmi : t.minute ≤ 59) (hs : t.second ≤ 59)
    (hmc : t.micro ≤ 999999) (hf6 : t.fsp ≤ 6)
    (htt : t.getTimeType = .timestamp)
    (hi1 : 0 ≤ ((daysCore t.year t.month t.day : Int) - 719468) * 86400 + ((t.hour : Int) * 3600 + (t.minute : Int) * 60 + (t.second : Int)) - ctx.tzOffsetSecs)
    (hi2 : ((daysCore t.year t.month t.day : Int) - 719468) * 86400 + ((t.hour : Int) * 3600 + (t.minute : Int) * 60 + (t.second : Int)) - ctx.tzOffsetSecs ≤ MAX_TIMESTAMP)
    (hi3 : 0 ≤ ((daysCore t.year t.month t.day : Int) - 719468) * 86400 + ((t.hour : Int) * 3600 + (t.minute : Int) * 60 + (t.second : Int)) - 2 * ctx.tzOffsetSecs)
    (hi4 : ((daysCore t.year t.month t.day : Int) - 719468) * 86400 + ((t.hour : Int) * 3600 + (t.minute : Int) * 60 + (t.second : Int)) - 2 * ctx.tzOffsetSecs ≤ MAX_TIMESTAMP) :
    ∃ v r, t.toPackedU64 ctx = (.ok v, ctx) ∧
      Time.fromPackedU64 ctx v .timestamp (t.fsp : Int) = (.ok r, ctx) ∧
      r.timeEq t = true := by
  obtain ⟨b1, b2, b3, b4, b5, b6, b7⟩ := time_field_bounds t
  have hnz : t.isZero = false := time_not_zero t hm1
  have hch1 := chronoDatetime_valid ctx.tzOffsetSecs t.year t.month t.day
    t.hour t.minute t.second t.micro hm1 hm2 hd1 hd2 (by omega) (by omega)
    (by omega)
  rw [show ((t.micro : Int)) / 1000000 = 0 from by omega] at hch1
  rw [add_zero] at hch1
  rw [show t.micro % 1000000 = t.micro from by omega] at hch1
  obtain ⟨g1, g2, g3, g4, g5, g6, g7, g8, g9⟩ :=
    naiveFields_spec (((daysCore t.year t.month t.day : Int) - 719468) * 86400 + ((t.hour : Int) * 3600 + (t.minute : Int) * 60 + (t.second : Int)) - ctx.tzOffsetSecs) hi1
  have hyU : (naiveFields (((daysCore t.year t.month t.day : Int) - 719468) * 86400 + ((t.hour : Int) * 3600 + (t.minute : Int) * 60 + (t.second : Int)) - ctx.tzOffsetSecs)).1 ≤ 2401 := g9 hi2
  have g4' : (naiveFields (((daysCore t.year t.month t.day : Int) - 719468) * 86400 + ((t.hour : Int) * 3600 + (t.minute : Int) * 60 + (t.second : Int)) - ctx.tzOffsetSecs)).2.2.1 ≤ 31 := le_trans g4 (lastDayOfMonth_le_31 _ _)
  have hch2 := chronoDatetime_valid ctx.tzOffsetSecs
    (naiveFields (((daysCore t.year t.month t.day : Int) - 719468) * 86400 + ((t.hour : Int) * 3600 + (t.minute : Int) * 60 + (t.second : Int)) - ctx.tzOffsetSecs)).1 (naiveFields (((daysCore t.year t.month t.day : Int) - 719468) * 86400 + ((t.hour : Int) * 3600 + (t.minute : Int) * 60 + (t.second : Int)) - ctx.tzOffsetSecs)).2.1 (naiveFields (((daysCore t.year t.month t.day : Int) - 719468) * 86400 + ((t.hour : Int) * 3600 + (t.minute : Int) * 60 + (t.second : Int)) - ctx.tzOffsetSecs)).2.2.1 (naiveFields (((daysCore t.year t.month t.day : Int) - 719468) * 86400 + ((t.hour : Int) * 3600 + (t.minute : Int) * 60 + (t.second : Int)) - ctx.tzOffsetSecs)).2.2.2.1 (naiveFields (((daysCore t.year t.month t.day : Int) - 719468) * 86400 + ((t.hour : Int) * 3600 + (t.minute : Int) * 60 + (t.second : Int)) - ctx.tzOffsetSecs)).2.2.2.2.1 (naiveFields (((daysCore t.year t.month t.day : Int) - 719468) * 86400 + ((t.hour : Int) * 3600 + (t.minute : Int) * 60 + (t.second : Int)) - ctx.tzOffsetSecs)).2.2.2.2.2
    t.micro g1 g2 g3 g4 g5 g6 g7
  rw [show ((t.micro : Int)) / 1000000 = 0 from by omega] at hch2
  rw [add_zero] at hch2
  rw [show t.micro % 1000000 = t.micro from by omega] at hch2
  rw [g8] at hch2
  have hnew1 := timeNew_timestamp ctx
    { year := (naiveFields (((daysCore t.year t.month t.day : Int) - 719468) * 86400 + ((t.hour : Int) * 3600 + (t.minute : Int) * 60 + (t.second : Int)) - ctx.tzOffsetSecs)).1, month := (naiveFields (((daysCore t.year t.month t.day : Int) - 719468) * 86400 + ((t.hour : Int) * 3600 + (t.minute : Int) * 60 + (t.second : Int)) - ctx.tzOffsetSecs)).2.1, day := (naiveFields (((daysCore t.year t.month t.day : Int) - 719468) * 86400 + ((t.hour : Int) * 3600 + (t.minute : Int) * 60 + (t.second : Int)) - ctx.tzOffsetSecs)).2.2.1,
        hour := (naiveFields (((daysCore t.year t.month t.day : Int) - 719468) * 86400 + ((t.hour : Int) * 3600 + (t.minute : Int) * 60 + (t.second : Int)) - ctx.tzOffsetSecs)).2.2.2.1, minute := (naiveFields (((daysCore t.year t.month t.day : Int) - 719468) * 86400 + ((t.hour : Int) * 3600 + (t.minute : Int) * 60 + (t.second : Int)) - ctx.tzOffsetSecs)).2.2.2.2.1,
        second := (naiveFields (((daysCore t.year t.month t.day : Int) - 719468) * 86400 + ((t.hour : Int) * 3600 + (t.minute : Int) * 60 + (t.second : Int)) - ctx.tzOffsetSecs)).2.2.2.2.2, micro := t.micro,
        fsp := (t.fsp : Int), timeType := t.getTimeType }
    htt ⟨t.fsp, hf6, rfl⟩ g1
    { instantSecs := ((daysCore t.year t.month t.day : Int) - 719468) * 86400 + ((t.hour : Int) * 3600 + (t.minute : Int) * 60 + (t.second : Int)) - ctx.tzOffsetSecs - ctx.tzOffsetSecs,
      micro := t.micro }
    hch2 (by dsimp only; omega) (by dsimp only; omega)
  have hpack : t.toPackedU64 ctx = (.ok (((((naiveFields (((daysCore t.year t.month t.day : Int) - 719468) * 86400 + ((t.hour : Int) * 3600 + (t.minute : Int) * 60 + (t.second : Int)) - ctx.tzOffsetSecs)).1 * 13 + (naiveFields (((daysCore t.year t.month t.day : Int) - 719468) * 86400 + ((t.hour : Int) * 3600 + (t.minute : Int) * 60 + (t.second : Int)) - ctx.tzOffsetSecs)).2.1) * 2 ^ 5 + (naiveFields (((daysCore t.year t.month t.day : Int) - 719468) * 86400 + ((t.hour : Int) * 3600 + (t.minute : Int) * 60 + (t.second : Int)) - ctx.tzOffsetSecs)).2.2.1) * 2 ^ 17 + ((naiveFields (((daysCore t.year t.month t.day : Int) - 719468) * 86400 + ((t.hour : Int) * 3600 + (t.minute : Int) * 60 + (t.second : Int)) - ctx.tzOffsetSecs)).2.2.2.1 * 2 ^ 12 + (naiveFields (((daysCore t.year t.month t.day : Int) - 719468) * 86400 + ((t.hour : Int) * 3600 + (t.minute : Int) * 60 + (t.second : Int)) - ctx.tzOffsetSecs)).2.2.2.2.1 * 2 ^ 6 + (naiveFields (((daysCore t.year t.month t.day : Int) - 719468) * 86400 + ((t.hour : Int) * 3600 + (t.minute : Int) * 60 + (t.second : Int)) - ctx.tzOffsetSecs)).2.2.2.2.2)) * 2 ^ 24 + t.micro), ctx) := by
    unfold Time.toPackedU64
    rw [if_neg (by rw [hnz]; exact Bool.false_ne_true)]
    rw [if_pos htt]
    rw [hch1]
    dsimp only
    rw [hnew1]
    dsimp only
    rw [(uncheckedNew_fields _).1, (uncheckedNew_fields _).2.1,
      (uncheckedNew_fields _).2.2.1, (uncheckedNew_fields _).2.2.2.1,
      (uncheckedNew_fields _).2.2.2.2.1, (uncheckedNew_fields _).2.2.2.2.2.1,
      (uncheckedNew_fields _).2.2.2.2.2.2]
    dsimp only
    rw [show (naiveFields (((daysCore t.year t.month t.day : Int) - 719468) * 86400 + ((t.hour : Int) * 3600 + (t.minute : Int) * 60 + (t.second : Int)) - ctx.tzOffsetSecs)).1 % 2 ^ 14 = (naiveFields (((daysCore t.year t.month t.day : Int) - 719468) * 86400 + ((t.hour : Int) * 3600 + (t.minute : Int) * 60 + (t.second : Int)) - ctx.tzOffsetSecs)).1 from by omega,
      show (naiveFields (((daysCore t.year t.month t.day : Int) - 719468) * 86400 + ((t.hour : Int) * 3600 + (t.minute : Int) * 60 + (t.second : Int)) - ctx.tzOffsetSecs)).2.1 % 2 ^ 4 = (naiveFields (((daysCore t.year t.month t.day : Int) - 719468) * 86400 + ((t.hour : Int) * 3600 + (t.minute : Int) * 60 + (t.second : Int)) - ctx.tzOffsetSecs)).2.1 from by omega,
      show (naiveFields (((daysCore t.year t.month t.day : Int) - 719468) * 86400 + ((t.hour : Int) * 3600 + (t.minute : Int) * 60 + (t.second : Int)) - ctx.tzOffsetSecs)).2.2.1 % 2 ^ 5 = (naiveFields (((daysCore t.year t.month t.day : Int) - 719468) * 86400 + ((t.hour : Int) * 3600 + (t.minute : Int) * 60 + (t.second : Int)) - ctx.tzOffsetSecs)).2.2.1 from by omega,
      show (naiveFields (((daysCore t.year t.month t.day : Int) - 719468) * 86400 + ((t.hour : Int) * 3600 + (t.minute : Int) * 60 + (t.second : Int)) - ctx.tzOffsetSecs)).2.2.2.1 % 2 ^ 5 = (naiveFields (((daysCore t.year t.month t.day : Int) - 719468) * 86400 + ((t.hour : Int) * 3600 + (t.minute : Int) * 60 + (t.second : Int)) - ctx.tzOffsetSecs)).2.2.2.1 from by omega,
      show (naiveFields (((daysCore t.year t.month t.day : Int) - 719468) * 86400 + ((t.hour : Int) * 3600 + (t.minute : Int) * 60 + (t.second : Int)) - ctx.tzOffsetSecs)).2.2.2.2.1 % 2 ^ 6 = (naiveFields (((daysCore t.year t.month t.day : Int) - 719468) * 86400 + ((t.hour : Int) * 3600 + (t.minute : Int) * 60 + (t.second : Int)) - ctx.tzOffsetSecs)).2.2.2.2.1 from by omega,
      show (naiveFields (((daysCore t.year t.month t.day : Int) - 719468) * 86400 + ((t.hour : Int) * 3600 + (t.minute : Int) * 60 + (t.second : Int)) - ctx.tzOffsetSecs)).2.2.2.2.2 % 2 ^ 6 = (naiveFields (((daysCore t.year t.month t.day : Int) - 719468) * 86400 + ((t.hour : Int) * 3600 + (t.minute : Int) * 60 + (t.second : Int)) - ctx.tzOffsetSecs)).2.2.2.2.2 from by omega,
      show t.micro % 2 ^ 20 = t.micro from by omega]
  have hnew2 := timeNew_timestamp ctx
    { year := t.year, month := t.month, day := t.day, hour := t.hour,
        minute := t.minute, second := t.second, micro := t.micro,
        fsp := (t.fsp : Int), timeType := .timestamp }
    rfl ⟨t.fsp, hf6, rfl⟩ hm1
    { instantSecs := ((daysCore t.year t.month t.day : Int) - 719468) * 86400 + ((t.hour : Int) * 3600 + (t.minute : Int) * 60 + (t.second : Int)) - ctx.tzOffsetSecs, micro := t.micro }
    hch1 (by dsimp only; omega) (by dsimp only; omega)
  have hfrom : Time.fromPackedU64 ctx (((((naiveFields (((daysCore t.year t.month t.day : Int) - 719468) * 86400 + ((t.hour : Int) * 3600 + (t.minute : Int) * 60 + (t.second : Int)) - ctx.tzOffsetSecs)).1 * 13 + (naiveFields (((daysCore t.year t.month t.day : Int) - 719468) * 86400 + ((t.hour : Int) * 3600 + (t.minute : Int) * 60 + (t.second : Int)) - ctx.tzOffsetSecs)).2.1) * 2 ^ 5 + (naiveFields (((daysCore t.year t.month t.day : Int) - 719468) * 86400 + ((t.hour : Int) * 3600 + (t.minute : Int) * 60 + (t.second : Int)) - ctx.tzOffsetSecs)).2.2.1) * 2 ^ 17 + ((naiveFields (((daysCore t.year t.month t.day : Int) - 719468) * 86400 + ((t.hour : Int) * 3600 + (t.minute : Int) * 60 + (t.second : Int)) - ctx.tzOffsetSecs)).2.2.2.1 * 2 ^ 12 + (naiveFields (((daysCore t.year t.month t.day : Int) - 719468) * 86400 + ((t.hour : Int) * 3600 + (t.minute : Int) * 60 + (t.second : Int)) - ctx.tzOffsetSecs)).2.2.2.2.1 * 2 ^ 6 + (naiveFields (((daysCore t.year t.month t.day : Int) - 719468) * 86400 + ((t.hour : Int) * 3600 + (t.minute : Int) * 60 + (t.second : Int)) - ctx.tzOffsetSecs)).2.2.2.2.2)) * 2 ^ 24 + t.micro) .timestamp (t.fsp : Int)
      = (.ok (Time.uncheckedNew
      { year := t.year, month := t.month, day := t.day, hour := t.hour,
        minute := t.minute, second := t.second, micro := t.micro,
        fsp := (t.fsp : Int), timeType := .timestamp }), ctx) := by
    unfold Time.fromPackedU64
    rw [if_neg (by omega)]
    rw [checkFsp_natCast t.fsp hf6]
    dsimp only
    rw [if_pos rfl]
    obtain ⟨u1, u2, u3, u4, u5, u6, u7⟩ := unpack_pack
      (naiveFields (((daysCore t.year t.month t.day : Int) - 719468) * 86400 + ((t.hour : Int) * 3600 + (t.minute : Int) * 60 + (t.second : Int)) - ctx.tzOffsetSecs)).1 (naiveFields (((daysCore t.year t.month t.day : Int) - 719468) * 86400 + ((t.hour : Int) * 3600 + (t.minute : Int) * 60 + (t.second : Int)) - ctx.tzOffsetSecs)).2.1 (naiveFields (((daysCore t.year t.month t.day : Int) - 719468) * 86400 + ((t.hour : Int) * 3600 + (t.minute : Int) * 60 + (t.second : Int)) - ctx.tzOffsetSecs)).2.2.1 (naiveFields (((daysCore t.year t.month t.day : Int) - 719468) * 86400 + ((t.hour : Int) * 3600 + (t.minute : Int) * 60 + (t.second : Int)) - ctx.tzOffsetSecs)).2.2.2.1 (naiveFields (((daysCore t.year t.month t.day : Int) - 719468) * 86400 + ((t.hour : Int) * 3600 + (t.minute : Int) * 60 + (t.second : Int)) - ctx.tzOffsetSecs)).2.2.2.2.1 (naiveFields (((daysCore t.year t.month t.day : Int) - 719468) * 86400 + ((t.hour : Int) * 3600 + (t.minute : Int) * 60 + (t.second : Int)) - ctx.tzOffsetSecs)).2.2.2.2.2
      t.micro (by omega) g2 (by omega) (by omega) (by omega) (by omega)
      (by omega)
    rw [u1, u2, u3, u4, u5, u6, u7]
    have hch3 := chronoDatetime_valid 0
      (naiveFields (((daysCore t.year t.month t.day : Int) - 719468) * 86400 + ((t.hour : Int) * 3600 + (t.minute : Int) * 60 + (t.second : Int)) - ctx.tzOffsetSecs)).1 (naiveFields (((daysCore t.year t.month t.day : Int) - 719468) * 86400 + ((t.hour : Int) * 3600 + (t.minute : Int) * 60 + (t.second : Int)) - ctx.tzOffsetSecs)).2.1 (naiveFields (((daysCore t.year t.month t.day : Int) - 719468) * 86400 + ((t.hour : Int) * 3600 + (t.minute : Int) * 60 + (t.second : Int)) - ctx.tzOffsetSecs)).2.2.1 (naiveFields (((daysCore t.year t.month t.day : Int) - 719468) * 86400 + ((t.hour : Int) * 3600 + (t.minute : Int) * 60 + (t.second : Int)) - ctx.tzOffsetSecs)).2.2.2.1 (naiveFields (((daysCore t.year t.month t.day : Int) - 719468) * 86400 + ((t.hour : Int) * 3600 + (t.minute : Int) * 60 + (t.second : Int)) - ctx.tzOffsetSecs)).2.2.2.2.1 (naiveFields (((daysCore t.year t.month t.day : Int) - 719468) * 86400 + ((t.hour : Int) * 3600 + (t.minute : Int) * 60 + (t.second : Int)) - ctx.tzOffsetSecs)).2.2.2.2.2
      t.micro g1 g2 g3 g4 g5 g6 g7
    rw [show ((t.micro : Int)) / 1000000 = 0 from by omega] at hch3
    rw [add_zero] at hch3
    rw [show t.micro % 1000000 = t.micro from by omega] at hch3
    rw [g8] at hch3
    rw [sub_zero] at hch3
    rw [hch3]
    dsimp only
    rw [show ((daysCore t.year t.month t.day : Int) - 719468) * 86400 + ((t.hour : Int) * 3600 + (t.minute : Int) * 60 + (t.second : Int)) - ctx.tzOffsetSecs + ctx.tzOffsetSecs = ((daysCore t.year t.month t.day : Int) - 719468) * 86400 + ((t.hour : Int) * 3600 + (t.minute : Int) * 60 + (t.second : Int))
      from by omega]
    rw [naiveFields_daysCore t.year t.month t.day t.hour t.minute t.second
      hy1 hm1 hm2 hd1 hd2 (by omega) (by omega) (by omega)]
    dsimp only
    rw [hnew2]
    rfl
  have heq : (Time.uncheckedNew
      { year := t.year, month := t.month, day := t.day, hour := t.hour,
        minute := t.minute, second := t.second, micro := t.micro,
        fsp := (t.fsp : Int), timeType := .timestamp }).timeEq t = true := by
    refine timeEq_of_sameFields _ _ ?_
    unfold Time.sameFields
    rw [(uncheckedNew_fields _).1, (uncheckedNew_fields _).2.1,
      (uncheckedNew_fields _).2.2.1, (uncheckedNew_fields _).2.2.2.1,
      (uncheckedNew_fields _).2.2.2.2.1, (uncheckedNew_fields _).2.2.2.2.2.1,
      (uncheckedNew_fields _).2.2.2.2.2.2]
    dsimp only
    refine ⟨?_, ?_, ?_, ?_, ?_, ?_, ?_⟩ <;> omega
  exact ⟨_, _, hpack, hfrom, heq⟩

/-- C3 counterexample: in the +08:00 zone the timestamp 1970-01-01 08:00:00
is a valid `Timestamp` value (`Time::from_slice` accepts it), yet
`to_packed_u64` fails on it: after converting to UTC the internal
`Time::new` re-validation interprets the UTC components in the local zone
again, obtaining a negative timestamp.  The claimed round trip therefore
does not even start for this valid value. -/
theorem c3_packed_roundtrip_counterexample :
    (Time.fromSlice c3CexCtx 1970 1 1 8 0 0 0 .timestamp 0).1 = some c3CexT ∧
    (c3CexT.toPackedU64 c3CexCtx).1 = .error .incorrectDatetimeValue := by
  decide

/-- C3, amended: the packed round trip holds for every in-range non-zero
`DateTime`; for a `Timestamp` it additionally needs the value **and** its
local re-reading of the UTC components to lie inside the timestamp range
`[0, MAX_TIMESTAMP]` (the extra requirement `naive - 2·tz ∈ [0, MAX]` is
what the counterexample violates).  The round trip preserves all seven
visible components (`timeEq`) and leaves the context unchanged. -/
theorem c3_packed_roundtrip (ctx : EvalContext) (t : Time)
    (hval : 1 ≤ t.month ∧ t.month ≤ 12 ∧ 1 ≤ t.day ∧
      t.day ≤ lastDayOfMonth t.year t.month ∧ 1 ≤ t.year ∧ t.hour ≤ 23 ∧
      t.minute ≤ 59 ∧ t.second ≤ 59 ∧ t.micro ≤ 999999 ∧ t.fsp ≤ 6) :
    (t.getTimeType = .dateTime →
      ∃ v r, t.toPackedU64 ctx = (.ok v, ctx) ∧
        Time.fromPackedU64 ctx v .dateTime (t.fsp : Int) = (.ok r, ctx) ∧
        r.timeEq t = true) ∧
    (t.getTimeType = .timestamp →
      0 ≤ ((daysCore t.year t.month t.day : Int) - 719468) * 86400 + ((t.hour : Int) * 3600 + (t.minute : Int) * 60 + (t.second : Int)) - ctx.tzOffsetSecs →
      ((daysCore t.year t.month t.day : Int) - 719468) * 86400 + ((t.hour : Int) * 3600 + (t.minute : Int) * 60 + (t.second : Int)) - ctx.tzOffsetSecs ≤ MAX_TIMESTAMP →
      0 ≤ ((daysCore t.year t.month t.day : Int) - 719468) * 86400 + ((t.hour : Int) * 3600 + (t.minute : Int) * 60 + (t.second : Int)) - 2 * ctx.tzOffsetSecs →
      ((daysCore t.year t.month t.day : Int) - 719468) * 86400 + ((t.hour : Int) * 3600 + (t.minute : Int) * 60 + (t.second : Int)) - 2 * ctx.tzOffsetSecs ≤ MAX_TIMESTAMP →
      ∃ v r, t.toPackedU64 ctx = (.ok v, ctx) ∧
        Time.fromPackedU64 ctx v .timestamp (t.fsp : Int) = (.ok r, ctx) ∧
        r.timeEq t = true) := by
  obtain ⟨hm1, hm2, hd1, hd2, hy1, hh, hmi, hs, hmc, hf6⟩ := hval
  exact ⟨fun htt => c3dt_aux ctx t hm1 hm2 hh hmi hs hf6 htt,
    fun htt h1 h2 h3 h4 =>
      c3ts_aux ctx t hm1 hm2 hd1 hd2 hy1 hh hmi hs hmc hf6 htt h1 h2 h3 h4⟩

/-- C3 witness: the amended round trip at the concrete timestamp
2020-01-01 12:00:00 in the +01:00 zone. -/
theorem c3_packed_roundtrip_witness :
    ∃ v r, c3WT.toPackedU64 c3WCtx = (.ok v, c3WCtx) ∧
      Time.fromPackedU64 c3WCtx v .timestamp (c3WT.fsp : Int)
        = (.ok r, c3WCtx) ∧
      r.timeEq c3WT = true :=
  (c3_packed_roundtrip c3WCtx c3WT (by decide)).2 (by decide) (by decide)
    (by decide) (by decide) (by decide)

theorem roundFracU_out (micro fsp : Nat) (hmc : micro ≤ 999999) (hf : fsp ≤ 6) :
    ((roundFracU micro fsp).1 = true → (roundFracU micro fsp).2 = 1000000) ∧
    ((roundFracU micro fsp).1 = false → (roundFracU micro fsp).2 < 1000000 ∧
      10 ^ (6 - fsp) ∣ (roundFracU micro fsp).2) := by
  unfold roundFracU
  by_cases h6 : fsp = 6
  · rw [if_pos ⟨(by omega : micro < 1000000), h6⟩]
    subst h6
    refine ⟨(fun h => nomatch h), fun _ => ⟨?_, ?_⟩⟩
    · show micro < 1000000
      omega
    · show 10 ^ (6 - 6) ∣ micro
      norm_num
  · rw [if_neg (by tauto)]
    dsimp only
    rw [if_neg (by omega : ¬ micro ≥ 1000000), if_pos rfl]
    constructor
    · intro h
      simp only [decide_eq_true_eq] at h
      interval_cases fsp <;> omega
    · intro h
      simp only [decide_eq_false_iff_not] at h
      refine ⟨by omega, ?_⟩
      interval_cases fsp <;> omega

theorem roundFracU_fixed (x fsp : Nat) (hx : x < 1000000) (hf : fsp ≤ 6)
    (hdvd : 10 ^ (6 - fsp) ∣ x) :
    roundFracU x fsp = (false, x) := by
  unfold roundFracU
  by_cases h6 : fsp = 6
  · rw [if_pos ⟨hx, h6⟩]
  · rw [if_neg (by tauto)]
    dsimp only
    rw [if_neg (by omega : ¬ x ≥ 1000000), if_pos rfl]
    obtain ⟨k, hk⟩ := hdvd
    subst hk
    simp only [Prod.mk.injEq]
    constructor
    · rw [decide_eq_false_iff_not]
      interval_cases fsp <;> omega
    · interval_cases fsp <;> omega

theorem isZero_of_zero_fields (t : Time) (h : t.year = 0 ∧ t.month = 0 ∧
    t.day = 0 ∧ t.hour = 0 ∧ t.minute = 0 ∧ t.second = 0 ∧ t.micro = 0) :
    t.isZero = true := by
  unfold Time.isZero Time.setFspTt Time.toU64 Time.getFspTt Time.year
    Time.month Time.day Time.hour Time.minute Time.second Time.micro at *
  dsimp only at *
  simp only [beq_iff_eq]
  omega

theorem lastDayOfMonth_ge_28 (y m : Nat) : 28 ≤ lastDayOfMonth y m := by
  unfold lastDayOfMonth
  split_ifs <;> omega

theorem roundFrac_zero (ctx : EvalContext) (z : Time) (f : Int)
    (hz : z.isZero = true) : z.roundFrac ctx f = (.ok z, ctx) := by
  unfold Time.roundFrac
  rw [if_pos (Or.inr hz)]

theorem timeNew_datetime (ctx : EvalContext) (a : TimeArgs)
    (htt : a.timeType = .dateTime) (hf : ∃ n : Nat, n ≤ 6 ∧ a.fsp = (n : Int))
    (hinv : ctx.invalidDates = false)
    (hm1 : 1 ≤ a.month) (hm2 : a.month ≤ 12) (hd1 : 1 ≤ a.day)
    (hd2 : a.day ≤ lastDayOfMonth a.year a.month) (hy : a.year ≤ 9999)
    (hh : a.hour ≤ 23) (hmi : a.minute ≤ 59) (hs : a.second ≤ 59)
    (hmc : a.micro ≤ 999999) :
    Time.new ctx a
      = (.ok (Time.uncheckedNew { a with fsp := (a.fsp.toNat : Int) }), ctx) := by
  obtain ⟨n, hn6, hn⟩ := hf
  unfold Time.new TimeArgs.check
  rw [hn, checkFsp_natCast n hn6]
  dsimp only
  rw [htt]
  dsimp only
  unfold TimeArgs.checkDatetime TimeArgs.checkDate
  dsimp only
  rw [if_neg (by intro hz; exact absurd hz.2.1 (by dsimp only; omega))]
  dsimp only
  rw [if_neg (by intro h; rcases h with h | h <;> (try dsimp only at h) <;>
    omega)]
  dsimp only
  have h31 := lastDayOfMonth_le_31 a.year a.month
  have hcmd : checkMonthAndDay a.year a.month a.day ctx.invalidDates
      = .ok () := by
    unfold checkMonthAndDay
    rw [if_neg (by omega)]
    rw [hinv]
    rw [if_neg Bool.false_ne_true]
    rw [if_neg (by omega)]
  rw [hcmd]
  rw [if_neg (by
    intro h
    rcases h with h | h
    · try dsimp only at h
      omega
    · cases h)]
  dsimp only
  rw [if_neg (by intro h; (try dsimp only at h); omega)]
  dsimp only
  simp only [Option.getD_some]
  split_ifs with hdd
  all_goals first
    | (dsimp only at hdd; cases hdd)
    | exact False.elim (by assumption)
    | rw [show ((n : Int)).toNat = n from Int.toNat_natCast n]

theorem timeNew_dt_yearBig (ctx : EvalContext) (a : TimeArgs)
    (htt : a.timeType = .dateTime) (hf : ∃ n : Nat, n ≤ 6 ∧ a.fsp = (n : Int))
    (hinv : ctx.invalidDates = false) (hm1 : 1 ≤ a.month) (hd1 : 1 ≤ a.day)
    (hy : 9999 < a.year) :
    Time.new ctx a = (.error .incorrectDatetimeValue, ctx) := by
  obtain ⟨n, hn6, hn⟩ := hf
  unfold Time.new TimeArgs.check
  rw [hn, checkFsp_natCast n hn6]
  dsimp only
  rw [htt]
  dsimp only
  unfold TimeArgs.checkDatetime TimeArgs.checkDate
  dsimp only
  rw [if_neg (by intro hz; exact absurd hz.2.1 (by (try dsimp only); omega))]
  (try dsimp only)
  rw [if_neg (by intro h; rcases h with h | h <;> (try dsimp only at h) <;>
    omega)]
  (try dsimp only)
  rw [if_pos (Or.inl (by (try dsimp only); omega))]
  unfold handleInvalidDate
  rw [hinv]
  rw [if_pos (by simp)]

theorem timeNew_zero_dt (ctx : EvalContext) (n : Nat) (hn : n ≤ 6)
    (h1 : ctx.noZeroDate = false) (h2 : ctx.noZeroInDate = false)
    (hinv : ctx.invalidDates = false) :
    Time.new ctx (TimeArgs.zero (n : Int) .dateTime)
      = (.ok (Time.uncheckedNew
          { year := 0, month := 0, day := 0, hour := 0, minute := 0,
            second := 0, micro := 0, fsp := (n : Int),
            timeType := .dateTime }), ctx) := by
  unfold TimeArgs.zero Time.new TimeArgs.check
  dsimp only
  rw [checkFsp_natCast n hn]
  dsimp only
  unfold TimeArgs.checkDatetime TimeArgs.checkDate
  dsimp only
  rw [if_pos ⟨rfl, rfl, rfl, rfl, rfl, rfl, rfl⟩]
  unfold handleZeroDate
  rw [h1]
  rw [if_neg Bool.false_ne_true]
  dsimp only
  rw [if_pos (Or.inl rfl)]
  unfold handleZeroInDate
  rw [h2]
  rw [if_neg Bool.false_ne_true]
  dsimp only
  have hcmd : checkMonthAndDay 0 0 0 ctx.invalidDates = .ok () := by
    unfold checkMonthAndDay
    rw [if_neg (by omega)]
    rw [hinv]
    rw [if_neg Bool.false_ne_true]
    rw [if_neg (by have := lastDayOfMonth_ge_28 0 0; omega)]
  rw [hcmd]
  rw [if_neg (by
    intro h
    rcases h with h | h
    · omega
    · cases h)]
  dsimp only
  rw [if_neg (by intro h; (try dsimp only at h); omega)]
  dsimp only
  simp only [Option.getD_some]
  split_ifs with hdd
  all_goals first
    | ((try dsimp only at hdd); cases hdd)
    | exact False.elim (by assumption)
    | rfl
    | rw [show ((n : Int)).toNat = n from Int.toNat_natCast n]

theorem setTt_zero_dt (t : Time) (h : t.fspTtF = 0) :
    t.setTt .dateTime = { t with fspTtF := 0 } := by
  unfold Time.setTt Time.getFspTt Time.setFspTt
  rw [h]
  norm_num

theorem getTimeType_even_dt (t : Time) (n : Nat) (h : t.fspTtF = 2 * n)
    (hn : n ≤ 6) : t.getTimeType = .dateTime := by
  unfold Time.getTimeType Time.getFspTt
  rw [h]
  rw [if_neg (by omega), if_pos (by omega)]

theorem fsp_of_dt (t : Time) (n : Nat) (h : t.fspTtF = 2 * n) (hn : n ≤ 6) :
    t.fsp = n := by
  unfold Time.fsp
  rw [getTimeType_even_dt t n h hn]
  dsimp only
  unfold Time.getFspTt
  rw [h]
  omega

theorem uncheckedNew_dt_fspTt (c : TimeArgs) (n : Nat)
    (htt : c.timeType = .dateTime) (hfsp : c.fsp = (n : Int)) (hn : n ≤ 6) :
    (Time.uncheckedNew c).fspTtF = 2 * n := by
  unfold Time.uncheckedNew
  dsimp only
  rw [htt, hfsp]
  rw [show (((n : Int)).emod 256).toNat = n from by
    rw [show ((n : Int)).emod 256 = (n : Int) % 256 from rfl]; omega]
  rw [setTt_zero_dt _ rfl]
  unfold Time.setFsp
  rw [if_neg (by
    rw [getTimeType_even_dt _ 0 rfl (by omega)]
    exact fun h => nomatch h)]
  rw [if_neg (by omega : ¬ n > 6)]
  unfold Time.setFspTt Time.getFspTt
  dsimp only
  omega

theorem uncheckedNew_dt_meta (c : TimeArgs) (n : Nat)
    (htt : c.timeType = .dateTime) (hfsp : c.fsp = (n : Int)) (hn : n ≤ 6) :
    (Time.uncheckedNew c).getTimeType = .dateTime ∧
    (Time.uncheckedNew c).fsp = n :=
  ⟨getTimeType_even_dt _ n (uncheckedNew_dt_fspTt c n htt hfsp hn) hn,
   fsp_of_dt _ n (uncheckedNew_dt_fspTt c n htt hfsp hn) hn⟩

theorem roundComponents_carry (y m d h mi s : Nat) (hm1 : 1 ≤ m)
    (hm2 : m ≤ 12) (hd1 : 1 ≤ d) (hd2 : d ≤ lastDayOfMonth y m)
    (hy : y ≤ 9999) (hh : h ≤ 23) (hmi : mi ≤ 59) (hs : s ≤ 59) :
    roundComponents y m d h mi s 1000000 =
      if s ≤ 58 then some (y, m, d, h, mi, s + 1, 0)
      else if mi ≤ 58 then some (y, m, d, h, mi + 1, 0, 0)
      else if h ≤ 22 then some (y, m, d, h + 1, 0, 0, 0)
      else if d + 1 ≤ lastDayOfMonth y m then some (y, m, d + 1, 0, 0, 0, 0)
      else if m ≤ 11 then some (y, m + 1, 1, 0, 0, 0, 0)
      else if y = 0 then none
      else some (y + 1, 1, 1, 0, 0, 0, 0) := by
  unfold roundComponents
  dsimp only
  rw [if_pos (by omega : (1000000 : Nat) ≥ 1000000)]
  rw [if_neg (by omega : ¬ s > 60)]
  rw [show (1000000 : Nat) - 1000000 = 0 from rfl]
  dsimp only
  by_cases h5 : s ≤ 58
  · rw [if_neg (by omega : ¬ s + 1 ≥ 60)]
    dsimp only
    rw [if_neg (by omega : ¬ mi ≥ 60)]
    dsimp only
    rw [if_neg (by omega : ¬ h ≥ 24)]
    dsimp only
    rw [if_neg (by omega : ¬ d ≥ lastDayOfMonth y m + 1)]
    dsimp only
    rw [if_neg (by omega : ¬ m ≥ 12 + 1)]
    dsimp only
    rw [if_pos h5]
  · rw [if_pos (by omega : s + 1 ≥ 60)]
    rw [if_neg (by omega : ¬ mi > 60)]
    rw [show s + 1 - 60 = 0 from by omega]
    dsimp only
    by_cases h4 : mi ≤ 58
    · rw [if_neg (by omega : ¬ mi + 1 ≥ 60)]
      dsimp only
      rw [if_neg (by omega : ¬ h ≥ 24)]
      dsimp only
      rw [if_neg (by omega : ¬ d ≥ lastDayOfMonth y m + 1)]
      dsimp only
      rw [if_neg (by omega : ¬ m ≥ 12 + 1)]
      dsimp only
      rw [if_neg h5, if_pos h4]
    · rw [if_pos (by omega : mi + 1 ≥ 60)]
      rw [if_neg (by omega : ¬ h > 24)]
      rw [show mi + 1 - 60 = 0 from by omega]
      dsimp only
      by_cases h3 : h ≤ 22
      · rw [if_neg (by omega : ¬ h + 1 ≥ 24)]
        dsimp only
        rw [if_neg (by omega : ¬ d ≥ lastDayOfMonth y m + 1)]
        dsimp only
        rw [if_neg (by omega : ¬ m ≥ 12 + 1)]
        dsimp only
        rw [if_neg h5, if_neg h4, if_pos h3]
      · rw [if_pos (by omega : h + 1 ≥ 24)]
        rw [if_neg (by intro hc; rcases hc with hc | hc <;> omega)]
        rw [show h + 1 - 24 = 0 from by omega]
        dsimp only
        by_cases h2 : d + 1 ≤ lastDayOfMonth y m
        · rw [if_neg (by omega : ¬ d + 1 ≥ lastDayOfMonth y m + 1)]
          dsimp only
          rw [if_neg (by omega : ¬ m ≥ 12 + 1)]
          dsimp only
          rw [if_neg h5, if_neg h4, if_neg h3, if_pos h2]
        · rw [if_pos (by omega : d + 1 ≥ lastDayOfMonth y m + 1)]
          rw [if_neg (by intro hc; rcases hc with hc | hc <;> omega)]
          rw [show d + 1 - lastDayOfMonth y m = 1 from by omega]
          dsimp only
          by_cases h1 : m ≤ 11
          · rw [if_neg (by omega : ¬ m + 1 ≥ 12 + 1)]
            dsimp only
            rw [if_neg h5, if_neg h4, if_neg h3, if_neg h2, if_pos h1]
          · rw [if_pos (by omega : m + 1 ≥ 12 + 1)]
            rw [show m + 1 - 12 = 1 from by omega]
            by_cases h0 : y = 0
            · rw [if_pos (Or.inl h0)]
              rw [if_neg h5, if_neg h4, if_neg h3, if_neg h2, if_neg h1,
                if_pos h0]
            · rw [if_neg (by intro hc; rcases hc with hc | hc <;> omega)]
              dsimp only
              rw [if_neg h5, if_neg h4, if_neg h3, if_neg h2, if_neg h1,
                if_neg h0]

theorem fromSlice_dt (ctx : EvalContext) (y m d h mi s mc n : Nat)
    (hinv : ctx.invalidDates = false)
    (hm1 : 1 ≤ m) (hm2 : m ≤ 12) (hd1 : 1 ≤ d) (hd2 : d ≤ lastDayOfMonth y m)
    (hy : y ≤ 9999) (hh : h ≤ 23) (hmi : mi ≤ 59) (hs : s ≤ 59)
    (hmc : mc ≤ 999999) (hn : n ≤ 6) :
    Time.fromSlice ctx y m d h mi s mc .dateTime n
      = (some (Time.uncheckedNew
          { year := y, month := m, day := d, hour := h, minute := mi,
            second := s, micro := mc, fsp := (n : Int),
            timeType := .dateTime }), ctx) := by
  unfold Time.fromSlice
  rw [timeNew_datetime ctx _ rfl ⟨n, hn, rfl⟩ hinv hm1 hm2 hd1 hd2 hy hh hmi
    hs hmc]
  rfl

theorem roundFrac_fixed (ctx : EvalContext) (y m d h mi s mc fn : Nat)
    (hinv : ctx.invalidDates = false)
    (hm1 : 1 ≤ m) (hm2 : m ≤ 12) (hd1 : 1 ≤ d) (hd2 : d ≤ lastDayOfMonth y m)
    (hy : y ≤ 9999) (hh : h ≤ 23) (hmi : mi ≤ 59) (hs : s ≤ 59)
    (hmc : mc < 1000000) (hdvd : 10 ^ (6 - fn) ∣ mc) (hfn : fn ≤ 6) :
    (Time.uncheckedNew
      { year := y, month := m, day := d, hour := h, minute := mi,
        second := s, micro := mc, fsp := (fn : Int),
        timeType := .dateTime }).roundFrac ctx (fn : Int)
      = (.ok (Time.uncheckedNew
      { year := y, month := m, day := d, hour := h, minute := mi,
        second := s, micro := mc, fsp := (fn : Int),
        timeType := .dateTime }), ctx) := by
  have h31 := lastDayOfMonth_le_31 y m
  obtain ⟨w1, w2, w3, w4, w5, w6, w7⟩ := uncheckedNew_fields
    ({ year := y, month := m, day := d, hour := h, minute := mi,
        second := s, micro := mc, fsp := (fn : Int),
        timeType := .dateTime })
  obtain ⟨hgt, hfspX⟩ := uncheckedNew_dt_meta
    ({ year := y, month := m, day := d, hour := h, minute := mi,
        second := s, micro := mc, fsp := (fn : Int),
        timeType := .dateTime }) fn rfl rfl hfn
  have hnz : (Time.uncheckedNew
      { year := y, month := m, day := d, hour := h, minute := mi,
        second := s, micro := mc, fsp := (fn : Int),
        timeType := .dateTime }).isZero = false := by
    refine time_not_zero _ ?_
    rw [w2]
    dsimp only
    omega
  unfold Time.roundFrac
  rw [if_neg (by
    intro hc
    rcases hc with hc | hc
    · rw [hgt] at hc
      cases hc
    · rw [hnz] at hc
      exact Bool.false_ne_true hc)]
  rw [checkFsp_natCast fn hfn]
  dsimp only
  rw [hfspX]
  rw [if_neg (by omega : ¬ fn > fn)]
  rw [w7]
  dsimp only
  rw [show mc % 2 ^ 20 = mc from by omega]
  rw [roundFracU_fixed mc fn hmc hfn hdvd]
  dsimp only
  rw [if_neg Bool.false_ne_true]
  rw [hgt, w1, w2, w3, w4, w5, w6]
  dsimp only
  rw [show y % 2 ^ 14 = y from by omega, show m % 2 ^ 4 = m from by omega,
    show d % 2 ^ 5 = d from by omega, show h % 2 ^ 5 = h from by omega,
    show mi % 2 ^ 6 = mi from by omega, show s % 2 ^ 6 = s from by omega]
  rw [fromSlice_dt ctx y m d h mi s mc fn hinv hm1 hm2 hd1 hd2 hy hh hmi hs
    (by omega) hfn]

theorem fromSlice_dt_yearBig (ctx : EvalContext) (y m d h mi s mc n : Nat)
    (hinv : ctx.invalidDates = false) (hm1 : 1 ≤ m) (hd1 : 1 ≤ d)
    (hy : 9999 < y) (hn : n ≤ 6) :
    Time.fromSlice ctx y m d h mi s mc .dateTime n = (none, ctx) := by
  unfold Time.fromSlice
  rw [timeNew_dt_yearBig ctx _ rfl ⟨n, hn, rfl⟩ hinv hm1 hd1 hy]

theorem c8_aux_B (ctx : EvalContext) (t : Time) (fsp : Nat)
    (h1 : ctx.noZeroDate = false) (h2 : ctx.noZeroInDate = false)
    (hinv : ctx.invalidDates = false) (hf : fsp ≤ 6)
    (htt : t.getTimeType = .dateTime)
    (hm1 : 1 ≤ t.month) (hm2 : t.month ≤ 12) (hd1 : 1 ≤ t.day)
    (hd2 : t.day ≤ lastDayOfMonth t.year t.month) (hy9 : t.year ≤ 9999)
    (hh : t.hour ≤ 23) (hmi : t.minute ≤ 59) (hs : t.second ≤ 59)
    (hmc : t.micro ≤ 999999) (hle : fsp ≤ t.fsp) :
    ∀ r ctx2, t.roundFrac ctx (fsp : Int) = (.ok r, ctx2) →
      ctx2 = ctx ∧ r.roundFrac ctx (fsp : Int) = (.ok r, ctx) := by
  intro r ctx2 hcall
  have hnz : t.isZero = false := time_not_zero t hm1
  have h31 := lastDayOfMonth_le_31 t.year t.month
  unfold Time.roundFrac at hcall
  rw [if_neg (by
    intro hc
    rcases hc with hc | hc
    · rw [htt] at hc
      cases hc
    · rw [hnz] at hc
      exact Bool.false_ne_true hc)] at hcall
  rw [checkFsp_natCast fsp hf] at hcall
  dsimp only at hcall
  rw [if_neg (by omega : ¬ fsp > t.fsp)] at hcall
  rw [htt] at hcall
  obtain ⟨hcar, hnc⟩ := roundFracU_out t.micro fsp hmc hf
  by_cases hc : (roundFracU t.micro fsp).1 = true
  · rw [if_pos hc] at hcall
    rw [hcar hc] at hcall
    rw [roundComponents_carry t.year t.month t.day t.hour t.minute t.second
      hm1 hm2 hd1 hd2 hy9 (by omega) (by omega) (by omega)] at hcall
    by_cases k5 : t.second ≤ 58
    · rw [if_pos k5] at hcall
      dsimp only at hcall
      rw [fromSlice_dt ctx t.year t.month t.day t.hour t.minute
        (t.second + 1) 0 fsp hinv hm1 hm2 hd1 hd2 hy9 hh hmi (by omega)
        (by omega) hf] at hcall
      dsimp only at hcall
      injection hcall with hA hB
      injection hA with hA
      subst hA
      subst hB
      exact ⟨rfl, roundFrac_fixed ctx t.year t.month t.day t.hour t.minute
        (t.second + 1) 0 fsp hinv hm1 hm2 hd1 hd2 hy9 hh hmi (by omega)
        (by omega) (dvd_zero _) hf⟩
    · by_cases k4 : t.minute ≤ 58
      · rw [if_neg k5, if_pos k4] at hcall
        dsimp only at hcall
        rw [fromSlice_dt ctx t.year t.month t.day t.hour (t.minute + 1) 0 0
          fsp hinv hm1 hm2 hd1 hd2 hy9 hh (by omega) (by omega) (by omega)
          hf] at hcall
        dsimp only at hcall
        injection hcall with hA hB
        injection hA with hA
        subst hA
        subst hB
        exact ⟨rfl, roundFrac_fixed ctx t.year t.month t.day t.hour
          (t.minute + 1) 0 0 fsp hinv hm1 hm2 hd1 hd2 hy9 hh (by omega)
          (by omega) (by omega) (dvd_zero _) hf⟩
      · by_cases k3 : t.hour ≤ 22
        · rw [if_neg k5, if_neg k4, if_pos k3] at hcall
          dsimp only at hcall
          rw [fromSlice_dt ctx t.year t.month t.day (t.hour + 1) 0 0 0 fsp
            hinv hm1 hm2 hd1 hd2 hy9 (by omega) (by omega) (by omega)
            (by omega) hf] at hcall
          dsimp only at hcall
          injection hcall with hA hB
          injection hA with hA
          subst hA
          subst hB
          exact ⟨rfl, roundFrac_fixed ctx t.year t.month t.day (t.hour + 1)
            0 0 0 fsp hinv hm1 hm2 hd1 hd2 hy9 (by omega) (by omega)
            (by omega) (by omega) (dvd_zero _) hf⟩
        · by_cases k2 : t.day + 1 ≤ lastDayOfMonth t.year t.month
          · rw [if_neg k5, if_neg k4, if_neg k3, if_pos k2] at hcall
            dsimp only at hcall
            rw [fromSlice_dt ctx t.year t.month (t.day + 1) 0 0 0 0 fsp hinv
              hm1 hm2 (by omega) k2 hy9 (by omega) (by omega) (by omega)
              (by omega) hf] at hcall
            dsimp only at hcall
            injection hcall with hA hB
            injection hA with hA
            subst hA
            subst hB
            exact ⟨rfl, roundFrac_fixed ctx t.year t.month (t.day + 1) 0 0 0
              0 fsp hinv hm1 hm2 (by omega) k2 hy9 (by omega) (by omega)
              (by omega) (by omega) (dvd_zero _) hf⟩
          · by_cases k1 : t.month ≤ 11
            · rw [if_neg k5, if_neg k4, if_neg k3, if_neg k2, if_pos k1]
                at hcall
              dsimp only at hcall
              rw [fromSlice_dt ctx t.year (t.month + 1) 1 0 0 0 0 fsp hinv
                (by omega) (by omega) (by omega)
                (by have := lastDayOfMonth_ge_28 t.year (t.month + 1); omega)
                hy9 (by omega) (by omega) (by omega) (by omega) hf] at hcall
              dsimp only at hcall
              injection hcall with hA hB
              injection hA with hA
              subst hA
              subst hB
              exact ⟨rfl, roundFrac_fixed ctx t.year (t.month + 1) 1 0 0 0 0
                fsp hinv (by omega) (by omega) (by omega)
                (by have := lastDayOfMonth_ge_28 t.year (t.month + 1); omega)
                hy9 (by omega) (by omega) (by omega) (by omega) (dvd_zero _)
                hf⟩
            · by_cases k0 : t.year = 0
              · rw [if_neg k5, if_neg k4, if_neg k3, if_neg k2, if_neg k1,
                  if_pos k0] at hcall
                dsimp only at hcall
                rw [timeNew_zero_dt ctx fsp hf h1 h2 hinv] at hcall
                injection hcall with hA hB
                injection hA with hA
                subst hA
                subst hB
                refine ⟨rfl, roundFrac_zero ctx _ _ ?_⟩
                refine isZero_of_zero_fields _
                  ⟨?_, ?_, ?_, ?_, ?_, ?_, ?_⟩
                · rw [(uncheckedNew_fields _).1]; rfl
                · rw [(uncheckedNew_fields _).2.1]; rfl
                · rw [(uncheckedNew_fields _).2.2.1]; rfl
                · rw [(uncheckedNew_fields _).2.2.2.1]; rfl
                · rw [(uncheckedNew_fields _).2.2.2.2.1]; rfl
                · rw [(uncheckedNew_fields _).2.2.2.2.2.1]; rfl
                · rw [(uncheckedNew_fields _).2.2.2.2.2.2]; rfl
              · by_cases ky : t.year + 1 ≤ 9999
                · rw [if_neg k5, if_neg k4, if_neg k3, if_neg k2, if_neg k1,
                    if_neg k0] at hcall
                  dsimp only at hcall
                  rw [fromSlice_dt ctx (t.year + 1) 1 1 0 0 0 0 fsp hinv
                    (by omega) (by omega) (by omega)
                    (by have := lastDayOfMonth_ge_28 (t.year + 1) 1; omega)
                    ky (by omega) (by omega) (by omega) (by omega) hf]
                    at hcall
                  dsimp only at hcall
                  injection hcall with hA hB
                  injection hA with hA
                  subst hA
                  subst hB
                  exact ⟨rfl, roundFrac_fixed ctx (t.year + 1) 1 1 0 0 0 0
                    fsp hinv (by omega) (by omega) (by omega)
                    (by have := lastDayOfMonth_ge_28 (t.year + 1) 1; omega)
                    ky (by omega) (by omega) (by omega) (by omega)
                    (dvd_zero _) hf⟩
                · rw [if_neg k5, if_neg k4, if_neg k3, if_neg k2, if_neg k1,
                    if_neg k0] at hcall
                  dsimp only at hcall
                  rw [fromSlice_dt_yearBig ctx (t.year + 1) 1 1 0 0 0 0 fsp
                    hinv (by omega) (by omega) (by omega) hf] at hcall
                  dsimp only at hcall
                  injection hcall with hA hB
                  exact Except.noConfusion hA
  · have hcf : (roundFracU t.micro fsp).1 = false := by
      revert hc
      cases (roundFracU t.micro fsp).1 <;> simp
    rw [if_neg (by rw [hcf]; exact Bool.false_ne_true)] at hcall
    obtain ⟨hlt, hdvd⟩ := hnc hcf
    rw [fromSlice_dt ctx t.year t.month t.day t.hour t.minute t.second
      ((roundFracU t.micro fsp).2) fsp hinv hm1 hm2 hd1 hd2 hy9 hh hmi hs
      (by omega) hf] at hcall
    dsimp only at hcall
    injection hcall with hA hB
    injection hA with hA
    subst hA
    subst hB
    exact ⟨rfl, roundFrac_fixed ctx t.year t.month t.day t.hour t.minute
      t.second ((roundFracU t.micro fsp).2) fsp hinv hm1 hm2 hd1 hd2 hy9 hh
      hmi hs hlt hdvd hf⟩

theorem setTt_zero_ts (t : Time) (h : t.fspTtF = 0) :
    t.setTt .timestamp = { t with fspTtF := 1 } := by
  unfold Time.setTt Time.getFspTt Time.setFspTt
  rw [h]
  norm_num

theorem getTimeType_odd_ts (t : Time) (n : Nat) (h : t.fspTtF = 2 * n + 1)
    (hn : n ≤ 6) : t.getTimeType = .timestamp := by
  unfold Time.getTimeType Time.getFspTt
  rw [h]
  rw [if_neg (by omega), if_neg (by omega)]

theorem fsp_of_ts (t : Time) (n : Nat) (h : t.fspTtF = 2 * n + 1)
    (hn : n ≤ 6) : t.fsp = n := by
  unfold Time.fsp
  rw [getTimeType_odd_ts t n h hn]
  dsimp only
  unfold Time.getFspTt
  rw [h]
  omega

theorem uncheckedNew_ts_fspTt (c : TimeArgs) (n : Nat)
    (htt : c.timeType = .timestamp) (hfsp : c.fsp = (n : Int)) (hn : n ≤ 6) :
    (Time.uncheckedNew c).fspTtF = 2 * n + 1 := by
  unfold Time.uncheckedNew
  dsimp only
  rw [htt, hfsp]
  rw [show (((n : Int)).emod 256).toNat = n from by
    rw [show ((n : Int)).emod 256 = (n : Int) % 256 from rfl]; omega]
  rw [setTt_zero_ts _ rfl]
  unfold Time.setFsp
  rw [if_neg (by
    rw [getTimeType_odd_ts _ 0 rfl (by omega)]
    exact fun h => nomatch h)]
  rw [if_neg (by omega : ¬ n > 6)]
  unfold Time.setFspTt Time.getFspTt
  dsimp only
  omega

theorem uncheckedNew_ts_meta (c : TimeArgs) (n : Nat)
    (htt : c.timeType = .timestamp) (hfsp : c.fsp = (n : Int)) (hn : n ≤ 6) :
    (Time.uncheckedNew c).getTimeType = .timestamp ∧
    (Time.uncheckedNew c).fsp = n :=
  ⟨getTimeType_odd_ts _ n (uncheckedNew_ts_fspTt c n htt hfsp hn) hn,
   fsp_of_ts _ n (uncheckedNew_ts_fspTt c n htt hfsp hn) hn⟩

theorem timeNew_zero_ts (ctx : EvalContext) (n : Nat) (hn : n ≤ 6)
    (h1 : ctx.noZeroDate = false) :
    Time.new ctx (TimeArgs.zero (n : Int) .timestamp)
      = (.ok (Time.uncheckedNew
          { year := 0, month := 0, day := 0, hour := 0, minute := 0,
            second := 0, micro := 0, fsp := (n : Int),
            timeType := .timestamp }), ctx) := by
  unfold TimeArgs.zero Time.new TimeArgs.check
  dsimp only
  rw [checkFsp_natCast n hn]
  dsimp only
  unfold TimeArgs.checkTimestamp
  rw [if_pos ⟨rfl, rfl, rfl, rfl, rfl, rfl, rfl⟩]
  unfold handleZeroDate
  rw [h1]
  rw [if_neg Bool.false_ne_true]
  dsimp only
  simp only [Option.getD_some]
  split_ifs with hdd
  all_goals first
    | ((try dsimp only at hdd); cases hdd)
    | exact False.elim (by assumption)
    | rfl
    | rw [show ((n : Int)).toNat = n from Int.toNat_natCast n]


theorem fromSlice_ts (ctx : EvalContext) (y m d h mi s mc n : Nat)
    (hm1 : 1 ≤ m) (hn : n ≤ 6) (dt : CDateTime)
    (hok : chronoDatetime ctx.tzOffsetSecs y m d h mi s mc = .ok dt)
    (h0 : 0 ≤ dt.instantSecs) (hM : dt.instantSecs ≤ MAX_TIMESTAMP) :
    Time.fromSlice ctx y m d h mi s mc .timestamp n
      = (some (Time.uncheckedNew
          { year := y, month := m, day := d, hour := h, minute := mi,
            second := s, micro := mc, fsp := (n : Int),
            timeType := .timestamp }), ctx) := by
  unfold Time.fromSlice
  rw [timeNew_timestamp ctx _ rfl ⟨n, hn, rfl⟩ hm1 dt hok h0 hM]
  rfl

theorem fromSlice_ts_inv (ctx : EvalContext) (y m d h mi s mc n : Nat)
    (X : Time) (cx : EvalContext) (hinv : ctx.invalidDates = false)
    (hm1 : 1 ≤ m) (hn : n ≤ 6)
    (heq : Time.fromSlice ctx y m d h mi s mc .timestamp n = (some X, cx)) :
    cx = ctx ∧
    X = Time.uncheckedNew
        { year := y, month := m, day := d, hour := h, minute := mi,
          second := s, micro := mc, fsp := (n : Int),
          timeType := .timestamp } ∧
    ∃ dt, chronoDatetime ctx.tzOffsetSecs y m d h mi s mc = .ok dt ∧
      0 ≤ dt.instantSecs ∧ dt.instantSecs ≤ MAX_TIMESTAMP := by
  cases hcd : chronoDatetime ctx.tzOffsetSecs y m d h mi s mc with
  | error e =>
    exfalso
    unfold Time.fromSlice Time.new TimeArgs.check at heq
    dsimp only at heq
    rw [checkFsp_natCast n hn] at heq
    dsimp only at heq
    unfold TimeArgs.checkTimestamp at heq
    rw [if_neg (by intro hz; exact absurd hz.2.1 (by dsimp only; omega))] at heq
    rw [hcd] at heq
    unfold handleInvalidDate at heq
    rw [hinv] at heq
    rw [if_pos (by simp)] at heq
    dsimp only at heq
    injection heq with hA hB
    exact Option.noConfusion hA
  | ok dt =>
    by_cases hr : 0 ≤ dt.instantSecs ∧ dt.instantSecs ≤ MAX_TIMESTAMP
    · rw [fromSlice_ts ctx y m d h mi s mc n hm1 hn dt hcd hr.1 hr.2] at heq
      injection heq with hA hB
      injection hA with hA
      exact ⟨hB.symm, hA.symm, dt, rfl, hr.1, hr.2⟩
    · exfalso
      unfold Time.fromSlice Time.new TimeArgs.check at heq
      dsimp only at heq
      rw [checkFsp_natCast n hn] at heq
      dsimp only at heq
      unfold TimeArgs.checkTimestamp at heq
      rw [if_neg (by intro hz; exact absurd hz.2.1 (by dsimp only; omega))]
        at heq
      rw [hcd] at heq
      dsimp only at heq
      rw [if_pos hr] at heq
      unfold handleInvalidDate at heq
      rw [hinv] at heq
      rw [if_pos (by simp)] at heq
      dsimp only at heq
      injection heq with hA hB
      exact Option.noConfusion hA


theorem roundFrac_fixed_ts (ctx : EvalContext) (y m d h mi s mc fn : Nat)
    (hm1 : 1 ≤ m) (hm2 : m ≤ 12) (hd31 : d ≤ 31) (hy : y ≤ 10000)
    (hh : h ≤ 23) (hmi : mi ≤ 59) (hs : s ≤ 59)
    (hmc : mc < 1000000) (hdvd : 10 ^ (6 - fn) ∣ mc) (hfn : fn ≤ 6)
    (dt : CDateTime)
    (hok : chronoDatetime ctx.tzOffsetSecs y m d h mi s mc = .ok dt)
    (h0 : 0 ≤ dt.instantSecs) (hM : dt.instantSecs ≤ MAX_TIMESTAMP) :
    (Time.uncheckedNew
      { year := y, month := m, day := d, hour := h, minute := mi,
        second := s, micro := mc, fsp := (fn : Int),
        timeType := .timestamp }).roundFrac ctx (fn : Int)
      = (.ok (Time.uncheckedNew
      { year := y, month := m, day := d, hour := h, minute := mi,
        second := s, micro := mc, fsp := (fn : Int),
        timeType := .timestamp }), ctx) := by
  obtain ⟨w1, w2, w3, w4, w5, w6, w7⟩ := uncheckedNew_fields
    ({ year := y, month := m, day := d, hour := h, minute := mi,
        second := s, micro := mc, fsp := (fn : Int),
        timeType := .timestamp })
  obtain ⟨hgt, hfspX⟩ := uncheckedNew_ts_meta
    ({ year := y, month := m, day := d, hour := h, minute := mi,
        second := s, micro := mc, fsp := (fn : Int),
        timeType := .timestamp }) fn rfl rfl hfn
  have hnz : (Time.uncheckedNew
      { year := y, month := m, day := d, hour := h, minute := mi,
        second := s, micro := mc, fsp := (fn : Int),
        timeType := .timestamp }).isZero = false := by
    refine time_not_zero _ ?_
    rw [w2]
    dsimp only
    omega
  unfold Time.roundFrac
  rw [if_neg (by
    intro hc
    rcases hc with hc | hc
    · rw [hgt] at hc
      cases hc
    · rw [hnz] at hc
      exact Bool.false_ne_true hc)]
  rw [checkFsp_natCast fn hfn]
  dsimp only
  rw [hfspX]
  rw [if_neg (by omega : ¬ fn > fn)]
  rw [w7]
  dsimp only
  rw [show mc % 2 ^ 20 = mc from by omega]
  rw [roundFracU_fixed mc fn hmc hfn hdvd]
  dsimp only
  rw [if_neg Bool.false_ne_true]
  rw [hgt, w1, w2, w3, w4, w5, w6]
  dsimp only
  rw [show y % 2 ^ 14 = y from by omega, show m % 2 ^ 4 = m from by omega,
    show d % 2 ^ 5 = d from by omega, show h % 2 ^ 5 = h from by omega,
    show mi % 2 ^ 6 = mi from by omega, show s % 2 ^ 6 = s from by omega]
  rw [fromSlice_ts ctx y m d h mi s mc fn hm1 hfn dt hok h0 hM]



theorem c8_aux_B_ts (ctx : EvalContext) (t : Time) (fsp : Nat)
    (h1 : ctx.noZeroDate = false) (hinv : ctx.invalidDates = false)
    (hf : fsp ≤ 6) (htt : t.getTimeType = .timestamp)
    (hm1 : 1 ≤ t.month) (hm2 : t.month ≤ 12) (hd1 : 1 ≤ t.day)
    (hd2 : t.day ≤ lastDayOfMonth t.year t.month) (hy9 : t.year ≤ 9999)
    (hh : t.hour ≤ 23) (hmi : t.minute ≤ 59) (hs : t.second ≤ 59)
    (hmc : t.micro ≤ 999999) (hle : fsp ≤ t.fsp) :
    ∀ r ctx2, t.roundFrac ctx (fsp : Int) = (.ok r, ctx2) →
      ctx2 = ctx ∧ r.roundFrac ctx (fsp : Int) = (.ok r, ctx) := by
  intro r ctx2 hcall
  have hnz : t.isZero = false := time_not_zero t hm1
  have h31 := lastDayOfMonth_le_31 t.year t.month
  unfold Time.roundFrac at hcall
  rw [if_neg (by
    intro hc
    rcases hc with hc | hc
    · rw [htt] at hc
      cases hc
    · rw [hnz] at hc
      exact Bool.false_ne_true hc)] at hcall
  rw [checkFsp_natCast fsp hf] at hcall
  dsimp only at hcall
  rw [if_neg (by omega : ¬ fsp > t.fsp)] at hcall
  rw [htt] at hcall
  obtain ⟨hcar, hnc⟩ := roundFracU_out t.micro fsp hmc hf
  by_cases hc : (roundFracU t.micro fsp).1 = true
  · rw [if_pos hc] at hcall
    rw [hcar hc] at hcall
    rw [roundComponents_carry t.year t.month t.day t.hour t.minute t.second
      hm1 hm2 hd1 hd2 hy9 (by omega) (by omega) (by omega)] at hcall
    by_cases k5 : t.second ≤ 58
    · 
      rw [if_pos k5] at hcall
      (try dsimp only at hcall)
      rcases hfs : Time.fromSlice ctx t.year t.month t.day t.hour t.minute (t.second + 1)
        0 .timestamp fsp with ⟨o, cx⟩
      rw [hfs] at hcall
      cases o with
      | none =>
        dsimp only at hcall
        injection hcall with hA hB
        exact Except.noConfusion hA
      | some X =>
        dsimp only at hcall
        injection hcall with hA hB
        injection hA with hA
        obtain ⟨hcx, hX, dt, hok, hi0, hiM⟩ := fromSlice_ts_inv ctx t.year
          t.month t.day t.hour t.minute (t.second + 1) 0 fsp X cx hinv
          hm1 hf hfs
        refine ⟨hB.symm.trans hcx, ?_⟩
        rw [← hA, hX]
        exact roundFrac_fixed_ts ctx t.year t.month t.day t.hour t.minute (t.second + 1)
          0 fsp hm1 hm2 (by omega) (by omega) hh hmi (by omega) (by omega) (dvd_zero _) hf dt hok hi0 hiM
    · by_cases k4 : t.minute ≤ 58
      · 
        rw [if_neg k5, if_pos k4] at hcall
        (try dsimp only at hcall)
        rcases hfs : Time.fromSlice ctx t.year t.month t.day t.hour (t.minute + 1) 0
          0 .timestamp fsp with ⟨o, cx⟩
        rw [hfs] at hcall
        cases o with
        | none =>
          dsimp only at hcall
          injection hcall with hA hB
          exact Except.noConfusion hA
        | some X =>
          dsimp only at hcall
          injection hcall with hA hB
          injection hA with hA
          obtain ⟨hcx, hX, dt, hok, hi0, hiM⟩ := fromSlice_ts_inv ctx t.year
            t.month t.day t.hour (t.minute + 1) 0 0 fsp X cx hinv
            hm1 hf hfs
          refine ⟨hB.symm.trans hcx, ?_⟩
          rw [← hA, hX]
          exact roundFrac_fixed_ts ctx t.year t.month t.day t.hour (t.minute + 1) 0
            0 fsp hm1 hm2 (by omega) (by omega) hh (by omega) (by omega) (by omega) (dvd_zero _) hf dt hok hi0 hiM
      · by_cases k3 : t.hour ≤ 22
        · 
          rw [if_neg k5, if_neg k4, if_pos k3] at hcall
          (try dsimp only at hcall)
          rcases hfs : Time.fromSlice ctx t.year t.month t.day (t.hour + 1) 0 0
            0 .timestamp fsp with ⟨o, cx⟩
          rw [hfs] at hcall
          cases o with
          | none =>
            dsimp only at hcall
            injection hcall with hA hB
            exact Except.noConfusion hA
          | some X =>
            dsimp only at hcall
            injection hcall with hA hB
            injection hA with hA
            obtain ⟨hcx, hX, dt, hok, hi0, hiM⟩ := fromSlice_ts_inv ctx t.year
              t.month t.day (t.hour + 1) 0 0 0 fsp X cx hinv
              hm1 hf hfs
            refine ⟨hB.symm.trans hcx, ?_⟩
            rw [← hA, hX]
            exact roundFrac_fixed_ts ctx t.year t.month t.day (t.hour + 1) 0 0
              0 fsp hm1 hm2 (by omega) (by omega) (by omega) (by omega) (by omega) (by omega) (dvd_zero _) hf dt hok hi0 hiM
        · by_cases k2 : t.day + 1 ≤ lastDayOfMonth t.year t.month
          · 
            rw [if_neg k5, if_neg k4, if_neg k3, if_pos k2] at hcall
            (try dsimp only at hcall)
            rcases hfs : Time.fromSlice ctx t.year t.month (t.day + 1) 0 0 0
              0 .timestamp fsp with ⟨o, cx⟩
            rw [hfs] at hcall
            cases o with
            | none =>
              dsimp only at hcall
              injection hcall with hA hB
              exact Except.noConfusion hA
            | some X =>
              dsimp only at hcall
              injection hcall with hA hB
              injection hA with hA
              obtain ⟨hcx, hX, dt, hok, hi0, hiM⟩ := fromSlice_ts_inv ctx t.year
                t.month (t.day + 1) 0 0 0 0 fsp X cx hinv
                hm1 hf hfs
              refine ⟨hB.symm.trans hcx, ?_⟩
              rw [← hA, hX]
              exact roundFrac_fixed_ts ctx t.year t.month (t.day + 1) 0 0 0
                0 fsp hm1 hm2 (by omega) (by omega) (by omega) (by omega) (by omega) (by omega) (dvd_zero _) hf dt hok hi0 hiM
          · by_cases k1 : t.month ≤ 11
            · 
              rw [if_neg k5, if_neg k4, if_neg k3, if_neg k2, if_pos k1] at hcall
              (try dsimp only at hcall)
              rcases hfs : Time.fromSlice ctx t.year (t.month + 1) 1 0 0 0
                0 .timestamp fsp with ⟨o, cx⟩
              rw [hfs] at hcall
              cases o with
              | none =>
                dsimp only at hcall
                injection hcall with hA hB
                exact Except.noConfusion hA
              | some X =>
                dsimp only at hcall
                injection hcall with hA hB
                injection hA with hA
                obtain ⟨hcx, hX, dt, hok, hi0, hiM⟩ := fromSlice_ts_inv ctx t.year
                  (t.month + 1) 1 0 0 0 0 fsp X cx hinv
                  (by omega) hf hfs
                refine ⟨hB.symm.trans hcx, ?_⟩
                rw [← hA, hX]
                exact roundFrac_fixed_ts ctx t.year (t.month + 1) 1 0 0 0
                  0 fsp (by omega) (by omega) (by omega) (by omega) (by omega) (by omega) (by omega) (by omega) (dvd_zero _) hf dt hok hi0 hiM
            · by_cases k0 : t.year = 0
              · rw [if_neg k5, if_neg k4, if_neg k3, if_neg k2, if_neg k1,
                  if_pos k0] at hcall
                (try dsimp only at hcall)
                rw [timeNew_zero_ts ctx fsp hf h1] at hcall
                injection hcall with hA hB
                injection hA with hA
                refine ⟨hB.symm, ?_⟩
                rw [← hA]
                refine roundFrac_zero ctx _ _ ?_
                refine isZero_of_zero_fields _
                  ⟨?_, ?_, ?_, ?_, ?_, ?_, ?_⟩
                · rw [(uncheckedNew_fields _).1]; rfl
                · rw [(uncheckedNew_fields _).2.1]; rfl
                · rw [(uncheckedNew_fields _).2.2.1]; rfl
                · rw [(uncheckedNew_fields _).2.2.2.1]; rfl
                · rw [(uncheckedNew_fields _).2.2.2.2.1]; rfl
                · rw [(uncheckedNew_fields _).2.2.2.2.2.1]; rfl
                · rw [(uncheckedNew_fields _).2.2.2.2.2.2]; rfl
              · 
                rw [if_neg k5, if_neg k4, if_neg k3, if_neg k2, if_neg k1,
                  if_neg k0] at hcall
                (try dsimp only at hcall)
                rcases hfs : Time.fromSlice ctx (t.year + 1) 1 1 0 0 0
                  0 .timestamp fsp with ⟨o, cx⟩
                rw [hfs] at hcall
                cases o with
                | none =>
                  dsimp only at hcall
                  injection hcall with hA hB
                  exact Except.noConfusion hA
                | some X =>
                  dsimp only at hcall
                  injection hcall with hA hB
                  injection hA with hA
                  obtain ⟨hcx, hX, dt, hok, hi0, hiM⟩ := fromSlice_ts_inv ctx (t.year + 1)
                    1 1 0 0 0 0 fsp X cx hinv
                    (by omega) hf hfs
                  refine ⟨hB.symm.trans hcx, ?_⟩
                  rw [← hA, hX]
                  exact roundFrac_fixed_ts ctx (t.year + 1) 1 1 0 0 0
                    0 fsp (by omega) (by omega) (by omega) (by omega) (by omega) (by omega) (by omega) (by omega) (dvd_zero _) hf dt hok hi0 hiM
  · have hcf : (roundFracU t.micro fsp).1 = false := by
      revert hc
      cases (roundFracU t.micro fsp).1 <;> simp
    obtain ⟨hlt, hdvd⟩ := hnc hcf
    rw [if_neg (by rw [hcf]; exact Bool.false_ne_true)] at hcall
    (try dsimp only at hcall)
    rcases hfs : Time.fromSlice ctx t.year t.month t.day t.hour t.minute t.second
      ((roundFracU t.micro fsp).2) .timestamp fsp with ⟨o, cx⟩
    rw [hfs] at hcall
    cases o with
    | none =>
      dsimp only at hcall
      injection hcall with hA hB
      exact Except.noConfusion hA
    | some X =>
      dsimp only at hcall
      injection hcall with hA hB
      injection hA with hA
      obtain ⟨hcx, hX, dt, hok, hi0, hiM⟩ := fromSlice_ts_inv ctx t.year
        t.month t.day t.hour t.minute t.second ((roundFracU t.micro fsp).2) fsp X cx hinv
        hm1 hf hfs
      refine ⟨hB.symm.trans hcx, ?_⟩
      rw [← hA, hX]
      exact roundFrac_fixed_ts ctx t.year t.month t.day t.hour t.minute t.second
        ((roundFracU t.micro fsp).2) fsp hm1 hm2 (by omega) (by omega) hh hmi hs hlt hdvd hf dt hok hi0 hiM

/-- C8 counterexample: `round_frac` is not idempotent.  For the valid
DateTime 2020-01-01 00:00:00.123456 with fsp 0, `round_frac(t, 3)` takes the
`fsp > self.fsp()` early return, which only widens the stored fsp and keeps
all six fractional digits; applying `round_frac(_, 3)` once more actually
rounds them to 123000, a different value. -/
theorem c8_round_frac_counterexample :
    (Time.fromSlice EvalContext.default 2020 1 1 0 0 0 123456 .dateTime 0).1
      = some c8CexT ∧
    c8CexT.roundFrac EvalContext.default 3
      = (.ok c8CexR, EvalContext.default) ∧
    c8CexR.roundFrac EvalContext.default 3
      = (.ok c8CexR2, EvalContext.default) ∧
    c8CexR2.timeEq c8CexR = false := by
  decide

/-- C8, amended: `round_frac` is the identity on Dates and zero values; it
is idempotent on in-range DateTimes and Timestamps only when the requested
fsp does not exceed the stored one (the claim's unrestricted idempotence
fails for `fsp > self.fsp()`, see the counterexample); and when the half-up
carry cannot propagate (`round_components` returns `None`, e.g. a zero
year, month or day in the way) the result is the zero time value, for
DateTimes and Timestamps alike. -/
theorem c8_round_frac (ctx : EvalContext) (t : Time) (fsp : Nat)
    (h1 : ctx.noZeroDate = false) (h2 : ctx.noZeroInDate = false)
    (hinv : ctx.invalidDates = false) (hf : fsp ≤ 6) :
    ((t.getTimeType = .date ∨ t.isZero = true) →
      t.roundFrac ctx (fsp : Int) = (.ok t, ctx)) ∧
    (t.getTimeType = .dateTime →
      1 ≤ t.month → t.month ≤ 12 → 1 ≤ t.day →
      t.day ≤ lastDayOfMonth t.year t.month → t.year ≤ 9999 →
      t.hour ≤ 23 → t.minute ≤ 59 → t.second ≤ 59 → t.micro ≤ 999999 →
      fsp ≤ t.fsp →
      ∀ r ctx2, t.roundFrac ctx (fsp : Int) = (.ok r, ctx2) →
        ctx2 = ctx ∧ r.roundFrac ctx (fsp : Int) = (.ok r, ctx)) ∧
    (t.getTimeType = .dateTime → t.isZero = false → fsp ≤ t.fsp →
      (roundFracU t.micro fsp).1 = true →
      roundComponents t.year t.month t.day t.hour t.minute t.second
        (roundFracU t.micro fsp).2 = none →
      ∃ z, t.roundFrac ctx (fsp : Int) = (.ok z, ctx) ∧ z.isZero = true) ∧
    (t.getTimeType = .timestamp →
      1 ≤ t.month → t.month ≤ 12 → 1 ≤ t.day →
      t.day ≤ lastDayOfMonth t.year t.month → t.year ≤ 9999 →
      t.hour ≤ 23 → t.minute ≤ 59 → t.second ≤ 59 → t.micro ≤ 999999 →
      fsp ≤ t.fsp →
      ∀ r ctx2, t.roundFrac ctx (fsp : Int) = (.ok r, ctx2) →
        ctx2 = ctx ∧ r.roundFrac ctx (fsp : Int) = (.ok r, ctx)) ∧
    (t.getTimeType = .timestamp → t.isZero = false → fsp ≤ t.fsp →
      (roundFracU t.micro fsp).1 = true →
      roundComponents t.year t.month t.day t.hour t.minute t.second
        (roundFracU t.micro fsp).2 = none →
      ∃ z, t.roundFrac ctx (fsp : Int) = (.ok z, ctx) ∧ z.isZero = true) := by
  refine ⟨?_, ?_, ?_, ?_, ?_⟩
  · intro h
    unfold Time.roundFrac
    rw [if_pos h]
  · intro htt hm1 hm2 hd1 hd2 hy9 hh hmi hs hmc hle
    exact c8_aux_B ctx t fsp h1 h2 hinv hf htt hm1 hm2 hd1 hd2 hy9 hh hmi hs
      hmc hle
  · intro htt hnz0 hle hcarry hnone
    unfold Time.roundFrac
    rw [if_neg (by
      intro hcnd
      rcases hcnd with hcnd | hcnd
      · rw [htt] at hcnd
        cases hcnd
      · rw [hnz0] at hcnd
        exact Bool.false_ne_true hcnd)]
    rw [checkFsp_natCast fsp hf]
    dsimp only
    rw [if_neg (by omega : ¬ fsp > t.fsp)]
    rw [if_pos hcarry]
    rw [hnone]
    dsimp only
    rw [htt]
    rw [timeNew_zero_dt ctx fsp hf h1 h2 hinv]
    refine ⟨_, rfl, ?_⟩
    refine isZero_of_zero_fields _ ⟨?_, ?_, ?_, ?_, ?_, ?_, ?_⟩
    · rw [(uncheckedNew_fields _).1]; rfl
    · rw [(uncheckedNew_fields _).2.1]; rfl
    · rw [(uncheckedNew_fields _).2.2.1]; rfl
    · rw [(uncheckedNew_fields _).2.2.2.1]; rfl
    · rw [(uncheckedNew_fields _).2.2.2.2.1]; rfl
    · rw [(uncheckedNew_fields _).2.2.2.2.2.1]; rfl
    · rw [(uncheckedNew_fields _).2.2.2.2.2.2]; rfl
  · intro htt hm1 hm2 hd1 hd2 hy9 hh hmi hs hmc hle
    exact c8_aux_B_ts ctx t fsp h1 hinv hf htt hm1 hm2 hd1 hd2 hy9 hh hmi hs
      hmc hle
  · intro htt hnz0 hle hcarry hnone
    unfold Time.roundFrac
    rw [if_neg (by
      intro hcnd
      rcases hcnd with hcnd | hcnd
      · rw [htt] at hcnd
        cases hcnd
      · rw [hnz0] at hcnd
        exact Bool.false_ne_true hcnd)]
    rw [checkFsp_natCast fsp hf]
    dsimp only
    rw [if_neg (by omega : ¬ fsp > t.fsp)]
    rw [if_pos hcarry]
    rw [hnone]
    dsimp only
    rw [htt]
    rw [timeNew_zero_ts ctx fsp hf h1]
    refine ⟨_, rfl, ?_⟩
    refine isZero_of_zero_fields _ ⟨?_, ?_, ?_, ?_, ?_, ?_, ?_⟩
    · rw [(uncheckedNew_fields _).1]; rfl
    · rw [(uncheckedNew_fields _).2.1]; rfl
    · rw [(uncheckedNew_fields _).2.2.1]; rfl
    · rw [(uncheckedNew_fields _).2.2.2.1]; rfl
    · rw [(uncheckedNew_fields _).2.2.2.2.1]; rfl
    · rw [(uncheckedNew_fields _).2.2.2.2.2.1]; rfl
    · rw [(uncheckedNew_fields _).2.2.2.2.2.2]; rfl

/-- C8 witness: the amended idempotence at the concrete DateTime
2020-01-01 00:00:00.123456 (fsp 6) and at the concrete Timestamp
2020-01-01 12:00:00.123456 (fsp 6), each rounded to fsp 3. -/
theorem c8_round_frac_witness :
    (EvalContext.default = EvalContext.default ∧
      c8WR.roundFrac EvalContext.default ((3 : Nat) : Int)
        = (.ok c8WR, EvalContext.default)) ∧
    (EvalContext.default = EvalContext.default ∧
      c8WRts.roundFrac EvalContext.default ((3 : Nat) : Int)
        = (.ok c8WRts, EvalContext.default)) :=
  ⟨(c8_round_frac EvalContext.default c8WT 3 rfl rfl rfl (by decide)).2.1
    (by decide) (by decide) (by decide) (by decide) (by decide) (by decide)
    (by decide) (by decide) (by decide) (by decide) (by decide)
    c8WR EvalContext.default (by decide),
   (c8_round_frac EvalContext.default c8WTts 3 rfl rfl rfl
      (by decide)).2.2.2.1
    (by decide) (by decide) (by decide) (by decide) (by decide) (by decide)
    (by decide) (by decide) (by decide) (by decide) (by decide)
    c8WRts EvalContext.default (by decide)⟩

/-- C7: the JSON→f64 conversion behaves exactly as the spec states it, for
every context, every value and every byte-slice float parser: U64/I64/Double
cast numerically, null and false give 0 and true gives 1, strings delegate
to the float parser, and all remaining kinds (containers, opaque, the
date/time kinds) give a truncation error, downgraded to a 0.0 result plus
exactly one appended truncation warning when IGNORE_TRUNCATE is set. -/
theorem c7_json_to_f64
    (strConv : EvalContext → List Nat → Except CErr ℚ × EvalContext)
    (ctx : EvalContext) (j : Json) :
    convertJsonToF64 strConv ctx j = convertJsonToF64Spec strConv ctx j := by
  cases j <;> try rfl
  case literal v =>
    rcases v with - | b
    · rfl
    · cases b <;> rfl
  all_goals
    unfold convertJsonToF64 convertJsonToF64Spec EvalContext.handleTruncateErr
    split_ifs <;> rfl

theorem lookupKV_insertKV (m : List (List Nat × Json)) (k k' : List Nat)
    (v : Json) :
    lookupKV (insertKV m k v) k'
      = if k' = k then some v else lookupKV m k' := by
  induction m with
  | nil =>
    unfold insertKV lookupKV
    by_cases h : k = k'
    · subst h
      rw [if_pos rfl, if_pos rfl]
    · rw [if_neg h, if_neg (fun hh => h hh.symm)]
      rfl
  | cons p rest ih =>
    obtain ⟨k0, v0⟩ := p
    unfold insertKV
    by_cases h0 : k0 = k
    · rw [if_pos h0]
      unfold lookupKV
      by_cases h : k = k'
      · subst h
        rw [if_pos rfl, if_pos rfl]
      · rw [if_neg h, if_neg (fun hh => h hh.symm),
          if_neg (show ¬ k0 = k' from by rw [h0]; exact h)]
    · rw [if_neg h0]
      unfold lookupKV
      by_cases h1 : k0 = k'
      · rw [if_pos h1, if_neg (fun hh => h0 (by rw [h1, hh])), if_pos h1]
      · rw [if_neg h1]
        rw [ih]
        by_cases h : k' = k
        · rw [if_pos h, if_pos h]
        · rw [if_neg h, if_neg h, if_neg h1]

theorem countKeys_insertKV_other (m : List (List Nat × Json))
    (k k' : List Nat) (v : Json) (h : k' ≠ k) :
    countKeys (insertKV m k v) k' = countKeys m k' := by
  have h' : ¬ k = k' := fun hh => h hh.symm
  induction m with
  | nil => simp [insertKV, countKeys, h']
  | cons p rest ih =>
    obtain ⟨k0, v0⟩ := p
    by_cases h0 : k0 = k
    · simp [insertKV, countKeys, h', h0]
    · simp [insertKV, countKeys, h0, ih]

theorem countKeys_insertKV_same (m : List (List Nat × Json)) (k : List Nat)
    (v : Json) :
    countKeys (insertKV m k v) k
      = if countKeys m k = 0 then 1 else countKeys m k := by
  induction m with
  | nil => simp [insertKV, countKeys]
  | cons p rest ih =>
    obtain ⟨k0, v0⟩ := p
    by_cases h0 : k0 = k
    · simp only [insertKV, if_pos h0, countKeys, if_pos h0]
      norm_num
    · simp only [insertKV, if_neg h0, countKeys, if_neg h0, ih]
      split_ifs <;> omega

theorem lookupKV_insertAll (cs : List (List Nat × Json)) :
    ∀ m k, lookupKV (insertAll cs m) k
      = match lastLookup cs k with
        | some w => some w
        | none => lookupKV m k := by
  induction cs with
  | nil => intro m k; rfl
  | cons p rest ih =>
    obtain ⟨k0, v0⟩ := p
    intro m k
    unfold insertAll lastLookup
    rw [ih]
    cases hr : lastLookup rest k with
    | some w => rfl
    | none =>
      dsimp only
      rw [lookupKV_insertKV]
      by_cases h : k = k0
      · rw [if_pos h, if_pos h.symm]
      · rw [if_neg h, if_neg (fun hh => h hh.symm)]

theorem countKeys_insertAll_le (cs : List (List Nat × Json)) :
    ∀ m, (∀ k', countKeys m k' ≤ 1) → ∀ k, countKeys (insertAll cs m) k ≤ 1 := by
  induction cs with
  | nil => intro m hm k; exact hm k
  | cons p rest ih =>
    obtain ⟨k0, v0⟩ := p
    intro m hm k
    unfold insertAll
    refine ih (insertKV m k0 v0) ?_ k
    intro k'
    by_cases h : k' = k0
    · subst h
      rw [countKeys_insertKV_same]
      have := hm k'
      split_ifs <;> omega
    · rw [countKeys_insertKV_other m k0 k' v0 h]
      exact hm k'

theorem lookup_some_le_count (m : List (List Nat × Json)) :
    ∀ k v, lookupKV m k = some v → 1 ≤ countKeys m k := by
  induction m with
  | nil => intro k v h; cases h
  | cons p rest ih =>
    obtain ⟨k0, v0⟩ := p
    intro k v h
    unfold lookupKV at h
    unfold countKeys
    by_cases h0 : k0 = k
    · rw [if_pos h0]
      omega
    · rw [if_neg h0] at h
      rw [if_neg h0]
      have := ih k v h
      omega

theorem flattenPairs_even (kvs : List (Datum × Datum)) :
    (flattenPairs kvs).length % 2 = 0 := by
  induction kvs with
  | nil => rfl
  | cons p rest ih =>
    obtain ⟨a, b⟩ := p
    unfold flattenPairs
    simp only [List.length_cons]
    omega

theorem jsonObjectLoop_convertAll (kvs : List (Datum × Datum)) :
    ∀ cs, convertAll kvs = some cs →
      ∀ m, jsonObjectLoop (flattenPairs kvs) m = .ok (insertAll cs m) := by
  induction kvs with
  | nil =>
    intro cs hc m
    unfold convertAll at hc
    injection hc with hc
    subst hc
    rfl
  | cons p rest ih =>
    obtain ⟨kd, vd⟩ := p
    intro cs hc m
    unfold convertAll at hc
    cases hks : kd.intoString with
    | error e => rw [hks] at hc; cases hc
    | ok k =>
      rw [hks] at hc
      cases hvj : vd.intoJson with
      | error e => rw [hvj] at hc; cases hc
      | ok v =>
        rw [hvj] at hc
        cases hca : convertAll rest with
        | none => rw [hca] at hc; cases hc
        | some cs' =>
          rw [hca] at hc
          dsimp only at hc
          injection hc with hc
          subst hc
          cases kd with
          | null => exact absurd hks (by unfold Datum.intoString; exact
              fun h => nomatch h)
          | bytes s =>
            unfold flattenPairs jsonObjectLoop
            rw [hks, hvj]
            exact ih cs' hca (insertKV m k v)
          | json j => exact absurd hks (by unfold Datum.intoString; exact
              fun h => nomatch h)

/-- C10: for every even-length argument list (given as key/value pairs)
whose keys convert through `into_string` and values through `into_json`,
`json_object` succeeds, every key appears at most once in the resulting
object, and a key that occurs in the pair list — in particular one that
occurs in more than one key position — appears exactly once, bound to the
value paired with its LAST occurrence. -/
theorem c10_json_object (kvs : List (Datum × Datum))
    (cs : List (List Nat × Json)) (hconv : convertAll kvs = some cs) :
    ∃ m, jsonObject (flattenPairs kvs) = .ok (Json.object m) ∧
      (∀ k, countKeys m k ≤ 1) ∧
      (∀ k v, lastLookup cs k = some v →
        countKeys m k = 1 ∧ lookupKV m k = some v) := by
  refine ⟨insertAll cs [], ?_, ?_, ?_⟩
  · unfold jsonObject
    rw [if_pos (flattenPairs_even kvs)]
    rw [jsonObjectLoop_convertAll kvs cs hconv []]
  · exact countKeys_insertAll_le cs [] (fun _ => by unfold countKeys; omega)
  · intro k v hl
    have h1 := lookupKV_insertAll cs [] k
    rw [hl] at h1
    refine ⟨?_, h1⟩
    have hge := lookup_some_le_count (insertAll cs []) k v h1
    have hle := countKeys_insertAll_le cs []
      (fun _ => by unfold countKeys; omega) k
    omega

/-- C10 witness: `json_object` on the concrete duplicate-key list. -/
theorem c10_json_object_witness :
    ∃ m, jsonObject (flattenPairs c10Wkvs) = .ok (Json.object m) ∧
      (∀ k, countKeys m k ≤ 1) ∧
      (∀ k v, lastLookup c10Wcs k = some v →
        countKeys m k = 1 ∧ lookupKV m k = some v) :=
  c10_json_object c10Wkvs c10Wcs rfl

end TikvSpec
